import Mathlib

/-! Technical-analysis engine of the `trade` repository.

A shallow embedding of the indicator library (`calculateSMA`, `calculateRSI`,
`calculateMACD`), the composite scoring engine (`calculateCompositeScore`) and the
recommendation thresholder (`TradingAIAgent`) of the JavaScript sources
`app.js`, `market-scanner.js`, `simple-strategy.js` and `trading-ai-agent.js`.

Conventions of the embedding:

* a finite JavaScript number is an exact rational (`ℚ`): rounding error, signed zero and
  overflow of IEEE doubles are not modelled;
* the one division whose divisor is not guarded by the sources (`range / close` in the
  scoring engine) is modelled with the IEEE results `Infinity`, `-Infinity` and `NaN`
  through `JsNumber`;
* `null` results are `Option.none`; a thrown exception is `Option.none` of the function
  that throws, and is documented at each such function;
* a `for (let i = a; i < b; i++)` loop is `forLoop a b body init`;
* array reads `prices[i]` are `prices.getD i 0`; every read the sources perform after their
  length guards is in range, so the default is never used on those paths;
* a comparison or an arithmetic operation on an indicator value that may be `null` coerces
  `null` to `0`, as JavaScript does (`nullToZero`); a division by such a value is a
  `JsNumber`;
* `Array.prototype.sort` with a comparator `key(b) - key(a)` is the stable sort into
  non-increasing key order (`sortDescendingBy`);
* the builtin `String.prototype.toUpperCase` is an argument `toUpperCase` of the functions
  that reach it, so statements about them hold for every upper-casing function; statements
  at a concrete input pass `String.toUpper`, which agrees with the builtin on the ASCII
  strings used there.
-/

namespace Trade

/-! ## JavaScript helpers -/

/-- The loop `for (let i = start; i < stop; i++) state = body state i`. -/
def forLoop {σ : Type} (start stop : Nat) (body : σ → Nat → σ) (init : σ) : σ :=
  (List.range (stop - start)).foldl (fun s k => body s (start + k)) init

/-- Result of a JavaScript arithmetic expression that may leave the finite numbers. -/
inductive JsNumber where
  | fin (q : ℚ)
  | posInf
  | negInf
  | nan
  deriving DecidableEq, Repr

namespace JsNumber

/-- JavaScript `a / b` on finite numbers (IEEE: a zero divisor gives an infinity or NaN). -/
def div (a b : ℚ) : JsNumber :=
  if b = 0 then
    if 0 < a then posInf else if a < 0 then negInf else nan
  else fin (a / b)

/-- JavaScript `x * c` for a finite `c`. -/
def mul (x : JsNumber) (c : ℚ) : JsNumber :=
  match x with
  | fin q => fin (q * c)
  | posInf => if 0 < c then posInf else if c < 0 then negInf else nan
  | negInf => if 0 < c then negInf else if c < 0 then posInf else nan
  | nan => nan

/-- JavaScript `x - c` for a finite `c`. -/
def sub (x : JsNumber) (c : ℚ) : JsNumber :=
  match x with
  | fin q => fin (q - c)
  | posInf => posInf
  | negInf => negInf
  | nan => nan

/-- JavaScript `x > c` for a finite `c` (false on NaN). -/
def gt (x : JsNumber) (c : ℚ) : Bool :=
  match x with
  | fin q => decide (c < q)
  | posInf => true
  | negInf => false
  | nan => false

end JsNumber

/-- JavaScript `Math.round` on a finite number: the nearest integer, halves going up. -/
def mathRound (x : ℚ) : ℤ := Int.floor (x + 1 / 2)

/-! ## Data model of the scoring engine (`market-scanner.js`) -/

/-- The object `settings.scoringSystem.weights`. -/
structure Weights where
  trend : ℚ
  momentum : ℚ
  volume : ℚ
  volatility : ℚ
  deriving DecidableEq, Repr

/-- The object returned by `calculateMACD`. -/
structure MacdData where
  macd : ℚ
  signal : ℚ
  histogram : ℚ
  deriving DecidableEq, Repr

/-- The field `metrics.sma`. -/
structure SmaMetrics where
  trend : String
  strength : ℚ
  deriving DecidableEq, Repr

/-- The field `metrics.rsi`. -/
structure RsiMetrics where
  value : ℚ
  trend : String
  deriving DecidableEq, Repr

/-- The field `metrics.macd`; `data` is `none` when `calculateMACD` returned `null`. -/
structure MacdMetrics where
  trend : String
  signal : String
  data : Option MacdData
  deriving DecidableEq, Repr

/-- The field `metrics.volume`. -/
structure VolumeMetrics where
  current : ℚ
  average : ℚ
  deriving DecidableEq, Repr

/-- The field `metrics.volatility`. -/
structure VolatilityMetrics where
  high : ℚ
  low : ℚ
  close : ℚ
  deriving DecidableEq, Repr

/-- The argument of `calculateCompositeScore`. -/
structure Metrics where
  sma : SmaMetrics
  rsi : RsiMetrics
  macd : MacdMetrics
  volume : VolumeMetrics
  volatility : VolatilityMetrics
  deriving DecidableEq, Repr

namespace MarketScanner

/-- The expression `(metrics.sma.trend === 'bullish' ? 1 : -1)`. -/
def trendSign (metrics : Metrics) : ℚ :=
  if metrics.sma.trend = "bullish" then 1 else -1

/-- The local `percentRange` of `calculateCompositeScore`:
`(range / metrics.volatility.close) * 100` with `range = high - low`. -/
def percentRange (metrics : Metrics) : JsNumber :=
  (JsNumber.div (metrics.volatility.high - metrics.volatility.low)
    metrics.volatility.close).mul 100

/-- The block "Учитываем тренд SMA" of `calculateCompositeScore`, as an update of `score`. -/
def applyTrend (weights : Weights) (metrics : Metrics) (score : ℚ) : ℚ :=
  if metrics.sma.trend = "bullish" then
    score + weights.trend * 100 * min (metrics.sma.strength / 10) 1
  else if metrics.sma.trend = "bearish" then
    score - weights.trend * 100 * min (metrics.sma.strength / 10) 1
  else score

/-- The block "Учитываем RSI" of `calculateCompositeScore`, as an update of `score`. -/
def applyRsi (weights : Weights) (metrics : Metrics) (score : ℚ) : ℚ :=
  if metrics.rsi.value < 30 then
    score + weights.momentum * 100 * (1 - metrics.rsi.value / 30)
  else if metrics.rsi.value > 70 then
    score - weights.momentum * 100 * ((metrics.rsi.value - 70) / 30)
  else
    score + weights.momentum * 100 * ((metrics.rsi.value - 50) / 20)

/-- The block "Учитываем MACD" of `calculateCompositeScore`, as an update of `score`. -/
def applyMacd (weights : Weights) (metrics : Metrics) (score : ℚ) : ℚ :=
  if metrics.macd.data.isSome then
    if metrics.macd.signal = "strong_buy" then score + weights.momentum * 100
    else if metrics.macd.signal = "buy" then score + weights.momentum * 70
    else if metrics.macd.signal = "strong_sell" then score - weights.momentum * 100
    else if metrics.macd.signal = "sell" then score - weights.momentum * 70
    else if metrics.macd.trend = "bullish" then score + weights.momentum * 30
    else if metrics.macd.trend = "bearish" then score - weights.momentum * 30
    else score
  else score

/-- The block "Учитываем объем" of `calculateCompositeScore`, as an update of `score`
(`1.5`, `1.2` and `0.8` are the rationals `3/2`, `6/5` and `4/5`). -/
def applyVolume (weights : Weights) (metrics : Metrics) (score : ℚ) : ℚ :=
  if metrics.volume.current > metrics.volume.average * (3 / 2) then
    score + weights.volume * 100 * trendSign metrics
  else if metrics.volume.current > metrics.volume.average * (6 / 5) then
    score + weights.volume * 70 * trendSign metrics
  else if metrics.volume.current < metrics.volume.average * (4 / 5) then
    score - weights.volume * 30 * trendSign metrics
  else score

/-- The block "Учитываем волатильность" of `calculateCompositeScore`, as an update of
`score`. -/
def applyVolatility (weights : Weights) (metrics : Metrics) (score : ℚ) : ℚ :=
  if (percentRange metrics).gt 5 then
    score + weights.volatility * 100 * trendSign metrics
  else if (percentRange metrics).gt 2 then
    score + weights.volatility * 60 * trendSign metrics
  else
    score + weights.volatility * 20 * trendSign metrics

/-- The value of the local `score` of `calculateCompositeScore` just before the final
`Math.max(0, Math.min(100, score))`: the five blocks applied in order to the base 50. -/
def rawCompositeScore (weights : Weights) (metrics : Metrics) : ℚ :=
  applyVolatility weights metrics
    (applyVolume weights metrics
      (applyMacd weights metrics
        (applyRsi weights metrics
          (applyTrend weights metrics 50))))

/-- Method `MarketScanner.calculateCompositeScore(metrics)` with
`weights = this.settings.scoringSystem.weights`.  The `catch` branch (return 50) is only
reached when a field access throws, which cannot happen for a `Metrics` value whose fields
are all present. -/
def calculateCompositeScore (weights : Weights) (metrics : Metrics) : ℚ :=
  max 0 (min 100 (rawCompositeScore weights metrics))

/-! ### The score formula as the specification words it -/

/-- Sign `sg`: `+1` for a bullish SMA trend, `-1` for a bearish one. -/
def specSign (trend : String) : ℚ :=
  if trend = "bullish" then 1 else if trend = "bearish" then -1 else 0

/-- Trend term `T`. -/
def specTrendTerm (w : Weights) (m : Metrics) : ℚ :=
  specSign m.sma.trend * w.trend * 100 * min (m.sma.strength / 10) 1

/-- RSI half of the momentum term, `R`. -/
def specRsiTerm (w : Weights) (m : Metrics) : ℚ :=
  if m.rsi.value < 30 then w.momentum * 100 * (1 - m.rsi.value / 30)
  else if m.rsi.value > 70 then -(w.momentum * 100 * ((m.rsi.value - 70) / 30))
  else w.momentum * 100 * ((m.rsi.value - 50) / 20)

/-- MACD half of the momentum term, `M`. -/
def specMacdTerm (w : Weights) (m : Metrics) : ℚ :=
  match m.macd.data with
  | none => 0
  | some _ =>
    if m.macd.signal = "strong_buy" then 100 * w.momentum
    else if m.macd.signal = "buy" then 70 * w.momentum
    else if m.macd.signal = "strong_sell" then -(100 * w.momentum)
    else if m.macd.signal = "sell" then -(70 * w.momentum)
    else if m.macd.trend = "bullish" then 30 * w.momentum
    else if m.macd.trend = "bearish" then -(30 * w.momentum)
    else 0

/-- Volume term `V`. -/
def specVolumeTerm (w : Weights) (m : Metrics) : ℚ :=
  if m.volume.current > (3 / 2) * m.volume.average then specSign m.sma.trend * w.volume * 100
  else if m.volume.current > (6 / 5) * m.volume.average then specSign m.sma.trend * w.volume * 70
  else if m.volume.current < (4 / 5) * m.volume.average then
    -(specSign m.sma.trend) * w.volume * 30
  else 0

/-- Volatility term `X`; the percent range `(high - low) / close * 100` is the JavaScript
expression, so a zero close gives an infinite or undefined percent range. -/
def specVolatilityTerm (w : Weights) (m : Metrics) : ℚ :=
  if ((JsNumber.div (m.volatility.high - m.volatility.low) m.volatility.close).mul 100).gt 5
  then specSign m.sma.trend * w.volatility * 100
  else if
    ((JsNumber.div (m.volatility.high - m.volatility.low) m.volatility.close).mul 100).gt 2
  then specSign m.sma.trend * w.volatility * 60
  else specSign m.sma.trend * w.volatility * 20

/-- The clamp to `[0,100]`. -/
def clamp0to100 (x : ℚ) : ℚ := max 0 (min 100 x)

/-- The specified score `clamp(50 + T + R + M + V + X)`. -/
def specCompositeScore (w : Weights) (m : Metrics) : ℚ :=
  clamp0to100 (50 + specTrendTerm w m + specRsiTerm w m + specMacdTerm w m
    + specVolumeTerm w m + specVolatilityTerm w m)

end MarketScanner

/-! ## Data model of the recommendation thresholder (`trading-ai-agent.js`) -/

/-- JavaScript `x.toFixed(1)` on a finite number below `1e21` in absolute value. -/
def toFixed1 (x : ℚ) : String :=
  let n : ℕ := Int.toNat (Int.floor (|x| * 10 + 1 / 2))
  let body := toString (n / 10) ++ "." ++ toString (n % 10)
  if x < 0 then "-" ++ body else body

/-- The value of `analysis.score`: a number, `null` (scoring disabled or failed analysis)
or `undefined` (field absent). -/
inductive ScoreValue where
  | num (q : ℚ)
  | null
  | undefined
  deriving DecidableEq, Repr

namespace ScoreValue

/-- JavaScript `ToNumber`: `null` is `0`, `undefined` is `NaN` (here `none`). -/
def toNumber : ScoreValue → Option ℚ
  | num q => some q
  | null => some 0
  | undefined => none

/-- JavaScript `score >= t` (false when the score converts to `NaN`). -/
def ge (s : ScoreValue) (t : ℚ) : Bool :=
  match s.toNumber with
  | some q => decide (t ≤ q)
  | none => false

/-- JavaScript `score <= t` (false when the score converts to `NaN`). -/
def le (s : ScoreValue) (t : ℚ) : Bool :=
  match s.toNumber with
  | some q => decide (q ≤ t)
  | none => false

/-- The template expression
`score !== undefined && score !== null ? score.toFixed(1) : '0.0'`. -/
def display : ScoreValue → String
  | num q => toFixed1 q
  | null => "0.0"
  | undefined => "0.0"

end ScoreValue

/-- A trading signal as produced by the analysis flows.  The signals of `app.js` carry no
`source` field (`none`; it prints as `undefined`), those of `market-scanner.js` do. -/
structure Signal where
  type : String
  action : String
  strength : ℚ
  description : String
  source : Option String
  deriving DecidableEq, Repr

/-- The fields of `options.analysis` that the agent reads; `signals` is `none` when the
field is absent. -/
structure AgentAnalysis where
  score : ScoreValue
  signals : Option (List Signal)
  deriving DecidableEq, Repr

/-- The argument `options` of the agent methods; `analysis` is `none` when the caller
passed no analysis (destructuring it then throws). -/
structure AgentOptions where
  symbol : String
  analysis : Option AgentAnalysis
  currentPrice : ℚ
  timeframe : String
  deriving DecidableEq, Repr

/-- The object `config.localAI.trendThresholds`. -/
structure Thresholds where
  strongBull : ℚ
  bull : ℚ
  bear : ℚ
  strongBear : ℚ
  deriving DecidableEq, Repr

/-- The parts of `config.js` (absent from the sources) that the agent reads:
`ai.enableExternalIntegration`, `ai.apiKey` and `localAI.trendThresholds`
(`none` when `config.localAI` is not defined, in which case reading it throws). -/
structure AgentConfig where
  externalAPIEnabled : Bool
  apiKey : Option String
  trendThresholds : Option Thresholds
  deriving DecidableEq, Repr

/-- The field `details` of a recommendation. -/
structure RecommendationDetails where
  symbol : String
  timeframe : String
  currentPrice : ℚ
  score : ScoreValue
  signals : Option (List Signal)
  aiResponse : Option String
  error : Option String
  deriving DecidableEq, Repr

/-- A recommendation object; `details` is `none` only in the error recommendation, whose
details hold the error message alone. -/
structure Recommendation where
  action : String
  confidence : ℚ
  reasoning : String
  timestamp : String
  details : Option RecommendationDetails
  deriving DecidableEq, Repr

/-- The mutable fields of a `TradingAIAgent` instance. -/
structure AgentState where
  lastRecommendation : Option Recommendation
  lastRecommendationTime : Option String
  recommendationHistory : List Recommendation
  deriving DecidableEq, Repr

/-- The result of the builtin `parseInt`: `NaN`, an integer, or an infinity. -/
inductive ParsedInt where
  | nan
  | int (z : ℤ)
  | posInf
  | negInf
  deriving DecidableEq, Repr

/-- The object `aiRecommendation` obtained by `JSON.parse`.  `action` is `none` when the
field is missing or is not a string (both make the parse path throw), `reasoning` is `none`
when missing, and `confidence` is the value of `parseInt(aiRecommendation.confidence)`. -/
structure AiRecommendation where
  action : Option String
  reasoning : Option String
  confidence : ParsedInt
  deriving DecidableEq, Repr

/-- What the first three steps of `parseExternalAIResponse` make of the response body:
`malformed` when reading `response.choices[0].message.content`, the search for
a JSON object, or `JSON.parse` fails; otherwise the response text and the parsed object. -/
inductive ExternalResponse where
  | malformed
  | parsed (responseText : String) (aiRecommendation : AiRecommendation)
  deriving DecidableEq, Repr

/-- Outcome of the `fetch` call of `getExternalAIRecommendations`. -/
inductive FetchResult where
  | requestFailed
  | notOk
  | ok (response : ExternalResponse)
  deriving DecidableEq, Repr

namespace TradingAIAgent

/-- The constant `validActions` of `parseExternalAIResponse`. -/
def validActions : List String := ["STRONG_BUY", "BUY", "HOLD", "SELL", "STRONG_SELL"]

/-- The state of a freshly constructed agent. -/
def initialState : AgentState :=
  { lastRecommendation := none, lastRecommendationTime := none, recommendationHistory := [] }

/-- The statements that store a recommendation: set `lastRecommendation`, push on
`recommendationHistory`, and `shift()` when the history has more than 100 entries. -/
def record (now : String) (st : AgentState) (recommendation : Recommendation) : AgentState :=
  let history := st.recommendationHistory ++ [recommendation]
  { lastRecommendation := some recommendation
    lastRecommendationTime := some now
    recommendationHistory := if history.length > 100 then history.drop 1 else history }

/-- The `if / else if` chain of `getLocalAIRecommendations`: the action, the confidence
before rounding, and the opening sentence of the reasoning.  `confidence = score` and
`confidence = 100 - score` are only reached when the score converts to a number. -/
def localDecision (thresholds : Thresholds) (symbol : String) (score : ScoreValue) :
    String × ℚ × String :=
  if score.ge thresholds.strongBull then
    ("STRONG_BUY", score.toNumber.getD 0,
      "Сильный бычий тренд (" ++ score.display ++ "%) на " ++ symbol ++ ". ")
  else if score.ge thresholds.bull then
    ("BUY", score.toNumber.getD 0,
      "Бычий тренд (" ++ score.display ++ "%) на " ++ symbol ++ ". ")
  else if score.le thresholds.strongBear then
    ("STRONG_SELL", 100 - score.toNumber.getD 0,
      "Сильный медвежий тренд (" ++ score.display ++ "%) на " ++ symbol ++ ". ")
  else if score.le thresholds.bear then
    ("SELL", 100 - score.toNumber.getD 0,
      "Медвежий тренд (" ++ score.display ++ "%) на " ++ symbol ++ ". ")
  else
    ("HOLD", 50, "Нейтральный тренд (" ++ score.display ++ "%) на " ++ symbol ++ ". ")

/-- The second sentence of the reasoning, built from the signal list. -/
def signalsSentence (signals : Option (List Signal)) : String :=
  match signals with
  | some (s :: rest) =>
    "Сигналы: " ++
      String.intercalate ", " ((s :: rest).map (fun x => x.type ++ " (" ++ x.source.getD "undefined" ++ ")"))
      ++ "."
  | _ => "Нет явных сигналов для принятия решения."

/-- Method `TradingAIAgent.getLocalAIRecommendations(options)`; `now` is the value of
`new Date().toISOString()`.  The result is `none` when the method throws: `options.analysis`
is absent, or `config.localAI` is absent. -/
def getLocalAIRecommendations (config : AgentConfig) (now : String) (st : AgentState)
    (options : AgentOptions) : Option (Recommendation × AgentState) :=
  match options.analysis, config.trendThresholds with
  | some analysis, some thresholds =>
    let decision := localDecision thresholds options.symbol analysis.score
    let recommendation : Recommendation :=
      { action := decision.1
        confidence := (mathRound decision.2.1 : ℤ)
        reasoning := decision.2.2 ++ signalsSentence analysis.signals
        timestamp := now
        details := some
          { symbol := options.symbol
            timeframe := options.timeframe
            currentPrice := options.currentPrice
            score := analysis.score
            signals := analysis.signals
            aiResponse := none
            error := none } }
    some (recommendation, record now st recommendation)
  | _, _ => none

/-- The expression `Math.min(100, Math.max(0, parseInt(aiRecommendation.confidence) || 50))`
given the value of the `parseInt` call. -/
def externalConfidence (parsedInt : ParsedInt) : ℚ :=
  match parsedInt with
  | ParsedInt.nan => 50
  | ParsedInt.int z => if z = 0 then 50 else min 100 (max 0 (z : ℚ))
  | ParsedInt.posInf => 100
  | ParsedInt.negInf => 0

/-- The `try` block of `parseExternalAIResponse`; `none` when it throws.  The builtin
`String.prototype.toUpperCase` is the argument `toUpperCase`: the embedding does not fix
it, so what is proved holds for every upper-casing function. -/
def parseExternalAIResponseTry (toUpperCase : String → String) (now : String)
    (st : AgentState) (response : ExternalResponse) (options : AgentOptions) :
    Option (Recommendation × AgentState) :=
  match response with
  | ExternalResponse.malformed => none
  | ExternalResponse.parsed responseText aiRecommendation =>
    match aiRecommendation.action, aiRecommendation.reasoning, options.analysis with
    | some action, some reasoning, some analysis =>
      if action = "" ∨ reasoning = "" then none
      else
        let normalizedAction := toUpperCase action
        if normalizedAction ∈ validActions then
          let recommendation : Recommendation :=
            { action := normalizedAction
              confidence := externalConfidence aiRecommendation.confidence
              reasoning := reasoning
              timestamp := now
              details := some
                { symbol := options.symbol
                  timeframe := options.timeframe
                  currentPrice := options.currentPrice
                  score := analysis.score
                  signals := analysis.signals
                  aiResponse := some responseText
                  error := none } }
          some (recommendation, record now st recommendation)
        else none
    | _, _, _ => none

/-- Method `TradingAIAgent.parseExternalAIResponse(response, options)`: the `try` block, and on
any exception the local recommendation (which may itself throw: `none`). -/
def parseExternalAIResponse (toUpperCase : String → String) (config : AgentConfig)
    (now : String) (st : AgentState) (response : ExternalResponse) (options : AgentOptions) :
    Option (Recommendation × AgentState) :=
  match parseExternalAIResponseTry toUpperCase now st response options with
  | some result => some result
  | none => getLocalAIRecommendations config now st options

/-- Method `TradingAIAgent.getExternalAIRecommendations(options)` given the outcome of the
`fetch` call.  The API-key check precedes the `try`, so a missing key throws out of the
method (`none`); failures inside the `try` fall back to the local recommendation. -/
def getExternalAIRecommendations (toUpperCase : String → String) (config : AgentConfig)
    (now : String) (st : AgentState) (fetchResult : FetchResult) (options : AgentOptions) :
    Option (Recommendation × AgentState) :=
  match config.apiKey with
  | none => none
  | some key =>
    if key = "" then none
    else
      match fetchResult with
      | FetchResult.ok response =>
        match parseExternalAIResponse toUpperCase config now st response options with
        | some result => some result
        | none => getLocalAIRecommendations config now st options
      | _ => getLocalAIRecommendations config now st options

/-- The recommendation built in the `catch` block of `getRecommendations`. -/
def errorRecommendation (now : String) : Recommendation :=
  { action := "HOLD"
    confidence := 50
    reasoning := "Произошла ошибка при анализе данных. " ++
      "Рекомендуется воздержаться от активных действий."
    timestamp := now
    details := none }

/-- Method `TradingAIAgent.getRecommendations(options)`: the external path when external
integration is enabled, else the local path; when either throws, the error
recommendation, and the agent state is left as it was. -/
def getRecommendations (toUpperCase : String → String) (config : AgentConfig)
    (now : String) (st : AgentState) (fetchResult : FetchResult) (options : AgentOptions) :
    Recommendation × AgentState :=
  let attempt :=
    if config.externalAPIEnabled then
      getExternalAIRecommendations toUpperCase config now st fetchResult options
    else getLocalAIRecommendations config now st options
  match attempt with
  | some result => result
  | none => (errorRecommendation now, st)

/-- The invariant of a recommendation: its action is one of the five enum values and its
confidence is an integer between 0 and 100. -/
def WellFormed (r : Recommendation) : Prop :=
  r.action ∈ validActions ∧ ∃ z : ℤ, r.confidence = (z : ℚ) ∧ 0 ≤ z ∧ z ≤ 100

end TradingAIAgent

/-! ## Indicator library: simple moving average (three copies) -/

namespace App

/-- Function `calculateSMA(prices, period)` of `app.js`; `none` is `null`. -/
def calculateSMA (prices : List ℚ) (period : Nat) : Option ℚ :=
  if prices.length < period then none
  else
    let sum := (prices.drop (prices.length - period)).foldl (fun total price => total + price) 0
    some (sum / period)

end App

namespace MarketScanner

/-- Method `MarketScanner.calculateSMA(prices, period)` of `market-scanner.js`. -/
def calculateSMA (prices : List ℚ) (period : Nat) : Option ℚ :=
  if prices.length < period then none
  else
    let sum := (prices.drop (prices.length - period)).foldl (fun total price => total + price) 0
    some (sum / period)

end MarketScanner

namespace SimpleStrategy

/-- Function `calculateSMA(prices, period)` of `simple-strategy.js`. -/
def calculateSMA (prices : List ℚ) (period : Nat) : Option ℚ :=
  if prices.length < period then none
  else
    let sum := (prices.drop (prices.length - period)).foldl (fun total price => total + price) 0
    some (sum / period)

end SimpleStrategy

/-- The last `n` elements of a list, in their order. -/
def lastElements (xs : List ℚ) (n : Nat) : List ℚ := (xs.reverse.take n).reverse

/-! ## Indicator library: relative strength index (two copies) -/

/-- The final expression of both RSI functions for given averages:
`100` if `avgLoss === 0`, else `100 - 100 / (1 + avgGain / avgLoss)`. -/
def rsiValue (avgGain avgLoss : ℚ) : ℚ :=
  if avgLoss = 0 then 100 else 100 - 100 / (1 + avgGain / avgLoss)

namespace App

/-- First loop of `calculateRSI` (`for (let i = 1; i <= period; i++)`): the pair
`(gains, losses)` after it. -/
def rsiSeed (prices : List ℚ) (period : Nat) : ℚ × ℚ :=
  forLoop 1 (period + 1)
    (fun (acc : ℚ × ℚ) i =>
      let change := prices.getD i 0 - prices.getD (i - 1) 0
      if change ≥ 0 then (acc.1 + change, acc.2) else (acc.1, acc.2 - change))
    (0, 0)

/-- Second loop of `calculateRSI` (`for (let i = period + 1; i < prices.length; i++)`):
the triple `(avgGain, avgLoss, rsiValues)` after it. -/
def rsiLoop (prices : List ℚ) (period : Nat) : ℚ × ℚ × List ℚ :=
  let seed := rsiSeed prices period
  forLoop (period + 1) prices.length
    (fun (st : ℚ × ℚ × List ℚ) i =>
      let change := prices.getD i 0 - prices.getD (i - 1) 0
      let currentGain : ℚ := if change ≥ 0 then change else 0
      let currentLoss : ℚ := if change ≥ 0 then 0 else -change
      let avgGain := (st.1 * ((period : ℚ) - 1) + currentGain) / period
      let avgLoss := (st.2.1 * ((period : ℚ) - 1) + currentLoss) / period
      (avgGain, avgLoss,
        st.2.2 ++ [if avgLoss = 0 then 100 else 100 - 100 / (1 + avgGain / avgLoss)]))
    (seed.1 / period, seed.2 / period, [])

/-- Function `calculateRSI(prices, period)` of `app.js`; `none` is `null`. -/
def calculateRSI (prices : List ℚ) (period : Nat) : Option ℚ :=
  if prices.length < period + 1 then none
  else
    let rsiValues := (rsiLoop prices period).2.2
    if rsiValues.length > 0 then some (rsiValues.getD (rsiValues.length - 1) 0) else none

end App

namespace MarketScanner

/-- First loop of `calculateRSI`: the pair `(gains, losses)` after it. -/
def rsiSeed (prices : List ℚ) (period : Nat) : ℚ × ℚ :=
  forLoop 1 (period + 1)
    (fun (acc : ℚ × ℚ) i =>
      let change := prices.getD i 0 - prices.getD (i - 1) 0
      if change ≥ 0 then (acc.1 + change, acc.2) else (acc.1, acc.2 - change))
    (0, 0)

/-- Second loop of `calculateRSI`: the pair `(avgGain, avgLoss)` after it. -/
def rsiAverages (prices : List ℚ) (period : Nat) : ℚ × ℚ :=
  let seed := rsiSeed prices period
  forLoop (period + 1) prices.length
    (fun (st : ℚ × ℚ) i =>
      let change := prices.getD i 0 - prices.getD (i - 1) 0
      let currentGain : ℚ := if change ≥ 0 then change else 0
      let currentLoss : ℚ := if change ≥ 0 then 0 else -change
      ((st.1 * ((period : ℚ) - 1) + currentGain) / period,
        (st.2 * ((period : ℚ) - 1) + currentLoss) / period))
    (seed.1 / period, seed.2 / period)

/-- Method `MarketScanner.calculateRSI(prices, period)` of `market-scanner.js`; it returns the
neutral default 50 on a short series and never `null` (`none`). -/
def calculateRSI (prices : List ℚ) (period : Nat) : Option ℚ :=
  if prices.length < period + 1 then some 50
  else
    let avg := rsiAverages prices period
    if avg.2 = 0 then some 100
    else
      let rs := avg.1 / avg.2
      some (100 - 100 / (1 + rs))

end MarketScanner

/-! ## Indicator library: MACD of `app.js` (full-series evaluation) -/

namespace App

/-- The inner function `calculateEMA(prices, period)` of `calculateMACD`: the array
`emaValues`, whose first entry is the seed (mean of `prices.slice(0, period)`) and which
gets one entry per index `i` from `period` to the end. -/
def calculateEMA (prices : List ℚ) (period : Nat) : List ℚ :=
  let ema0 : ℚ := (prices.take period).foldl (fun sum price => sum + price) 0 / period
  let multiplier : ℚ := 2 / ((period : ℚ) + 1)
  (forLoop period prices.length
    (fun (st : ℚ × List ℚ) i =>
      let ema := (prices.getD i 0 - st.1) * multiplier + st.1
      (ema, st.2 ++ [ema]))
    (ema0, [ema0])).2

/-- The two alignment loops of `calculateMACD` (MACD line from `fastEMA` and `slowEMA`,
histogram from `macdLine` and `signalLine`):
`for (i = 0; i < short.length; i++) { k = i + (long.length - short.length);
if (k >= 0) out.push(long[k] - short[i]) }`. -/
def alignedDifference (long short : List ℚ) : List ℚ :=
  forLoop 0 short.length
    (fun (out : List ℚ) i =>
      let k : ℤ := (i : ℤ) + ((long.length : ℤ) - (short.length : ℤ))
      if k ≥ 0 then out ++ [long.getD k.toNat 0 - short.getD i 0] else out)
    []

/-- Function `calculateMACD(prices, fastPeriod, slowPeriod, signalPeriod)` of `app.js`;
`none` is `null`. -/
def calculateMACD (prices : List ℚ) (fastPeriod slowPeriod signalPeriod : Nat) :
    Option MacdData :=
  if prices.length < slowPeriod + signalPeriod then none
  else
    let fastEMA := calculateEMA prices fastPeriod
    let slowEMA := calculateEMA prices slowPeriod
    let macdLine := alignedDifference fastEMA slowEMA
    let signalLine := calculateEMA macdLine signalPeriod
    let histogram := alignedDifference macdLine signalLine
    some
      { macd := macdLine.getD (macdLine.length - 1) 0
        signal := signalLine.getD (signalLine.length - 1) 0
        histogram := histogram.getD (histogram.length - 1) 0 }

end App

/-! ### MACD as the specification words it -/

/-- The EMA of a series: seeded with the simple average of its first `period` inputs, then
updated by `ema = (x - ema) * 2 / (period + 1) + ema` for each later input. -/
def specEMA (xs : List ℚ) (period : Nat) : ℚ :=
  (xs.drop period).foldl (fun ema x => (x - ema) * 2 / ((period : ℚ) + 1) + ema)
    ((xs.take period).sum / period)

/-- The MACD-line series: one value `EMA_fast - EMA_slow` per price index from `slow - 1`
to the end, each EMA taken over the prices up to that index. -/
def specMacdLine (prices : List ℚ) (fast slow : Nat) : List ℚ :=
  (List.range (prices.length - (slow - 1))).map (fun k =>
    specEMA (prices.take (slow - 1 + k + 1)) fast - specEMA (prices.take (slow - 1 + k + 1)) slow)

/-- The specified MACD triple: `macd = EMA_fast - EMA_slow` at the last price, `signal` the
EMA of the MACD-line series, `histogram = macd - signal`. -/
def specMACD (prices : List ℚ) (fast slow signalPeriod : Nat) : MacdData :=
  { macd := specEMA prices fast - specEMA prices slow
    signal := specEMA (specMacdLine prices fast slow) signalPeriod
    histogram := (specEMA prices fast - specEMA prices slow)
      - specEMA (specMacdLine prices fast slow) signalPeriod }

/-! ## Indicator library: MACD of `market-scanner.js` (last-point evaluation) -/

namespace MarketScanner

/-- The inner function `calculateEMA(data, period)` of `MarketScanner.calculateMACD`: the
last EMA value only.  On data shorter than `period` the seed is the sum of all the data
divided by `period` and the loop does not run. -/
def calculateEMA (data : List ℚ) (period : Nat) : ℚ :=
  let ema0 : ℚ := (data.take period).foldl (fun sum price => sum + price) 0 / period
  let multiplier : ℚ := 2 / ((period : ℚ) + 1)
  forLoop period data.length (fun (ema : ℚ) i => (data.getD i 0 - ema) * multiplier + ema) ema0

/-- The array `macdValues` of `MarketScanner.calculateMACD`: one value per index `i` from
`prices.length - slowPeriod` to the end, from the EMAs of `prices.slice(0, i + 1)`. -/
def macdValues (prices : List ℚ) (fastPeriod slowPeriod : Nat) : List ℚ :=
  forLoop (prices.length - slowPeriod) prices.length
    (fun (out : List ℚ) i =>
      out ++ [calculateEMA (prices.take (i + 1)) fastPeriod
        - calculateEMA (prices.take (i + 1)) slowPeriod])
    []

/-- Method `MarketScanner.calculateMACD(prices, fastPeriod, slowPeriod, signalPeriod)`;
`none` is `null`. -/
def calculateMACD (prices : List ℚ) (fastPeriod slowPeriod signalPeriod : Nat) :
    Option MacdData :=
  if prices.length < slowPeriod + signalPeriod then none
  else
    let fastEMA := calculateEMA prices fastPeriod
    let slowEMA := calculateEMA prices slowPeriod
    let macdLine := fastEMA - slowEMA
    let signalLine := calculateEMA (macdValues prices fastPeriod slowPeriod) signalPeriod
    let histogram := macdLine - signalLine
    some { macd := macdLine, signal := signalLine, histogram := histogram }

end MarketScanner

/-! ## Technical analysis aggregator (both flows) -/

/-- JavaScript `x.toFixed(2)` on a finite number below `1e21` in absolute value. -/
def toFixed2 (x : ℚ) : String :=
  let n : ℕ := Int.toNat (Int.floor (|x| * 100 + 1 / 2))
  let cents := n % 100
  let body := toString (n / 100) ++ "." ++ (if cents < 10 then "0" else "") ++ toString cents
  if x < 0 then "-" ++ body else body

/-- JavaScript `ToNumber` on a value that is a number or `null`: `null` is `0`.  It is
applied by the comparisons and the arithmetic of the analysis flows. -/
def nullToZero (x : Option ℚ) : ℚ := x.getD 0

/-- A candle `[timestamp, open, high, low, close, volume]`; `openPrice` is `candle[1]`. -/
structure Candle where
  timestamp : ℚ
  openPrice : ℚ
  high : ℚ
  low : ℚ
  close : ℚ
  volume : ℚ
  deriving DecidableEq, Repr

/-- The indicator fields of an analysis object.  `smaStrength` is infinite when the SMA it
is divided by is `0` or `null`. -/
structure Indicators where
  shortSMA : Option ℚ
  longSMA : Option ℚ
  rsi : Option ℚ
  macd : Option MacdData
  smaTrend : String
  smaStrength : JsNumber
  rsiTrend : String
  macdTrend : String
  currentPrice : ℚ
  deriving DecidableEq, Repr

/-- The object returned by `calculateTechnicalAnalysis` of `app.js`. -/
structure Analysis extends Indicators where
  signals : List Signal
  deriving DecidableEq, Repr

/-- The object returned by `MarketScanner.analyzeMarket`: either the short form
`{score: null, signals: []}` (`indicators = none`), or the indicator fields with the
signals and the score (`none` is `null`). -/
structure MarketAnalysis where
  indicators : Option Indicators
  signals : List Signal
  score : Option ℚ
  deriving DecidableEq, Repr

/-- The triple `(type, action, strength)` of a signal. -/
def Signal.core (s : Signal) : String × String × ℚ := (s.type, s.action, s.strength)

namespace App

/-- The block "Определяем тренд по SMA" of `calculateTechnicalAnalysis`: the pair
`(smaTrend, smaStrength)`. -/
def smaTrendOf (shortSMA longSMA : Option ℚ) : String × JsNumber :=
  if nullToZero shortSMA > nullToZero longSMA then
    ("bullish",
      ((JsNumber.div (nullToZero shortSMA) (nullToZero longSMA)).sub 1).mul 100)
  else if nullToZero shortSMA < nullToZero longSMA then
    ("bearish",
      ((JsNumber.div (nullToZero longSMA) (nullToZero shortSMA)).sub 1).mul 100)
  else ("neutral", JsNumber.fin 0)

/-- The block "Определяем тренд по RSI": the value of `rsiTrend`. -/
def rsiTrendOf (rsi : Option ℚ) : String :=
  if nullToZero rsi > 70 then "overbought"
  else if nullToZero rsi < 30 then "oversold"
  else if nullToZero rsi > 50 then "bullish"
  else if nullToZero rsi < 50 then "bearish"
  else "neutral"

/-- The first `if / else if` of the block "Определяем тренд по MACD": the pair
`(macdTrend, macdSignal)` before the search for a strong signal. -/
def macdCross (m : MacdData) : String × String :=
  if m.macd > m.signal then
    ("bullish", if m.histogram > 0 ∧ m.histogram > 0 then "buy" else "none")
  else if m.macd < m.signal then
    ("bearish", if m.histogram < 0 ∧ m.histogram < 0 then "sell" else "none")
  else ("neutral", "none")

/-- The block "Определяем тренд по MACD": the pair `(macdTrend, macdSignal)`. -/
def macdTrendOf (macd : Option MacdData) : String × String :=
  match macd with
  | none => ("neutral", "none")
  | some m =>
    let cross := macdCross m
    if m.macd > 0 ∧ m.signal > 0 ∧ m.histogram > 0 ∧ m.histogram > 0 then
      (cross.1, "strong_buy")
    else if m.macd < 0 ∧ m.signal < 0 ∧ m.histogram < 0 ∧ m.histogram < 0 then
      (cross.1, "strong_sell")
    else cross

/-- The expression `Math.min(smaStrength / 5, 100)`; it is evaluated only behind the guard
`smaStrength > 1`, which excludes `NaN` and `-Infinity`. -/
def smaSignalStrength (smaStrength : JsNumber) : ℚ :=
  match smaStrength with
  | JsNumber.fin q => min (q / 5) 100
  | JsNumber.posInf => 100
  | _ => 0

/-- The block "Сигнал на основе SMA": the signals it pushes. -/
def smaSignals (smaTrend : String) (smaStrength : JsNumber) (shortPeriod longPeriod : Nat) :
    List Signal :=
  if smaTrend = "bullish" ∧ smaStrength.gt 1 then
    [{ type := "sma_golden_cross"
       action := "buy"
       strength := smaSignalStrength smaStrength
       description := "Золотой крест: быстрая SMA (" ++ toString shortPeriod ++
         ") пересекла медленную SMA (" ++ toString longPeriod ++ ") снизу вверх"
       source := none }]
  else if smaTrend = "bearish" ∧ smaStrength.gt 1 then
    [{ type := "sma_death_cross"
       action := "sell"
       strength := smaSignalStrength smaStrength
       description := "Смертельный крест: быстрая SMA (" ++ toString shortPeriod ++
         ") пересекла медленную SMA (" ++ toString longPeriod ++ ") сверху вниз"
       source := none }]
  else []

/-- The block "Сигнал на основе RSI": the signals it pushes, or `none` when building the
description throws (`rsi.toFixed(2)` on a `null` RSI). -/
def rsiSignals (rsi : Option ℚ) (rsiTrend : String) : Option (List Signal) :=
  if rsiTrend = "oversold" then
    match rsi with
    | none => none
    | some r =>
      some [{ type := "rsi_oversold"
              action := "buy"
              strength := 80
              description := "RSI в зоне перепроданности (" ++ toFixed2 r ++
                ") - потенциал для разворота вверх"
              source := none }]
  else if rsiTrend = "overbought" then
    match rsi with
    | none => none
    | some r =>
      some [{ type := "rsi_overbought"
              action := "sell"
              strength := 80
              description := "RSI в зоне перекупленности (" ++ toFixed2 r ++
                ") - потенциал для разворота вниз"
              source := none }]
  else some []

/-- The block "Сигнал на основе MACD": the signals it pushes. -/
def macdSignals (macd : Option MacdData) (macdSignal : String) : List Signal :=
  match macd with
  | none => []
  | some _ =>
    if macdSignal = "buy" ∨ macdSignal = "strong_buy" then
      [{ type := "macd_crossover"
         action := "buy"
         strength := if macdSignal = "strong_buy" then 90 else 70
         description :=
           if macdSignal = "strong_buy" then
             "Сильный MACD бычий сигнал: линия MACD выше сигнальной линии в положительной зоне"
           else "MACD бычий сигнал: линия MACD пересекла сигнальную линию снизу вверх"
         source := none }]
    else if macdSignal = "sell" ∨ macdSignal = "strong_sell" then
      [{ type := "macd_crossover"
         action := "sell"
         strength := if macdSignal = "strong_sell" then 90 else 70
         description :=
           if macdSignal = "strong_sell" then
             "Сильный MACD медвежий сигнал: линия MACD ниже сигнальной линии в отрицательной зоне"
           else "MACD медвежий сигнал: линия MACD пересекла сигнальную линию сверху вниз"
         source := none }]
    else []

/-- Function `calculateTechnicalAnalysis(ohlcv, shortPeriod, longPeriod, currentPrice)` of
`app.js`.  The result is `none` when the function throws, which happens exactly in the RSI
signal block (see `rsiSignals`). -/
def calculateTechnicalAnalysis (ohlcv : List Candle) (shortPeriod longPeriod : Nat)
    (currentPrice : ℚ) : Option Analysis :=
  let closePrices := ohlcv.map (fun candle => candle.close)
  let shortSMA := calculateSMA closePrices shortPeriod
  let longSMA := calculateSMA closePrices longPeriod
  let rsi := calculateRSI closePrices 14
  let macd := calculateMACD closePrices 12 26 9
  let sma := smaTrendOf shortSMA longSMA
  let rsiTrend := rsiTrendOf rsi
  let macdState := macdTrendOf macd
  match rsiSignals rsi rsiTrend with
  | none => none
  | some rsiPart =>
    some
      { shortSMA := shortSMA
        longSMA := longSMA
        rsi := rsi
        macd := macd
        smaTrend := sma.1
        smaStrength := sma.2
        rsiTrend := rsiTrend
        macdTrend := macdState.1
        signals := smaSignals sma.1 sma.2 shortPeriod longPeriod ++ rsiPart
          ++ macdSignals macd macdState.2
        currentPrice := currentPrice }

end App

/-! ## Market scanner: analysis of one symbol (`market-scanner.js`) -/

/-- The object `settings.scoringSystem`. -/
structure ScoringSystem where
  enabled : Bool
  weights : Weights
  deriving DecidableEq, Repr

/-- The object `settings` of a `MarketScanner`; `maxPairs` is a natural number. -/
structure ScanSettings where
  maxPairs : Nat
  refreshInterval : ℚ
  timeframe : String
  minVolume : ℚ
  signalThreshold : ℚ
  autoStart : Bool
  notifyOnSignal : Bool
  scoringSystem : ScoringSystem
  deriving DecidableEq, Repr

namespace MarketScanner

/-- The block "Определяем тренд по SMA" of `analyzeMarket`: `(smaTrend, smaStrength)`. -/
def smaTrendOf (shortSMA longSMA : Option ℚ) : String × JsNumber :=
  if nullToZero shortSMA > nullToZero longSMA then
    ("bullish",
      ((JsNumber.div (nullToZero shortSMA) (nullToZero longSMA)).sub 1).mul 100)
  else if nullToZero shortSMA < nullToZero longSMA then
    ("bearish",
      ((JsNumber.div (nullToZero longSMA) (nullToZero shortSMA)).sub 1).mul 100)
  else ("neutral", JsNumber.fin 0)

/-- The block "Определяем тренд по RSI" of `analyzeMarket`: the value of `rsiTrend`. -/
def rsiTrendOf (rsi : Option ℚ) : String :=
  if nullToZero rsi > 70 then "overbought"
  else if nullToZero rsi < 30 then "oversold"
  else if nullToZero rsi > 50 then "bullish"
  else if nullToZero rsi < 50 then "bearish"
  else "neutral"

/-- The first `if / else if` of the block "Определяем тренд по MACD" of `analyzeMarket`. -/
def macdCross (m : MacdData) : String × String :=
  if m.macd > m.signal then ("bullish", if m.histogram > 0 then "buy" else "none")
  else if m.macd < m.signal then ("bearish", if m.histogram < 0 then "sell" else "none")
  else ("neutral", "none")

/-- The block "Определяем тренд по MACD" of `analyzeMarket`: `(macdTrend, macdSignal)`. -/
def macdTrendOf (macd : Option MacdData) : String × String :=
  match macd with
  | none => ("neutral", "none")
  | some m =>
    let cross := macdCross m
    if m.macd > 0 ∧ m.signal > 0 ∧ m.histogram > 0 then (cross.1, "strong_buy")
    else if m.macd < 0 ∧ m.signal < 0 ∧ m.histogram < 0 then (cross.1, "strong_sell")
    else cross

/-- The expression `Math.min(smaStrength * 5, 100)`; it is evaluated only behind the guard
`smaStrength > 1`, which excludes `NaN` and `-Infinity`. -/
def smaSignalStrength (smaStrength : JsNumber) : ℚ :=
  match smaStrength with
  | JsNumber.fin q => min (q * 5) 100
  | JsNumber.posInf => 100
  | _ => 0

/-- The block "Сигнал на основе SMA" of `analyzeMarket`: the signals it pushes. -/
def smaSignals (smaTrend : String) (smaStrength : JsNumber) : List Signal :=
  if smaTrend = "bullish" ∧ smaStrength.gt 1 then
    [{ type := "sma_golden_cross"
       action := "buy"
       strength := smaSignalStrength smaStrength
       description :=
         "Золотой крест: быстрая SMA (5) пересекла медленную SMA (21) снизу вверх"
       source := some "SMA" }]
  else if smaTrend = "bearish" ∧ smaStrength.gt 1 then
    [{ type := "sma_death_cross"
       action := "sell"
       strength := smaSignalStrength smaStrength
       description :=
         "Смертельный крест: быстрая SMA (5) пересекла медленную SMA (21) сверху вниз"
       source := some "SMA" }]
  else []

/-- The block "Сигнал на основе RSI" of `analyzeMarket`: the signals it pushes, or `none`
when `rsi.toFixed(2)` throws on a `null` RSI. -/
def rsiSignals (rsi : Option ℚ) (rsiTrend : String) : Option (List Signal) :=
  if rsiTrend = "oversold" then
    match rsi with
    | none => none
    | some r =>
      some [{ type := "rsi_oversold"
              action := "buy"
              strength := 80
              description := "RSI в зоне перепроданности (" ++ toFixed2 r ++
                ") - потенциал для разворота вверх"
              source := some "RSI" }]
  else if rsiTrend = "overbought" then
    match rsi with
    | none => none
    | some r =>
      some [{ type := "rsi_overbought"
              action := "sell"
              strength := 80
              description := "RSI в зоне перекупленности (" ++ toFixed2 r ++
                ") - потенциал для разворота вниз"
              source := some "RSI" }]
  else some []

/-- The block "Сигнал на основе MACD" of `analyzeMarket`: the signals it pushes. -/
def macdSignals (macd : Option MacdData) (macdSignal : String) : List Signal :=
  match macd with
  | none => []
  | some _ =>
    if macdSignal = "buy" ∨ macdSignal = "strong_buy" then
      [{ type := "macd_crossover"
         action := "buy"
         strength := if macdSignal = "strong_buy" then 90 else 70
         description :=
           if macdSignal = "strong_buy" then
             "Сильный MACD бычий сигнал: линия MACD выше сигнальной линии в положительной зоне"
           else "MACD бычий сигнал: линия MACD пересекла сигнальную линию снизу вверх"
         source := some "MACD" }]
    else if macdSignal = "sell" ∨ macdSignal = "strong_sell" then
      [{ type := "macd_crossover"
         action := "sell"
         strength := if macdSignal = "strong_sell" then 90 else 70
         description :=
           if macdSignal = "strong_sell" then
             "Сильный MACD медвежий сигнал: линия MACD ниже сигнальной линии в отрицательной зоне"
           else "MACD медвежий сигнал: линия MACD пересекла сигнальную линию сверху вниз"
         source := some "MACD" }]
    else []

/-- Method `MarketScanner.calculateAverageVolume(volumes, period)`. -/
def calculateAverageVolume (volumes : List ℚ) (period : Nat) : ℚ :=
  if volumes.length < period then 0
  else
    (volumes.drop (volumes.length - period)).foldl (fun sum vol => sum + vol) 0 / period

/-- The value of `metrics.sma.strength` in the finite record `Metrics`.
`calculateCompositeScore` reads it only through `Math.min(strength / 10, 1)`; for the
infinite strength of a zero SMA divisor that expression is `1`, its value at strength `10`,
so `10` stands for it.  `NaN` and `-Infinity` are not produced by `smaTrendOf`. -/
def scoringStrength (smaStrength : JsNumber) : ℚ :=
  match smaStrength with
  | JsNumber.fin q => q
  | JsNumber.posInf => 10
  | _ => 0

/-- The short form `{score: null, signals: []}` returned by `analyzeMarket` when there are
fewer than 30 candles, and in its `catch` branch. -/
def emptyAnalysis : MarketAnalysis := { indicators := none, signals := [], score := none }

/-- Method `MarketScanner.analyzeMarket(ohlcv, currentPrice)` with the scanner's
`settings`. -/
def analyzeMarket (settings : ScanSettings) (ohlcv : List Candle) (currentPrice : ℚ) :
    MarketAnalysis :=
  if ohlcv.length < 30 then emptyAnalysis
  else
    let closePrices := ohlcv.map (fun candle => candle.close)
    let highPrices := ohlcv.map (fun candle => candle.high)
    let lowPrices := ohlcv.map (fun candle => candle.low)
    let volumes := ohlcv.map (fun candle => candle.volume)
    let shortSMA := calculateSMA closePrices 5
    let longSMA := calculateSMA closePrices 21
    let rsi := calculateRSI closePrices 14
    let macd := calculateMACD closePrices 12 26 9
    let sma := smaTrendOf shortSMA longSMA
    let rsiTrend := rsiTrendOf rsi
    let macdState := macdTrendOf macd
    match rsiSignals rsi rsiTrend with
    | none => emptyAnalysis
    | some rsiPart =>
      let signals := smaSignals sma.1 sma.2 ++ rsiPart ++ macdSignals macd macdState.2
      let compositeScore : Option ℚ :=
        if settings.scoringSystem.enabled then
          some (calculateCompositeScore settings.scoringSystem.weights
            { sma := { trend := sma.1, strength := scoringStrength sma.2 }
              rsi := { value := nullToZero rsi, trend := rsiTrend }
              macd := { trend := macdState.1, signal := macdState.2, data := macd }
              volume :=
                { current := volumes.getD (volumes.length - 1) 0
                  average := calculateAverageVolume volumes 20 }
              volatility :=
                { high := highPrices.getD (highPrices.length - 1) 0
                  low := lowPrices.getD (lowPrices.length - 1) 0
                  close := closePrices.getD (closePrices.length - 1) 0 } })
        else none
      { indicators := some
          { shortSMA := shortSMA
            longSMA := longSMA
            rsi := rsi
            macd := macd
            smaTrend := sma.1
            smaStrength := sma.2
            rsiTrend := rsiTrend
            macdTrend := macdState.1
            currentPrice := currentPrice }
        signals := signals
        score := compositeScore }

end MarketScanner

/-! ## Market scanner: the scan pipeline (`startScan`) -/

/-- The fields of a ticker that `startScan` reads; `quoteVolume` is `none` when absent. -/
structure Ticker where
  quoteVolume : Option ℚ
  last : ℚ
  percentage : ℚ
  deriving DecidableEq, Repr

/-- The field of a market entry that `startScan` reads (`false` when absent). -/
structure MarketMeta where
  darkpool : Bool
  deriving DecidableEq, Repr

/-- An entry of the local array `pairs` of `startScan`. -/
structure Pair where
  symbol : String
  volume : ℚ
  price : ℚ
  change : ℚ
  deriving DecidableEq, Repr

/-- An entry of the array `results` of `startScan`. -/
structure ScanResult where
  symbol : String
  price : ℚ
  volume : ℚ
  change : ℚ
  analysis : MarketAnalysis
  strongestSignal : Signal
  timestamp : String
  deriving DecidableEq, Repr

/-- The exchange object after `loadMarkets()`: its market map, the outcome of
`fetchTickers()` (`none` when it fails; the entries are in enumeration order) and the
outcome of `fetchOHLCV(symbol, timeframe, undefined, 50)` (`none` when it fails, the empty
list also standing for a `null` result). -/
structure Exchange where
  markets : String → Option MarketMeta
  tickers : Option (List (String × Ticker))
  fetchOHLCV : String → String → Option (List Candle)

/-- The mutable fields of a `MarketScanner` instance. -/
structure ScannerState where
  isScanning : Bool
  lastScanTime : Option String
  scanResults : List ScanResult
  settings : ScanSettings
  deriving DecidableEq, Repr

/-- JavaScript `array.sort((a, b) => key(b) - key(a))` on finite keys: the stable sort
into non-increasing key order (ECMAScript requires `sort` to be stable). -/
def sortDescendingBy {α : Type} (key : α → ℚ) (xs : List α) : List α :=
  xs.insertionSort (fun a b => key a ≥ key b)

namespace MarketScanner

/-- The body of the `for (const symbol in tickers)` loop of `startScan`: the pair pushed
for one ticker, if any. -/
def pairOfTicker (settings : ScanSettings) (markets : String → Option MarketMeta)
    (entry : String × Ticker) : Option Pair :=
  match markets entry.1 with
  | none => none
  | some market =>
    if market.darkpool then none
    else
      match entry.2.quoteVolume with
      | none => none
      | some quoteVolume =>
        if quoteVolume ≠ 0 ∧ quoteVolume ≥ settings.minVolume then
          some
            { symbol := entry.1
              volume := quoteVolume
              price := entry.2.last
              change := entry.2.percentage }
        else none

/-- The array `pairs` that `startScan` analyses: the collected pairs, sorted by
`b.volume - a.volume`, cut by `slice(0, maxPairs)`. -/
def scanPairs (settings : ScanSettings) (markets : String → Option MarketMeta)
    (tickers : List (String × Ticker)) : List Pair :=
  let pairs := tickers.foldl
    (fun (pairs : List Pair) entry =>
      match pairOfTicker settings markets entry with
      | some pair => pairs ++ [pair]
      | none => pairs)
    []
  (sortDescendingBy (fun pair => pair.volume) pairs).take settings.maxPairs

/-- The search for the strongest signal in `startScan`; `none` on an empty list, on which
the search is not run. -/
def strongestSignal (signals : List Signal) : Option Signal :=
  match signals with
  | [] => none
  | first :: _ =>
    some (signals.foldl
      (fun (strongest : Signal) signal =>
        if signal.strength > strongest.strength then signal else strongest)
      first)

/-- The `try` block of the per-pair loop of `startScan`, given the outcome of
`fetchOHLCV`: the result pushed for the pair, if any.  A failed fetch (`none`) is caught
and pushes nothing. -/
def scanPair (settings : ScanSettings) (now : String) (pair : Pair)
    (ohlcv : Option (List Candle)) : Option ScanResult :=
  match ohlcv with
  | none => none
  | some candles =>
    if candles.length > 0 then
      let analysis := analyzeMarket settings candles pair.price
      match strongestSignal analysis.signals with
      | none => none
      | some strongest =>
        if strongest.strength ≥ settings.signalThreshold then
          some
            { symbol := pair.symbol
              price := pair.price
              volume := pair.volume
              change := pair.change
              analysis := analysis
              strongestSignal := strongest
              timestamp := now }
        else none
    else none

/-- The array `results` of `startScan` after the per-pair loop and before the final sort:
the recorded results in the order in which the pairs were scanned. -/
def recordedResults (settings : ScanSettings) (now : String) (exchange : Exchange)
    (pairs : List Pair) : List ScanResult :=
  pairs.foldl
    (fun (results : List ScanResult) pair =>
      match scanPair settings now pair (exchange.fetchOHLCV pair.symbol settings.timeframe) with
      | some result => results ++ [result]
      | none => results)
    []

/-- Method `MarketScanner.startScan(exchangeId)`, given the exchange that
`new ccxt[exchangeId]()` and `loadMarkets()` yield (`none` when either throws) and one
clock reading `now`.  It returns the value returned (`none` is `undefined`) and the new
state. -/
def startScan (st : ScannerState) (exchange : Option Exchange) (now : String) :
    Option (List ScanResult) × ScannerState :=
  if st.isScanning then (none, st)
  else
    match exchange with
    | none => (none, { st with isScanning := false })
    | some ex =>
      match ex.tickers with
      | none => (none, { st with isScanning := false })
      | some tickers =>
        let pairs := scanPairs st.settings ex.markets tickers
        let results :=
          sortDescendingBy (fun result => result.strongestSignal.strength)
            (recordedResults st.settings now ex pairs)
        (some results,
          { st with isScanning := false, scanResults := results, lastScanTime := some now })

/-! ### The pair list as the specification words it -/

/-- The qualifying test of the specification: the symbol is present in markets, is not a
dark pool, and its quote volume is at least `minVolume`. -/
def specQualifies (settings : ScanSettings) (markets : String → Option MarketMeta)
    (entry : String × Ticker) : Bool :=
  match markets entry.1, entry.2.quoteVolume with
  | some market, some quoteVolume =>
    !market.darkpool && decide (quoteVolume ≥ settings.minVolume)
  | _, _ => false

/-- The pair record of a ticker entry (volume `0` when the quote volume is absent). -/
def specPair (entry : String × Ticker) : Pair :=
  { symbol := entry.1
    volume := entry.2.quoteVolume.getD 0
    price := entry.2.last
    change := entry.2.percentage }

/-- The specified pair list: the qualifying symbols, sorted by quote volume in descending
order, truncated to the first `maxPairs` entries. -/
def specScanPairs (settings : ScanSettings) (markets : String → Option MarketMeta)
    (tickers : List (String × Ticker)) : List Pair :=
  (sortDescendingBy (fun pair => pair.volume)
    ((tickers.filter (specQualifies settings markets)).map specPair)).take settings.maxPairs

end MarketScanner

namespace MarketScanner

/-- The qualifying test that `startScan` applies: the test of the specification, and a
quote volume other than 0 (a zero volume is falsy in `ticker.quoteVolume && ...`). -/
def qualifies (settings : ScanSettings) (markets : String → Option MarketMeta)
    (entry : String × Ticker) : Bool :=
  specQualifies settings markets entry && decide (entry.2.quoteVolume ≠ some 0)

end MarketScanner

namespace MarketScanner

/-- The default `settings` set by the constructor of `MarketScanner`. -/
def defaultSettings : ScanSettings :=
  { maxPairs := 50
    refreshInterval := 15
    timeframe := "15m"
    minVolume := 1000000
    signalThreshold := 70
    autoStart := false
    notifyOnSignal := true
    scoringSystem :=
      { enabled := true
        weights := { trend := 2 / 5, momentum := 3 / 10, volume := 3 / 20, volatility := 3 / 20 } } }

/-- The state of a freshly constructed scanner with the default settings. -/
def initialState : ScannerState :=
  { isScanning := false, lastScanTime := none, scanResults := [], settings := defaultSettings }

/-- An exchange that lists one symbol with a quote volume of two million and whose
candle request fails. -/
def exampleExchange : Exchange :=
  { markets := fun _ => some { darkpool := false }
    tickers := some [("BTC/USDT", { quoteVolume := some 2000000, last := 1, percentage := 0 })]
    fetchOHLCV := fun _ _ => none }

end MarketScanner

/-! ## Signal rules as the specification words them -/

/-- The indicator a signal originates from, read off its type: "SMA" for the two cross
signals, "RSI" for oversold and overbought, "MACD" for the crossover. -/
def Signal.origin (s : Signal) : String :=
  if s.type = "sma_golden_cross" ∨ s.type = "sma_death_cross" then "SMA"
  else if s.type = "rsi_oversold" ∨ s.type = "rsi_overbought" then "RSI"
  else if s.type = "macd_crossover" then "MACD"
  else ""

/-- The signals of a list that originate from the given indicator, in order. -/
def signalsFrom (origin : String) (signals : List Signal) : List Signal :=
  signals.filter (fun s => decide (s.origin = origin))

/-- The RSI signal rule as the specification words it: a strength-80 buy signal below 30,
a strength-80 sell signal above 70, nothing in between. -/
def specRsiSignalCore (rsi : ℚ) : List (String × String × ℚ) :=
  if rsi < 30 then [("rsi_oversold", "buy", 80)]
  else if rsi > 70 then [("rsi_overbought", "sell", 80)]
  else []

/-- The MACD signal rule as the specification words it: strength 90 when macd, signal and
histogram are all positive (buy) or all negative (sell); otherwise strength 70 when
macd > signal with a positive histogram (buy) or macd < signal with a negative histogram
(sell); otherwise nothing. -/
def specMacdSignalCore (m : MacdData) : List (String × String × ℚ) :=
  if m.macd > 0 ∧ m.signal > 0 ∧ m.histogram > 0 then [("macd_crossover", "buy", 90)]
  else if m.macd < 0 ∧ m.signal < 0 ∧ m.histogram < 0 then [("macd_crossover", "sell", 90)]
  else if m.macd > m.signal ∧ m.histogram > 0 then [("macd_crossover", "buy", 70)]
  else if m.macd < m.signal ∧ m.histogram < 0 then [("macd_crossover", "sell", 70)]
  else []

/-- The SMA trend rule as the specification words it, for two computed SMA values. -/
def specSmaTrend (shortSMA longSMA : ℚ) : String × ℚ :=
  if shortSMA > longSMA then ("bullish", (shortSMA / longSMA - 1) * 100)
  else if shortSMA < longSMA then ("bearish", (longSMA / shortSMA - 1) * 100)
  else ("neutral", 0)

/-- The closes of the worked example of the specification. -/
def exampleCloses : List ℚ :=
  [10, 11, 12, 13, 14, 15, 16, 17, 18, 19, 20, 19, 18, 17, 16, 15, 14, 13, 12, 11]

/-- Candles with the given closes (the other fields repeat the close, volume 1). -/
def candlesOfCloses (closes : List ℚ) : List Candle :=
  closes.map (fun c =>
    { timestamp := 0, openPrice := c, high := c, low := c, close := c, volume := 1 })

/-! ## Agent: retrieval, sequences of productions and the parsed confidence -/

namespace TradingAIAgent

/-- Method `TradingAIAgent.getLastRecommendation()`; `none` is `null`. -/
def getLastRecommendation (st : AgentState) : Option Recommendation := st.lastRecommendation

/-- One production of a recommendation: a call of `getLocalAIRecommendations`, or a call of
`parseExternalAIResponse` on a response, each with its clock reading. -/
inductive AgentCall where
  | localCall (now : String) (options : AgentOptions)
  | parseCall (now : String) (response : ExternalResponse) (options : AgentOptions)
  deriving DecidableEq, Repr

/-- The outcome of one production on an agent state; `none` when the call throws. -/
def produce (toUpperCase : String → String) (config : AgentConfig) (st : AgentState)
    (call : AgentCall) : Option (Recommendation × AgentState) :=
  match call with
  | AgentCall.localCall now options => getLocalAIRecommendations config now st options
  | AgentCall.parseCall now response options =>
    parseExternalAIResponse toUpperCase config now st response options

/-- One step of a sequence of productions: the new state and the recommendations returned so
far; a call that throws returns nothing and leaves the state as it was. -/
def produceStep (toUpperCase : String → String) (config : AgentConfig)
    (acc : AgentState × List Recommendation) (call : AgentCall) :
    AgentState × List Recommendation :=
  match produce toUpperCase config acc.1 call with
  | some result => (result.2, acc.2 ++ [result.1])
  | none => acc

/-- A sequence of productions run on a state: the final state and the recommendations
returned, in the order of their production. -/
def runCalls (toUpperCase : String → String) (config : AgentConfig) (st : AgentState)
    (calls : List AgentCall) : AgentState × List Recommendation :=
  calls.foldl (produceStep toUpperCase config) (st, [])

/-- The failures of the external path inside the `try` blocks of
`getExternalAIRecommendations` and `parseExternalAIResponse`: the request fails, the
response is not OK, the response text holds no JSON object, `action` or `reasoning` is
missing (or empty, which is falsy as well), or the upper-cased action is not one of
`validActions`. -/
def externalFailure (toUpperCase : String → String) (fetchResult : FetchResult) : Bool :=
  match fetchResult with
  | FetchResult.requestFailed => true
  | FetchResult.notOk => true
  | FetchResult.ok ExternalResponse.malformed => true
  | FetchResult.ok (ExternalResponse.parsed _ aiRecommendation) =>
    match aiRecommendation.action, aiRecommendation.reasoning with
    | some action, some reasoning =>
      decide (action = "" ∨ reasoning = "" ∨ toUpperCase action ∉ validActions)
    | _, _ => true

/-- The leading decimal digit of a positive natural number. -/
def leadingDigit (n : Nat) : Nat := n / 10 ^ Nat.log 10 n

/-- The builtin `parseInt` applied to a number whose value is the integer `c`.  The number is
first converted to a string: the decimal numeral of `c` when its absolute value is below
`10 ^ 21`, and the exponent form `d.ddde+N` otherwise, of which `parseInt` reads the sign
and the leading digit `d` only. -/
def parseIntOfInteger (c : ℤ) : ParsedInt :=
  if c.natAbs < 10 ^ 21 then ParsedInt.int c
  else ParsedInt.int (c.sign * (leadingDigit c.natAbs : ℤ))

end TradingAIAgent

/-! ## Market scanner: the metrics bundle of `analyzeMarket` -/

namespace MarketScanner

/-- The object that `analyzeMarket` passes to `calculateCompositeScore`, for a series of at
least 30 candles. -/
def scoreMetrics (ohlcv : List Candle) : Metrics :=
  let closePrices := ohlcv.map (fun candle => candle.close)
  let highPrices := ohlcv.map (fun candle => candle.high)
  let lowPrices := ohlcv.map (fun candle => candle.low)
  let volumes := ohlcv.map (fun candle => candle.volume)
  let rsi := calculateRSI closePrices 14
  let macd := calculateMACD closePrices 12 26 9
  let sma := smaTrendOf (calculateSMA closePrices 5) (calculateSMA closePrices 21)
  let macdState := macdTrendOf macd
  { sma := { trend := sma.1, strength := scoringStrength sma.2 }
    rsi := { value := nullToZero rsi, trend := rsiTrendOf rsi }
    macd := { trend := macdState.1, signal := macdState.2, data := macd }
    volume :=
      { current := volumes.getD (volumes.length - 1) 0
        average := calculateAverageVolume volumes 20 }
    volatility :=
      { high := highPrices.getD (highPrices.length - 1) 0
        low := lowPrices.getD (lowPrices.length - 1) 0
        close := closePrices.getD (closePrices.length - 1) 0 } }

/-- The guard of the two branches of `calculateCompositeScore` that add or subtract
`weights.momentum * 30`: MACD data is present, `metrics.macd.signal` is none of the four
named sub-signals, and `metrics.macd.trend` is bullish or bearish. -/
def macdTrendOnlyBranch (metrics : Metrics) : Bool :=
  metrics.macd.data.isSome
    && decide (metrics.macd.signal ≠ "strong_buy" ∧ metrics.macd.signal ≠ "buy" ∧
        metrics.macd.signal ≠ "strong_sell" ∧ metrics.macd.signal ≠ "sell")
    && decide (metrics.macd.trend = "bullish" ∨ metrics.macd.trend = "bearish")

end MarketScanner

namespace MarketScanner

/-- An exchange that lists two symbols; the candle request fails for "ETH/USDT" and returns
50 candles closing at 1 for every other symbol. -/
def partlyFailingExchange : Exchange :=
  { markets := fun _ => some { darkpool := false }
    tickers := some
      [("BTC/USDT", { quoteVolume := some 2000000, last := 1, percentage := 0 }),
       ("ETH/USDT", { quoteVolume := some 1500000, last := 1, percentage := 0 })]
    fetchOHLCV := fun symbol _ =>
      if symbol = "ETH/USDT" then none else some (candlesOfCloses (List.replicate 50 1)) }

end MarketScanner

namespace MarketScanner

/-- Three tickers, listed in an order that is not their volume order. -/
def threeTickers : List (String × Ticker) :=
  [("ETH/USDT", { quoteVolume := some 1500000, last := 2, percentage := 0 }),
   ("SOL/USDT", { quoteVolume := some 1200000, last := 1, percentage := 0 }),
   ("BTC/USDT", { quoteVolume := some 2000000, last := 1, percentage := 0 })]

/-- An exchange that lists the three tickers and answers every candle request with 50
candles: 45 closes at 1 followed by 5 closes at 2 for "ETH/USDT", 50 closes at 1 for the
other symbols. -/
def threeSymbolExchange : Exchange :=
  { markets := fun _ => some { darkpool := false }
    tickers := some threeTickers
    fetchOHLCV := fun symbol _ =>
      if symbol = "ETH/USDT" then
        some (candlesOfCloses (List.replicate 45 1 ++ List.replicate 5 2))
      else some (candlesOfCloses (List.replicate 50 1)) }

end MarketScanner

/-! ## Lemmas: each scoring block adds its specified term -/

theorem specSign_eq_trendSign (metrics : Metrics)
    (h : metrics.sma.trend = "bullish" ∨ metrics.sma.trend = "bearish") :
    MarketScanner.specSign metrics.sma.trend = MarketScanner.trendSign metrics := by
  unfold MarketScanner.specSign MarketScanner.trendSign
  rcases h with h | h
  · simp [h]
  · have hb : ("bearish" : String) ≠ "bullish" := by decide
    simp [h, hb]

theorem applyTrend_eq (w : Weights) (m : Metrics) (s : ℚ)
    (h : m.sma.trend = "bullish" ∨ m.sma.trend = "bearish") :
    MarketScanner.applyTrend w m s = s + MarketScanner.specTrendTerm w m := by
  unfold MarketScanner.applyTrend MarketScanner.specTrendTerm MarketScanner.specSign
  have hb : ("bearish" : String) ≠ "bullish" := by decide
  rcases h with h | h
  · simp only [h, if_true]; ring
  · simp only [h, hb, if_true, if_false]; ring

theorem applyRsi_eq (w : Weights) (m : Metrics) (s : ℚ) :
    MarketScanner.applyRsi w m s = s + MarketScanner.specRsiTerm w m := by
  unfold MarketScanner.applyRsi MarketScanner.specRsiTerm
  split_ifs <;> ring

theorem applyMacd_eq (w : Weights) (m : Metrics) (s : ℚ) :
    MarketScanner.applyMacd w m s = s + MarketScanner.specMacdTerm w m := by
  unfold MarketScanner.applyMacd MarketScanner.specMacdTerm
  cases m.macd.data with
  | none => simp
  | some d =>
    simp only [Option.isSome_some, if_true]
    split_ifs <;> ring

theorem applyVolume_eq (w : Weights) (m : Metrics) (s : ℚ)
    (h : m.sma.trend = "bullish" ∨ m.sma.trend = "bearish") :
    MarketScanner.applyVolume w m s = s + MarketScanner.specVolumeTerm w m := by
  unfold MarketScanner.applyVolume MarketScanner.specVolumeTerm
  rw [specSign_eq_trendSign m h]
  simp only [gt_iff_lt, mul_comm m.volume.average]
  split_ifs <;> ring

theorem applyVolatility_eq (w : Weights) (m : Metrics) (s : ℚ)
    (h : m.sma.trend = "bullish" ∨ m.sma.trend = "bearish") :
    MarketScanner.applyVolatility w m s = s + MarketScanner.specVolatilityTerm w m := by
  unfold MarketScanner.applyVolatility MarketScanner.specVolatilityTerm
    MarketScanner.percentRange
  rw [specSign_eq_trendSign m h]
  split_ifs <;> ring

/-! ## Theorems: composite score -/

/-- C1: for every metrics bundle and every weights object (zero, negative or larger than
one included), `calculateCompositeScore` returns a number between 0 and 100. -/
theorem compositeScore_in_range (weights : Weights) (metrics : Metrics) :
    0 ≤ MarketScanner.calculateCompositeScore weights metrics ∧
      MarketScanner.calculateCompositeScore weights metrics ≤ 100 := by
  unfold MarketScanner.calculateCompositeScore
  constructor
  · exact le_max_left _ _
  · exact max_le (by norm_num) (min_le_left _ _)

/-- C2: for a bullish or bearish SMA trend, `calculateCompositeScore` equals the clamp to
`[0,100]` of `50 + T + R + M + V + X` with the five terms of the specification. -/
theorem compositeScore_eq_spec (weights : Weights) (metrics : Metrics)
    (h : metrics.sma.trend = "bullish" ∨ metrics.sma.trend = "bearish") :
    MarketScanner.calculateCompositeScore weights metrics =
      MarketScanner.specCompositeScore weights metrics := by
  unfold MarketScanner.calculateCompositeScore MarketScanner.specCompositeScore
    MarketScanner.clamp0to100 MarketScanner.rawCompositeScore
  rw [applyVolatility_eq weights metrics _ h, applyVolume_eq weights metrics _ h,
    applyMacd_eq, applyRsi_eq, applyTrend_eq weights metrics _ h]

/-- C2 witness: a bullish bundle with weights 0.4/0.3/0.15/0.15. -/
theorem compositeScore_eq_spec_witness :
    MarketScanner.calculateCompositeScore ⟨2/5, 3/10, 3/20, 3/20⟩
        ⟨⟨"bullish", 5⟩, ⟨40, "bearish"⟩, ⟨"neutral", "none", none⟩, ⟨10, 10⟩, ⟨11, 10, 10⟩⟩ =
      MarketScanner.specCompositeScore ⟨2/5, 3/10, 3/20, 3/20⟩
        ⟨⟨"bullish", 5⟩, ⟨40, "bearish"⟩, ⟨"neutral", "none", none⟩, ⟨10, 10⟩, ⟨11, 10, 10⟩⟩ :=
  compositeScore_eq_spec _ _ (Or.inl rfl)

/-- C3: with all four weights zero, `calculateCompositeScore` returns exactly 50 for every
metrics input. -/
theorem compositeScore_zero_weights (metrics : Metrics) :
    MarketScanner.calculateCompositeScore ⟨0, 0, 0, 0⟩ metrics = 50 := by
  unfold MarketScanner.calculateCompositeScore MarketScanner.rawCompositeScore
    MarketScanner.applyVolatility MarketScanner.applyVolume MarketScanner.applyMacd
    MarketScanner.applyRsi MarketScanner.applyTrend
  simp only [zero_mul, add_zero, sub_zero, ite_self]
  norm_num

/-! ## Lemmas: the thresholder -/

theorem mathRound_mem_range (q : ℚ) (h0 : 0 ≤ q) (h100 : q ≤ 100) :
    0 ≤ mathRound q ∧ mathRound q ≤ 100 := by
  unfold mathRound
  constructor
  · exact Int.floor_nonneg.mpr (by linarith)
  · have h : Int.floor (q + 1 / 2) < 101 := by
      rw [Int.floor_lt]
      push_cast
      linarith
    omega

theorem localDecision_action_mem (th : Thresholds) (symbol : String) (score : ScoreValue) :
    (TradingAIAgent.localDecision th symbol score).1 ∈ TradingAIAgent.validActions := by
  unfold TradingAIAgent.localDecision TradingAIAgent.validActions
  split_ifs <;> simp

theorem localDecision_confidence_range (th : Thresholds) (symbol : String) (q : ℚ)
    (h0 : 0 ≤ q) (h100 : q ≤ 100) :
    0 ≤ (TradingAIAgent.localDecision th symbol (ScoreValue.num q)).2.1 ∧
      (TradingAIAgent.localDecision th symbol (ScoreValue.num q)).2.1 ≤ 100 := by
  unfold TradingAIAgent.localDecision
  simp only [ScoreValue.toNumber, Option.getD_some]
  split_ifs <;> constructor <;> norm_num <;> linarith

theorem externalConfidence_wellFormed (p : ParsedInt) :
    ∃ z : ℤ, TradingAIAgent.externalConfidence p = (z : ℚ) ∧ 0 ≤ z ∧ z ≤ 100 := by
  cases p with
  | nan => exact ⟨50, by simp [TradingAIAgent.externalConfidence], by norm_num, by norm_num⟩
  | posInf => exact ⟨100, by simp [TradingAIAgent.externalConfidence], by norm_num, by norm_num⟩
  | negInf => exact ⟨0, by simp [TradingAIAgent.externalConfidence], by norm_num, by norm_num⟩
  | int z =>
    by_cases hz : z = 0
    · exact ⟨50, by simp [TradingAIAgent.externalConfidence, hz], by norm_num, by norm_num⟩
    · refine ⟨min 100 (max 0 z), ?_, ?_, ?_⟩
      · simp [TradingAIAgent.externalConfidence, hz]
      · exact le_min (by norm_num) (le_max_left _ _)
      · exact min_le_left _ _

theorem local_wellFormed (config : AgentConfig) (now : String) (st st' : AgentState)
    (options : AgentOptions) (r : Recommendation)
    (hscore : ∀ a, options.analysis = some a →
      ∃ q : ℚ, a.score = ScoreValue.num q ∧ 0 ≤ q ∧ q ≤ 100)
    (h : TradingAIAgent.getLocalAIRecommendations config now st options = some (r, st')) :
    TradingAIAgent.WellFormed r := by
  unfold TradingAIAgent.getLocalAIRecommendations at h
  cases han : options.analysis with
  | none => simp [han] at h
  | some analysis =>
    cases hth : config.trendThresholds with
    | none => simp [han, hth] at h
    | some th =>
      obtain ⟨q, hq, h0, h100⟩ := hscore analysis han
      simp only [han, hth, Option.some.injEq, Prod.mk.injEq] at h
      obtain ⟨hr, -⟩ := h
      subst hr
      refine ⟨localDecision_action_mem _ _ _, mathRound _, rfl, ?_⟩
      rw [hq]
      exact mathRound_mem_range _ (localDecision_confidence_range th _ q h0 h100).1
        (localDecision_confidence_range th _ q h0 h100).2

theorem parseTry_wellFormed (toUpperCase : String → String) (now : String) (st st' : AgentState)
    (response : ExternalResponse) (options : AgentOptions) (r : Recommendation)
    (h : TradingAIAgent.parseExternalAIResponseTry toUpperCase now st response options =
      some (r, st')) :
    TradingAIAgent.WellFormed r := by
  unfold TradingAIAgent.parseExternalAIResponseTry at h
  cases response with
  | malformed => simp at h
  | parsed responseText ai =>
    cases hA : ai.action with
    | none => simp [hA] at h
    | some action =>
      cases hR : ai.reasoning with
      | none => simp [hA, hR] at h
      | some reasoning =>
        cases hO : options.analysis with
        | none => simp [hA, hR, hO] at h
        | some analysis =>
          simp only [hA, hR, hO] at h
          by_cases h1 : action = "" ∨ reasoning = ""
          · simp [h1] at h
          · by_cases h2 : toUpperCase action ∈ TradingAIAgent.validActions
            · simp only [h1, h2, if_true, if_false, Option.some.injEq, Prod.mk.injEq] at h
              obtain ⟨hr, -⟩ := h
              subst hr
              exact ⟨h2, externalConfidence_wellFormed _⟩
            · simp [h1, h2] at h

theorem errorRecommendation_wellFormed (now : String) :
    TradingAIAgent.WellFormed (TradingAIAgent.errorRecommendation now) := by
  refine ⟨by simp [TradingAIAgent.errorRecommendation, TradingAIAgent.validActions],
    50, by simp [TradingAIAgent.errorRecommendation], by norm_num, by norm_num⟩

theorem parse_wellFormed (toUpperCase : String → String)
    (config : AgentConfig) (now : String) (st st' : AgentState)
    (response : ExternalResponse) (options : AgentOptions) (r : Recommendation)
    (hscore : ∀ a, options.analysis = some a →
      ∃ q : ℚ, a.score = ScoreValue.num q ∧ 0 ≤ q ∧ q ≤ 100)
    (h : TradingAIAgent.parseExternalAIResponse toUpperCase config now st response options =
      some (r, st')) :
    TradingAIAgent.WellFormed r := by
  unfold TradingAIAgent.parseExternalAIResponse at h
  cases ht : TradingAIAgent.parseExternalAIResponseTry toUpperCase now st response options with
  | some result =>
    rw [ht] at h
    simp only [Option.some.injEq] at h
    rw [h] at ht
    exact parseTry_wellFormed toUpperCase now st st' response options r ht
  | none =>
    rw [ht] at h
    exact local_wellFormed config now st st' options r hscore h

theorem external_wellFormed (toUpperCase : String → String)
    (config : AgentConfig) (now : String) (st st' : AgentState)
    (fetchResult : FetchResult) (options : AgentOptions) (r : Recommendation)
    (hscore : ∀ a, options.analysis = some a →
      ∃ q : ℚ, a.score = ScoreValue.num q ∧ 0 ≤ q ∧ q ≤ 100)
    (h : TradingAIAgent.getExternalAIRecommendations toUpperCase config now st fetchResult options =
      some (r, st')) :
    TradingAIAgent.WellFormed r := by
  unfold TradingAIAgent.getExternalAIRecommendations at h
  cases hk : config.apiKey with
  | none => simp [hk] at h
  | some key =>
    simp only [hk] at h
    by_cases hempty : key = ""
    · simp [hempty] at h
    · simp only [hempty, if_false] at h
      cases fetchResult with
      | requestFailed => exact local_wellFormed config now st st' options r hscore h
      | notOk => exact local_wellFormed config now st st' options r hscore h
      | ok response =>
        simp only at h
        cases hp : TradingAIAgent.parseExternalAIResponse toUpperCase config now st response
            options with
        | some result =>
          rw [hp] at h
          simp only [Option.some.injEq] at h
          rw [h] at hp
          exact parse_wellFormed toUpperCase config now st st' response options r hscore hp
        | none =>
          rw [hp] at h
          exact local_wellFormed config now st st' options r hscore h

theorem getRecommendations_wellFormed (toUpperCase : String → String)
    (config : AgentConfig) (now : String) (st : AgentState)
    (fetchResult : FetchResult) (options : AgentOptions)
    (hscore : ∀ a, options.analysis = some a →
      ∃ q : ℚ, a.score = ScoreValue.num q ∧ 0 ≤ q ∧ q ≤ 100) :
    TradingAIAgent.WellFormed
      (TradingAIAgent.getRecommendations toUpperCase config now st fetchResult options).1 := by
  unfold TradingAIAgent.getRecommendations
  by_cases hx : config.externalAPIEnabled = true
  · simp only [hx, if_true]
    cases he : TradingAIAgent.getExternalAIRecommendations toUpperCase config now st
        fetchResult options with
    | none => exact errorRecommendation_wellFormed now
    | some result =>
      exact external_wellFormed toUpperCase config now st result.2 fetchResult options
        result.1 hscore he
  · simp only [hx, if_false]
    cases hl : TradingAIAgent.getLocalAIRecommendations config now st options with
    | none => exact errorRecommendation_wellFormed now
    | some result => exact local_wellFormed config now st result.2 options result.1 hscore hl

/-! ## Theorems: the thresholder -/

/-- C4: for a numeric score and thresholds with strongBull > bull > bear > strongBear,
`getLocalAIRecommendations` returns STRONG_BUY with confidence round(score) when
score >= strongBull, BUY with round(score) when bull <= score < strongBull, STRONG_SELL
with round(100 - score) when score <= strongBear, SELL with round(100 - score) when
strongBear < score <= bear, and HOLD with confidence 50 when bear < score < bull. -/
theorem getLocalAIRecommendations_thresholds (config : AgentConfig) (now : String)
    (st : AgentState) (options : AgentOptions) (analysis : AgentAnalysis) (th : Thresholds)
    (q : ℚ) (hcfg : config.trendThresholds = some th) (han : options.analysis = some analysis)
    (hq : analysis.score = ScoreValue.num q)
    (hord : th.strongBull > th.bull ∧ th.bull > th.bear ∧ th.bear > th.strongBear) :
    ∃ r st', TradingAIAgent.getLocalAIRecommendations config now st options = some (r, st') ∧
      (th.strongBull ≤ q → r.action = "STRONG_BUY" ∧ r.confidence = (mathRound q : ℤ)) ∧
      (th.bull ≤ q ∧ q < th.strongBull → r.action = "BUY" ∧ r.confidence = (mathRound q : ℤ)) ∧
      (q ≤ th.strongBear →
        r.action = "STRONG_SELL" ∧ r.confidence = (mathRound (100 - q) : ℤ)) ∧
      (th.strongBear < q ∧ q ≤ th.bear →
        r.action = "SELL" ∧ r.confidence = (mathRound (100 - q) : ℤ)) ∧
      (th.bear < q ∧ q < th.bull → r.action = "HOLD" ∧ r.confidence = 50) := by
  obtain ⟨h1, h2, h3⟩ := hord
  have hround : mathRound 50 = 50 := by
    unfold mathRound
    rw [Int.floor_eq_iff]
    constructor <;> norm_num
  unfold TradingAIAgent.getLocalAIRecommendations
  simp only [han, hcfg]
  refine ⟨_, _, rfl, ?_, ?_, ?_, ?_, ?_⟩
  all_goals
    intro hc
    simp only [hq, TradingAIAgent.localDecision, ScoreValue.ge, ScoreValue.le,
      ScoreValue.toNumber, Option.getD_some, decide_eq_true_eq]
  · rw [if_pos hc]
    exact ⟨rfl, rfl⟩
  · rw [if_neg (not_le.mpr hc.2), if_pos hc.1]
    exact ⟨rfl, rfl⟩
  · rw [if_neg (not_le.mpr (by linarith)), if_neg (not_le.mpr (by linarith)), if_pos hc]
    exact ⟨rfl, rfl⟩
  · rw [if_neg (not_le.mpr (by linarith)), if_neg (not_le.mpr (by linarith)),
      if_neg (not_le.mpr hc.1), if_pos hc.2]
    exact ⟨rfl, rfl⟩
  · rw [if_neg (not_le.mpr (by linarith)), if_neg (not_le.mpr hc.2),
      if_neg (not_le.mpr (by linarith)), if_neg (not_le.mpr hc.1)]
    exact ⟨rfl, by simp [hround]⟩

/-- C4 witness: thresholds 80/60/40/20 and score 85. -/
theorem getLocalAIRecommendations_thresholds_witness :
    ∃ r st', TradingAIAgent.getLocalAIRecommendations ⟨false, none, some ⟨80, 60, 40, 20⟩⟩
        "t" TradingAIAgent.initialState ⟨"BTC/USDT", some ⟨ScoreValue.num 85, none⟩, 1, "15m"⟩
        = some (r, st') ∧
      ((80 : ℚ) ≤ 85 → r.action = "STRONG_BUY" ∧ r.confidence = (mathRound 85 : ℤ)) ∧
      ((60 : ℚ) ≤ 85 ∧ (85 : ℚ) < 80 → r.action = "BUY" ∧ r.confidence = (mathRound 85 : ℤ)) ∧
      ((85 : ℚ) ≤ 20 →
        r.action = "STRONG_SELL" ∧ r.confidence = (mathRound (100 - 85) : ℤ)) ∧
      ((20 : ℚ) < 85 ∧ (85 : ℚ) ≤ 40 →
        r.action = "SELL" ∧ r.confidence = (mathRound (100 - 85) : ℤ)) ∧
      ((40 : ℚ) < 85 ∧ (85 : ℚ) < 60 → r.action = "HOLD" ∧ r.confidence = 50) :=
  getLocalAIRecommendations_thresholds ⟨false, none, some ⟨80, 60, 40, 20⟩⟩ "t"
    TradingAIAgent.initialState ⟨"BTC/USDT", some ⟨ScoreValue.num 85, none⟩, 1, "15m"⟩
    ⟨ScoreValue.num 85, none⟩ ⟨80, 60, 40, 20⟩ 85 rfl rfl rfl
    ⟨by norm_num, by norm_num, by norm_num⟩

/-- C5: every recommendation the agent produces is well formed (action among the five
enum values, confidence an integer in [0,100]): the one of `getLocalAIRecommendations`
when the score is a number in [0,100], the one built by `parseExternalAIResponse` from
any parsed external response, and the error recommendation of `getRecommendations`;
hence, for a score in [0,100], whatever `getRecommendations` returns on any path. -/
theorem recommendation_wellFormed (toUpperCase : String → String)
    (config : AgentConfig) (now : String) (st : AgentState)
    (options : AgentOptions) :
    (∀ r st', (∀ a, options.analysis = some a →
          ∃ q : ℚ, a.score = ScoreValue.num q ∧ 0 ≤ q ∧ q ≤ 100) →
        TradingAIAgent.getLocalAIRecommendations config now st options = some (r, st') →
        TradingAIAgent.WellFormed r) ∧
    (∀ response r st',
        TradingAIAgent.parseExternalAIResponseTry toUpperCase now st response options =
          some (r, st') →
        TradingAIAgent.parseExternalAIResponse toUpperCase config now st response options =
          some (r, st')
          ∧ TradingAIAgent.WellFormed r) ∧
    (∀ fetchResult,
        (if config.externalAPIEnabled then
            TradingAIAgent.getExternalAIRecommendations toUpperCase config now st fetchResult
              options
          else TradingAIAgent.getLocalAIRecommendations config now st options) = none →
        TradingAIAgent.getRecommendations toUpperCase config now st fetchResult options =
            (TradingAIAgent.errorRecommendation now, st) ∧
          TradingAIAgent.WellFormed
            (TradingAIAgent.getRecommendations toUpperCase config now st fetchResult options).1) ∧
    (∀ fetchResult, (∀ a, options.analysis = some a →
          ∃ q : ℚ, a.score = ScoreValue.num q ∧ 0 ≤ q ∧ q ≤ 100) →
        TradingAIAgent.WellFormed
          (TradingAIAgent.getRecommendations toUpperCase config now st fetchResult options).1) := by
  refine ⟨?_, ?_, ?_, ?_⟩
  · intro r st' hscore h
    exact local_wellFormed config now st st' options r hscore h
  · intro response r st' h
    refine ⟨?_, parseTry_wellFormed toUpperCase now st st' response options r h⟩
    unfold TradingAIAgent.parseExternalAIResponse
    rw [h]
  · intro fetchResult h
    have hr : TradingAIAgent.getRecommendations toUpperCase config now st fetchResult options =
        (TradingAIAgent.errorRecommendation now, st) := by
      unfold TradingAIAgent.getRecommendations
      simp only [h]
    exact ⟨hr, by rw [hr]; exact errorRecommendation_wellFormed now⟩
  · intro fetchResult hscore
    exact getRecommendations_wellFormed toUpperCase config now st fetchResult options hscore

/-- C5 witness: the local recommendation for score 85 under thresholds 80/60/40/20, and
the error recommendation returned when no analysis is passed. -/
theorem recommendation_wellFormed_witness :
    (∀ r st',
        TradingAIAgent.getLocalAIRecommendations ⟨false, none, some ⟨80, 60, 40, 20⟩⟩ "t"
          TradingAIAgent.initialState ⟨"BTC/USDT", some ⟨ScoreValue.num 85, none⟩, 1, "15m"⟩
          = some (r, st') → TradingAIAgent.WellFormed r) ∧
    TradingAIAgent.WellFormed
      (TradingAIAgent.getRecommendations String.toUpper ⟨false, none, some ⟨80, 60, 40, 20⟩⟩ "t"
        TradingAIAgent.initialState FetchResult.requestFailed ⟨"BTC/USDT", none, 1, "15m"⟩).1 :=
  ⟨fun r st' h =>
      (recommendation_wellFormed String.toUpper ⟨false, none, some ⟨80, 60, 40, 20⟩⟩ "t"
        TradingAIAgent.initialState
        ⟨"BTC/USDT", some ⟨ScoreValue.num 85, none⟩, 1, "15m"⟩).1 r st'
        (fun a ha => ⟨85, by cases ha; rfl, by norm_num, by norm_num⟩) h,
    ((recommendation_wellFormed String.toUpper ⟨false, none, some ⟨80, 60, 40, 20⟩⟩ "t"
        TradingAIAgent.initialState ⟨"BTC/USDT", none, 1, "15m"⟩).2.2.1
        FetchResult.requestFailed rfl).2⟩

/-! ## Lemmas: loops and the indicator library -/

theorem forLoop_induction {σ : Type} (P : σ → Prop) (start stop : Nat) (body : σ → Nat → σ)
    (init : σ) (h0 : P init) (hstep : ∀ s i, P s → P (body s i)) :
    P (forLoop start stop body init) := by
  unfold forLoop
  generalize List.range (stop - start) = l
  induction l generalizing init with
  | nil => exact h0
  | cons k l ih => exact ih _ (hstep _ _ h0)

theorem foldl_add_eq_sum (l : List ℚ) (a : ℚ) :
    l.foldl (fun total price => total + price) a = a + l.sum := by
  induction l generalizing a with
  | nil => simp
  | cons x l ih => rw [List.foldl_cons, ih, List.sum_cons]; ring

theorem lastElements_eq_drop (xs : List ℚ) (n : Nat) :
    lastElements xs n = xs.drop (xs.length - n) := by
  unfold lastElements
  rw [List.take_reverse, List.reverse_reverse]

theorem rsiValue_bounds (g l : ℚ) (hg : 0 ≤ g) (hl : 0 ≤ l) :
    0 ≤ rsiValue g l ∧ rsiValue g l ≤ 100 ∧ (rsiValue g l = 100 ↔ l = 0) := by
  unfold rsiValue
  by_cases h : l = 0
  · simp [h]
  · have hlpos : 0 < l := lt_of_le_of_ne hl (Ne.symm h)
    have hrs : 0 ≤ g / l := div_nonneg hg hl
    have hden : 0 < 1 + g / l := by linarith
    have hq : 0 < 100 / (1 + g / l) := div_pos (by norm_num) hden
    have hq2 : 100 / (1 + g / l) ≤ 100 := by
      rw [div_le_iff₀ hden]
      nlinarith
    rw [if_neg h]
    refine ⟨by linarith, by linarith, ?_⟩
    constructor
    · intro h100
      exfalso
      linarith
    · intro h0
      exact absurd h0 h

theorem smoothed_nonneg (avg current : ℚ) (period : Nat) (hp : 1 ≤ period) (ha : 0 ≤ avg)
    (hc : 0 ≤ current) : 0 ≤ (avg * ((period : ℚ) - 1) + current) / period := by
  have h1 : (1 : ℚ) ≤ period := by exact_mod_cast hp
  apply div_nonneg
  · have : 0 ≤ avg * ((period : ℚ) - 1) := mul_nonneg ha (by linarith)
    linarith
  · linarith

theorem currentGain_nonneg (change : ℚ) : 0 ≤ (if change ≥ 0 then change else 0 : ℚ) := by
  split_ifs with h
  · exact h
  · exact le_refl _

theorem currentLoss_nonneg (change : ℚ) : 0 ≤ (if change ≥ 0 then 0 else -change : ℚ) := by
  split_ifs with h
  · exact le_refl _
  · push_neg at h
    linarith

theorem app_rsiSeed_nonneg (prices : List ℚ) (period : Nat) :
    0 ≤ (App.rsiSeed prices period).1 ∧ 0 ≤ (App.rsiSeed prices period).2 := by
  unfold App.rsiSeed
  apply forLoop_induction (fun acc : ℚ × ℚ => 0 ≤ acc.1 ∧ 0 ≤ acc.2)
  · exact ⟨le_refl _, le_refl _⟩
  · intro s i hs
    dsimp only
    split_ifs with h
    · exact ⟨add_nonneg hs.1 h, hs.2⟩
    · push_neg at h
      exact ⟨hs.1, sub_nonneg.mpr (le_trans (le_of_lt h) hs.2)⟩

theorem scanner_rsiSeed_nonneg (prices : List ℚ) (period : Nat) :
    0 ≤ (MarketScanner.rsiSeed prices period).1 ∧
      0 ≤ (MarketScanner.rsiSeed prices period).2 := by
  unfold MarketScanner.rsiSeed
  apply forLoop_induction (fun acc : ℚ × ℚ => 0 ≤ acc.1 ∧ 0 ≤ acc.2)
  · exact ⟨le_refl _, le_refl _⟩
  · intro s i hs
    dsimp only
    split_ifs with h
    · exact ⟨add_nonneg hs.1 h, hs.2⟩
    · push_neg at h
      exact ⟨hs.1, sub_nonneg.mpr (le_trans (le_of_lt h) hs.2)⟩

theorem scanner_rsiAverages_nonneg (prices : List ℚ) (period : Nat) (hp : 1 ≤ period) :
    0 ≤ (MarketScanner.rsiAverages prices period).1 ∧
      0 ≤ (MarketScanner.rsiAverages prices period).2 := by
  have h1 : (0 : ℚ) ≤ period := by positivity
  unfold MarketScanner.rsiAverages
  apply forLoop_induction (fun st : ℚ × ℚ => 0 ≤ st.1 ∧ 0 ≤ st.2)
  · exact ⟨div_nonneg (scanner_rsiSeed_nonneg prices period).1 h1,
      div_nonneg (scanner_rsiSeed_nonneg prices period).2 h1⟩
  · intro s i hs
    exact ⟨smoothed_nonneg _ _ period hp hs.1 (currentGain_nonneg _),
      smoothed_nonneg _ _ period hp hs.2 (currentLoss_nonneg _)⟩

/-- Invariant of the second loop of `App.calculateRSI`: the averages are non-negative and
the last pushed RSI value, if any, is the RSI of the current averages. -/
theorem app_rsiLoop_invariant (prices : List ℚ) (period : Nat) (hp : 1 ≤ period) :
    0 ≤ (App.rsiLoop prices period).1 ∧ 0 ≤ (App.rsiLoop prices period).2.1 ∧
      ((App.rsiLoop prices period).2.2 = [] ∨
        ∃ l, (App.rsiLoop prices period).2.2 =
          l ++ [rsiValue (App.rsiLoop prices period).1 (App.rsiLoop prices period).2.1]) := by
  have h1 : (0 : ℚ) ≤ period := by positivity
  unfold App.rsiLoop
  apply forLoop_induction (fun st : ℚ × ℚ × List ℚ =>
    0 ≤ st.1 ∧ 0 ≤ st.2.1 ∧ (st.2.2 = [] ∨ ∃ l, st.2.2 = l ++ [rsiValue st.1 st.2.1]))
  · exact ⟨div_nonneg (app_rsiSeed_nonneg prices period).1 h1,
      div_nonneg (app_rsiSeed_nonneg prices period).2 h1, Or.inl rfl⟩
  · intro s i hs
    exact ⟨smoothed_nonneg _ _ period hp hs.1 (currentGain_nonneg _),
      smoothed_nonneg _ _ period hp hs.2.1 (currentLoss_nonneg _), Or.inr ⟨s.2.2, rfl⟩⟩

theorem getD_last_append_singleton (l : List ℚ) (x : ℚ) :
    (l ++ [x]).getD ((l ++ [x]).length - 1) 0 = x := by
  simp

theorem forLoop_rel {σ τ : Type} (R : σ → τ → Prop) (start stop : Nat)
    (body₁ : σ → Nat → σ) (body₂ : τ → Nat → τ) (init₁ : σ) (init₂ : τ) (h0 : R init₁ init₂)
    (hstep : ∀ s t i, R s t → R (body₁ s i) (body₂ t i)) :
    R (forLoop start stop body₁ init₁) (forLoop start stop body₂ init₂) := by
  unfold forLoop
  generalize List.range (stop - start) = l
  induction l generalizing init₁ init₂ with
  | nil => exact h0
  | cons k l ih => exact ih _ _ (hstep _ _ _ h0)

theorem forLoop_succ {σ : Type} (start stop : Nat) (body : σ → Nat → σ) (init : σ)
    (h : start ≤ stop) :
    forLoop start (stop + 1) body init = body (forLoop start stop body init) stop := by
  unfold forLoop
  have h1 : stop + 1 - start = (stop - start) + 1 := by omega
  have h2 : start + (stop - start) = stop := by omega
  rw [h1, List.range_succ, List.foldl_append, List.foldl_cons, List.foldl_nil, h2]

theorem forLoop_empty {σ : Type} (start stop : Nat) (body : σ → Nat → σ) (init : σ)
    (h : stop ≤ start) : forLoop start stop body init = init := by
  unfold forLoop
  have h1 : stop - start = 0 := by omega
  rw [h1, List.range_zero, List.foldl_nil]

/-- The two copies of the RSI loops compute the same averages. -/
theorem app_rsiLoop_averages (prices : List ℚ) (period : Nat) :
    (App.rsiLoop prices period).1 = (MarketScanner.rsiAverages prices period).1 ∧
      (App.rsiLoop prices period).2.1 = (MarketScanner.rsiAverages prices period).2 := by
  unfold App.rsiLoop MarketScanner.rsiAverages
  apply forLoop_rel (fun (s : ℚ × ℚ × List ℚ) (t : ℚ × ℚ) => s.1 = t.1 ∧ s.2.1 = t.2)
  · exact ⟨rfl, rfl⟩
  · intro s t i hst
    dsimp only
    rw [hst.1, hst.2]
    exact ⟨rfl, rfl⟩

/-- With exactly `period + 1` prices the smoothing loop of `app.js` never runs, `rsiValues`
stays empty and `calculateRSI` returns null. -/
theorem app_calculateRSI_none_of_length (prices : List ℚ) (period : Nat)
    (h : prices.length = period + 1) : App.calculateRSI prices period = none := by
  unfold App.calculateRSI App.rsiLoop
  rw [forLoop_empty _ _ _ _ (by omega)]
  simp [h]

/-- From `period + 2` prices on, the two copies of `calculateRSI` return the same number. -/
theorem calculateRSI_agree_of_long (prices : List ℚ) (period : Nat)
    (h : period + 2 ≤ prices.length) :
    App.calculateRSI prices period = MarketScanner.calculateRSI prices period := by
  obtain ⟨hg, hl⟩ := app_rsiLoop_averages prices period
  have hlast : ∃ l, (App.rsiLoop prices period).2.2 =
      l ++ [rsiValue (App.rsiLoop prices period).1 (App.rsiLoop prices period).2.1] := by
    obtain ⟨m, hm⟩ : ∃ m, prices.length = m + 1 := ⟨prices.length - 1, by omega⟩
    unfold App.rsiLoop
    rw [hm, forLoop_succ _ _ _ _ (by omega)]
    exact ⟨_, rfl⟩
  obtain ⟨l, hl'⟩ := hlast
  have hlen : ¬ prices.length < period + 1 := by omega
  unfold App.calculateRSI MarketScanner.calculateRSI
  simp only [hlen, if_false]
  rw [hl', getD_last_append_singleton, hg, hl]
  simp only [List.length_append, List.length_singleton, gt_iff_lt, Nat.zero_lt_succ, if_true,
    rsiValue]
  split_ifs <;> rfl

/-! ## Lemmas: exponential moving averages and the MACD line -/

theorem map_getD_range_eq_drop (xs : List ℚ) (s : Nat) :
    (List.range (xs.length - s)).map (fun k => xs.getD (s + k) 0) = xs.drop s := by
  apply List.ext_getElem
  · simp
  · intro i h1 h2
    simp only [List.length_map, List.length_range] at h1
    simp only [List.getElem_map, List.getElem_range, List.getElem_drop]
    exact List.getD_eq_getElem _ _ (by omega)

theorem forLoop_getD_eq_foldl {σ : Type} (xs : List ℚ) (s : Nat) (f : σ → ℚ → σ) (init : σ) :
    forLoop s xs.length (fun st i => f st (xs.getD i 0)) init = (xs.drop s).foldl f init := by
  unfold forLoop
  rw [← map_getD_range_eq_drop, List.foldl_map]

theorem scanl_eq_cons_tail (f : ℚ → ℚ → ℚ) (a : ℚ) (l : List ℚ) :
    List.scanl f a l = a :: (List.scanl f a l).tail := by
  cases l <;> simp [List.scanl]

theorem emaFold_eq (m : ℚ) (ys : List ℚ) (e0 : ℚ) (vs0 : List ℚ) :
    ys.foldl (fun (st : ℚ × List ℚ) x => ((x - st.1) * m + st.1, st.2 ++ [(x - st.1) * m + st.1]))
        (e0, vs0) =
      (ys.foldl (fun e x => (x - e) * m + e) e0,
        vs0 ++ (List.scanl (fun e x => (x - e) * m + e) e0 ys).tail) := by
  induction ys generalizing e0 vs0 with
  | nil => simp [List.scanl]
  | cons y ys ih =>
    rw [List.foldl_cons, ih, List.foldl_cons]
    simp only [List.scanl, List.tail_cons]
    rw [scanl_eq_cons_tail]
    simp

theorem getD_scanl (f : ℚ → ℚ → ℚ) (l : List ℚ) (a : ℚ) (j : Nat) (h : j ≤ l.length) :
    (List.scanl f a l).getD j 0 = (l.take j).foldl f a := by
  induction l generalizing a j with
  | nil =>
    have hj : j = 0 := by simpa using h
    subst hj
    simp [List.scanl]
  | cons x l ih =>
    cases j with
    | zero => simp [List.scanl]
    | succ j =>
      have hj : j ≤ l.length := by simpa using h
      have := ih (f a x) j hj
      simp only [List.scanl, List.take_succ_cons, List.foldl_cons]
      rw [← this]
      simp

theorem calculateEMA_eq_scanl (xs : List ℚ) (p : Nat) :
    App.calculateEMA xs p =
      List.scanl (fun e x => (x - e) * (2 / ((p : ℚ) + 1)) + e)
        ((xs.take p).foldl (fun sum price => sum + price) 0 / p) (xs.drop p) := by
  unfold App.calculateEMA
  have h := forLoop_getD_eq_foldl xs p
    (fun (st : ℚ × List ℚ) x =>
      ((x - st.1) * (2 / ((p : ℚ) + 1)) + st.1, st.2 ++ [(x - st.1) * (2 / ((p : ℚ) + 1)) + st.1]))
    ((xs.take p).foldl (fun sum price => sum + price) 0 / p,
      [(xs.take p).foldl (fun sum price => sum + price) 0 / p])
  dsimp only at h ⊢
  rw [h, emaFold_eq]
  dsimp only
  rw [List.singleton_append, ← scanl_eq_cons_tail]

theorem calculateEMA_length (xs : List ℚ) (p : Nat) :
    (App.calculateEMA xs p).length = xs.length - p + 1 := by
  rw [calculateEMA_eq_scanl, List.length_scanl, List.length_drop]

theorem specEMA_eq_foldl (xs : List ℚ) (p : Nat) :
    specEMA xs p =
      (xs.drop p).foldl (fun e x => (x - e) * (2 / ((p : ℚ) + 1)) + e)
        ((xs.take p).foldl (fun sum price => sum + price) 0 / p) := by
  unfold specEMA
  rw [foldl_add_eq_sum, zero_add]
  congr 1
  funext e x
  rw [mul_div_assoc]

theorem calculateEMA_getD (xs : List ℚ) (p j : Nat) (h : p + j ≤ xs.length) :
    (App.calculateEMA xs p).getD j 0 = specEMA (xs.take (p + j)) p := by
  rw [calculateEMA_eq_scanl, getD_scanl _ _ _ _ (by rw [List.length_drop]; omega),
    specEMA_eq_foldl, List.drop_take, List.take_take]
  have h1 : p + j - p = j := by omega
  have h2 : min p (p + j) = p := by omega
  rw [h1, h2]

theorem forLoop_push (n : Nat) (g : Nat → ℚ) (init : List ℚ) :
    forLoop 0 n (fun (out : List ℚ) i => out ++ [g i]) init = init ++ (List.range n).map g := by
  induction n with
  | zero => simp [forLoop]
  | succ n ih =>
    rw [forLoop_succ _ _ _ _ (Nat.zero_le n), ih, List.range_succ, List.map_append,
      List.append_assoc]
    simp

theorem alignedDifference_eq (long short : List ℚ) (h : short.length ≤ long.length) :
    App.alignedDifference long short =
      (List.range short.length).map
        (fun i => long.getD (i + (long.length - short.length)) 0 - short.getD i 0) := by
  unfold App.alignedDifference
  have hbody : (fun (out : List ℚ) (i : Nat) =>
      let k : ℤ := (i : ℤ) + ((long.length : ℤ) - (short.length : ℤ))
      if k ≥ 0 then out ++ [long.getD k.toNat 0 - short.getD i 0] else out) =
      (fun (out : List ℚ) (i : Nat) =>
        out ++ [long.getD (i + (long.length - short.length)) 0 - short.getD i 0]) := by
    funext out i
    have hk : (i : ℤ) + ((long.length : ℤ) - (short.length : ℤ)) ≥ 0 := by omega
    have hn : ((i : ℤ) + ((long.length : ℤ) - (short.length : ℤ))).toNat =
        i + (long.length - short.length) := by omega
    simp only [hk, if_true, hn]
  rw [hbody, forLoop_push, List.nil_append]

theorem getD_map_range (n i : Nat) (g : Nat → ℚ) (h : i < n) :
    ((List.range n).map g).getD i 0 = g i := by
  rw [List.getD_eq_getElem _ _ (by simpa using h)]
  simp

theorem specMacdLine_length (prices : List ℚ) (fast slow : Nat) :
    (specMacdLine prices fast slow).length = prices.length - (slow - 1) := by
  simp [specMacdLine]

/-- The MACD line built by `calculateMACD` is the MACD-line series of the specification. -/
theorem macdLine_eq_spec (prices : List ℚ) (fast slow : Nat) (h1 : 1 ≤ fast)
    (h2 : fast ≤ slow) (hlen : slow ≤ prices.length) :
    App.alignedDifference (App.calculateEMA prices fast) (App.calculateEMA prices slow) =
      specMacdLine prices fast slow := by
  rw [alignedDifference_eq _ _ (by rw [calculateEMA_length, calculateEMA_length]; omega)]
  unfold specMacdLine
  rw [calculateEMA_length, calculateEMA_length]
  have hr : prices.length - slow + 1 = prices.length - (slow - 1) := by omega
  rw [hr]
  apply List.map_congr_left
  intro i hi
  rw [List.mem_range] at hi
  rw [calculateEMA_getD _ _ _ (by omega), calculateEMA_getD _ _ _ (by omega)]
  have e1 : fast + (i + (prices.length - fast + 1 - (prices.length - (slow - 1)))) =
      slow - 1 + i + 1 := by omega
  have e2 : slow + i = slow - 1 + i + 1 := by omega
  rw [e1, e2]

/-- General form of C10: for periods with 1 <= fast <= slow and 1 <= signalPeriod and a
series of at least slow + signalPeriod prices, `calculateMACD` of app.js returns the
specified triple. -/
theorem app_calculateMACD_eq_spec (prices : List ℚ) (fast slow sig : Nat) (h1 : 1 ≤ fast)
    (h2 : fast ≤ slow) (h3 : 1 ≤ sig) (hlen : slow + sig ≤ prices.length) :
    App.calculateMACD prices fast slow sig = some (specMACD prices fast slow sig) := by
  have hnot : ¬ prices.length < slow + sig := by omega
  unfold App.calculateMACD
  simp only [hnot, if_false]
  rw [macdLine_eq_spec prices fast slow h1 h2 (by omega)]
  have hm : (specMacdLine prices fast slow).length = prices.length - (slow - 1) :=
    specMacdLine_length prices fast slow
  -- last MACD value
  have hmacd : (specMacdLine prices fast slow).getD
      ((specMacdLine prices fast slow).length - 1) 0 =
      specEMA prices fast - specEMA prices slow := by
    rw [hm]
    unfold specMacdLine
    rw [getD_map_range _ _ _ (by omega)]
    have e : slow - 1 + (prices.length - (slow - 1) - 1) + 1 = prices.length := by omega
    rw [e, List.take_length]
  -- last signal value
  have hsig : (App.calculateEMA (specMacdLine prices fast slow) sig).getD
      ((App.calculateEMA (specMacdLine prices fast slow) sig).length - 1) 0 =
      specEMA (specMacdLine prices fast slow) sig := by
    rw [calculateEMA_length, Nat.add_sub_cancel, calculateEMA_getD _ _ _ (by omega)]
    have e : sig + ((specMacdLine prices fast slow).length - sig) =
        (specMacdLine prices fast slow).length := by omega
    rw [e, List.take_length]
  -- last histogram value
  have hhist : (App.alignedDifference (specMacdLine prices fast slow)
      (App.calculateEMA (specMacdLine prices fast slow) sig)).getD
      ((App.alignedDifference (specMacdLine prices fast slow)
        (App.calculateEMA (specMacdLine prices fast slow) sig)).length - 1) 0 =
      specEMA prices fast - specEMA prices slow -
        specEMA (specMacdLine prices fast slow) sig := by
    rw [alignedDifference_eq _ _ (by rw [calculateEMA_length]; omega)]
    rw [List.length_map, List.length_range, getD_map_range _ _ _ (by rw [calculateEMA_length]; omega)]
    rw [← hsig, ← hmacd]
    have e : (App.calculateEMA (specMacdLine prices fast slow) sig).length - 1 +
        ((specMacdLine prices fast slow).length -
          (App.calculateEMA (specMacdLine prices fast slow) sig).length) =
        (specMacdLine prices fast slow).length - 1 := by
      rw [calculateEMA_length]
      omega
    rw [e]
  rw [hmacd, hsig, hhist]
  rfl

/-! ## Theorems: SMA and RSI -/

/-- C6: for every price list and period >= 1, `calculateSMA` returns null when the list has
fewer than `period` elements and otherwise (sum of the last `period` elements) / period,
and the three copies (app.js, MarketScanner, simple-strategy.js) agree on every input. -/
theorem calculateSMA_spec (prices : List ℚ) (period : Nat) (_hp : 1 ≤ period) :
    App.calculateSMA prices period =
        (if prices.length < period then none
          else some ((lastElements prices period).sum / period)) ∧
      MarketScanner.calculateSMA prices period = App.calculateSMA prices period ∧
      SimpleStrategy.calculateSMA prices period = App.calculateSMA prices period := by
  refine ⟨?_, rfl, rfl⟩
  unfold App.calculateSMA
  by_cases h : prices.length < period
  · simp [h]
  · simp only [h, if_false, foldl_add_eq_sum, lastElements_eq_drop, zero_add]

/-- C6 witness: the mean of the last two of four prices. -/
theorem calculateSMA_spec_witness :
    App.calculateSMA [1, 2, 3, 4] 2 =
        (if [1, 2, 3, (4 : ℚ)].length < 2 then none
          else some ((lastElements [1, 2, 3, 4] 2).sum / (2 : ℕ))) ∧
      MarketScanner.calculateSMA [1, 2, 3, 4] 2 = App.calculateSMA [1, 2, 3, 4] 2 ∧
      SimpleStrategy.calculateSMA [1, 2, 3, 4] 2 = App.calculateSMA [1, 2, 3, 4] 2 :=
  calculateSMA_spec [1, 2, 3, 4] 2 (by decide)

/-- C7: for period >= 1, whenever `calculateRSI` (app.js or MarketScanner) returns a
number, the number lies in [0,100], and it equals 100 exactly when the final
Wilder-smoothed average loss is 0 (for the scanner: when the averages were computed, that
is the series has at least period+1 elements, and the final average loss is 0). -/
theorem calculateRSI_range (prices : List ℚ) (period : Nat) (r : ℚ) (hp : 1 ≤ period) :
    (App.calculateRSI prices period = some r →
        0 ≤ r ∧ r ≤ 100 ∧ (r = 100 ↔ (App.rsiLoop prices period).2.1 = 0)) ∧
      (MarketScanner.calculateRSI prices period = some r →
        0 ≤ r ∧ r ≤ 100 ∧
          (r = 100 ↔ period + 1 ≤ prices.length ∧
            (MarketScanner.rsiAverages prices period).2 = 0)) := by
  constructor
  · intro h
    unfold App.calculateRSI at h
    obtain ⟨hg, hl, hv⟩ := app_rsiLoop_invariant prices period hp
    by_cases hlen : prices.length < period + 1
    · simp [hlen] at h
    · rcases hv with hnil | ⟨l, hl'⟩
      · simp [hlen, hnil] at h
      · simp only [hlen, if_false] at h
        rw [hl', getD_last_append_singleton] at h
        simp only [List.length_append, List.length_singleton, gt_iff_lt, Nat.zero_lt_succ,
          if_true, Option.some.injEq] at h
        rw [← h]
        exact rsiValue_bounds _ _ hg hl
  · intro h
    unfold MarketScanner.calculateRSI at h
    obtain ⟨hg, hl⟩ := scanner_rsiAverages_nonneg prices period hp
    by_cases hlen : prices.length < period + 1
    · simp only [hlen, if_true, Option.some.injEq] at h
      rw [← h]
      refine ⟨by norm_num, by norm_num, ?_⟩
      constructor
      · intro h50
        norm_num at h50
      · intro hc
        omega
    · have hb := rsiValue_bounds _ _ hg hl
      unfold rsiValue at hb
      by_cases h0 : (MarketScanner.rsiAverages prices period).2 = 0
      · simp only [hlen, h0, if_true, if_false, Option.some.injEq] at h
        rw [← h]
        refine ⟨by norm_num, by norm_num, ?_⟩
        constructor
        · intro _
          exact ⟨by omega, h0⟩
        · intro _
          rfl
      · simp only [hlen, h0, if_false, Option.some.injEq] at h hb
        rw [← h]
        refine ⟨hb.1, hb.2.1, ?_⟩
        constructor
        · intro h100
          exact absurd (hb.2.2.mp h100) (by simp)
        · intro hc
          exact absurd hc.2 h0

/-- C7 witness: prices 1, 3, 2, 5 with period 2, where both copies return 800/9. -/
theorem calculateRSI_range_witness :
    (App.calculateRSI [1, 3, 2, 5] 2 = some (800 / 9) →
        (0 : ℚ) ≤ 800 / 9 ∧ (800 / 9 : ℚ) ≤ 100 ∧
          ((800 / 9 : ℚ) = 100 ↔ (App.rsiLoop [1, 3, 2, 5] 2).2.1 = 0)) ∧
      (MarketScanner.calculateRSI [1, 3, 2, 5] 2 = some (800 / 9) →
        (0 : ℚ) ≤ 800 / 9 ∧ (800 / 9 : ℚ) ≤ 100 ∧
          ((800 / 9 : ℚ) = 100 ↔ 2 + 1 ≤ [1, 3, 2, (5 : ℚ)].length ∧
            (MarketScanner.rsiAverages [1, 3, 2, 5] 2).2 = 0)) :=
  calculateRSI_range [1, 3, 2, 5] 2 (800 / 9) (by decide)

/-- C8 (as stated, refuted): for the three prices 1, 2, 3 and period 14 the series is
shorter than period + 1, yet `MarketScanner.calculateRSI` returns the number 50, not
null. -/
theorem calculateRSI_short_counterexample :
    ¬ ([1, 2, (3 : ℚ)].length < 14 + 1 →
        App.calculateRSI [1, 2, 3] 14 = none ∧ MarketScanner.calculateRSI [1, 2, 3] 14 = none) := by
  intro h
  have h2 := (h (by decide)).2
  simp [MarketScanner.calculateRSI] at h2

/-- C8 (amended): for every price series with fewer than period+1 elements, `calculateRSI`
of app.js returns null and `MarketScanner.calculateRSI` returns the neutral default 50. -/
theorem calculateRSI_short (prices : List ℚ) (period : Nat)
    (h : prices.length < period + 1) :
    App.calculateRSI prices period = none ∧
      MarketScanner.calculateRSI prices period = some 50 := by
  unfold App.calculateRSI MarketScanner.calculateRSI
  simp [h]

/-- C8 witness: three prices and the default period 14. -/
theorem calculateRSI_short_witness :
    App.calculateRSI [1, 2, 3] 14 = none ∧ MarketScanner.calculateRSI [1, 2, 3] 14 = some 50 :=
  calculateRSI_short [1, 2, 3] 14 (by decide)

/-- C9 (failing input): on the prices 1, 3, 2 with period 2, a series of exactly
period + 1 elements, `MarketScanner.calculateRSI` returns the Wilder RSI 200/3 while
`calculateRSI` of app.js returns null. -/
theorem calculateRSI_exact_length_diverges :
    [1, 3, (2 : ℚ)].length = 2 + 1 ∧
      App.calculateRSI [1, 3, 2] 2 = none ∧
      MarketScanner.calculateRSI [1, 3, 2] 2 = some (200 / 3) := by
  refine ⟨rfl, ?_, ?_⟩
  · simp [App.calculateRSI, App.rsiLoop, forLoop]
  · simp [MarketScanner.calculateRSI, MarketScanner.rsiAverages, MarketScanner.rsiSeed,
      forLoop, List.range_succ]
    norm_num

/-! ## Theorems: MACD of `app.js` -/

/-- C10: with periods 12/26/9, `calculateMACD` of app.js returns null exactly when the
series has fewer than 35 elements, and otherwise the triple with macd = EMA_12 - EMA_26 at
the last price, signal = last EMA_9 value over the MACD-line series (one value per price
index from 25 to the end) and histogram = macd - signal, each EMA seeded with the simple
average of its first `period` inputs and updated by ema = (x - ema)*2/(period+1) + ema. -/
theorem app_calculateMACD_default (prices : List ℚ) :
    (App.calculateMACD prices 12 26 9 = none ↔ prices.length < 26 + 9) ∧
      App.calculateMACD prices 12 26 9 =
        (if prices.length < 26 + 9 then none else some (specMACD prices 12 26 9)) := by
  have hmain : App.calculateMACD prices 12 26 9 =
      (if prices.length < 26 + 9 then none else some (specMACD prices 12 26 9)) := by
    by_cases h : prices.length < 26 + 9
    · unfold App.calculateMACD
      simp only [h, if_true]
    · rw [if_neg h]
      exact app_calculateMACD_eq_spec prices 12 26 9 (by decide) (by decide) (by decide)
        (by omega)
  refine ⟨?_, hmain⟩
  rw [hmain]
  by_cases h : prices.length < 26 + 9
  · simp [h]
  · simp [h]

/-! ## Lemmas: the scanner's MACD and constant price series -/

theorem scanner_calculateEMA_eq_specEMA (data : List ℚ) (period : Nat) :
    MarketScanner.calculateEMA data period = specEMA data period := by
  unfold MarketScanner.calculateEMA
  have h := forLoop_getD_eq_foldl data period
    (fun (ema : ℚ) x => (x - ema) * (2 / ((period : ℚ) + 1)) + ema)
    ((data.take period).foldl (fun sum price => sum + price) 0 / period)
  dsimp only at h ⊢
  rw [h, specEMA_eq_foldl]

theorem foldl_push_eq_map {α β : Type} (f : α → β) (l : List α) (init : List β) :
    l.foldl (fun out k => out ++ [f k]) init = init ++ l.map f := by
  induction l generalizing init with
  | nil => simp
  | cons x l ih => rw [List.foldl_cons, ih]; simp

theorem macdValues_eq_map (prices : List ℚ) (fast slow : Nat) :
    MarketScanner.macdValues prices fast slow =
      (List.range (prices.length - (prices.length - slow))).map (fun k =>
        specEMA (prices.take (prices.length - slow + k + 1)) fast
          - specEMA (prices.take (prices.length - slow + k + 1)) slow) := by
  unfold MarketScanner.macdValues forLoop
  rw [foldl_push_eq_map, List.nil_append]
  simp only [scanner_calculateEMA_eq_specEMA]

theorem foldl_ema_replicate (c k : ℚ) (m : Nat) :
    (List.replicate m c).foldl (fun ema x => (x - ema) * 2 / k + ema) c = c := by
  induction m with
  | zero => rfl
  | succ m ih =>
    rw [List.replicate_succ, List.foldl_cons]
    simpa using ih

/-- The EMA of a constant series: the constant when the series has at least `period`
elements, else the sum of the series divided by `period`. -/
theorem specEMA_replicate (c : ℚ) (m p : Nat) (hp : 1 ≤ p) :
    specEMA (List.replicate m c) p = if p ≤ m then c else (m : ℚ) * c / p := by
  unfold specEMA
  rw [List.take_replicate, List.drop_replicate, List.sum_replicate]
  have hp0 : (p : ℚ) ≠ 0 := by positivity
  by_cases h : p ≤ m
  · rw [if_pos h, min_eq_left h]
    have hseed : (p • c) / (p : ℚ) = c := by
      rw [nsmul_eq_mul]
      field_simp
    rw [hseed]
    exact foldl_ema_replicate c _ _
  · rw [if_neg h]
    have h1 : m - p = 0 := by omega
    have h2 : min p m = m := by omega
    rw [h1, h2, List.replicate_zero, List.foldl_nil, nsmul_eq_mul]

theorem foldl_ema_zeros (e k : ℚ) (m : Nat) :
    (List.replicate m (0 : ℚ)).foldl (fun ema x => (x - ema) * 2 / k + ema) e =
      e * (1 - 2 / k) ^ m := by
  induction m generalizing e with
  | zero => simp
  | succ m ih =>
    rw [List.replicate_succ, List.foldl_cons, ih, pow_succ]
    ring

/-- On a constant series every value of the specified MACD line is 0. -/
theorem specMacdLine_replicate (c : ℚ) (n fast slow : Nat) (h1 : 1 ≤ fast)
    (h2 : fast ≤ slow) :
    specMacdLine (List.replicate n c) fast slow = List.replicate (n - (slow - 1)) 0 := by
  unfold specMacdLine
  rw [List.eq_replicate_iff]
  refine ⟨by simp, ?_⟩
  intro b hb
  rw [List.mem_map] at hb
  obtain ⟨k, hk, hb⟩ := hb
  rw [List.mem_range, List.length_replicate] at hk
  rw [← hb, List.take_replicate, specEMA_replicate c _ fast h1,
    specEMA_replicate c _ slow (by omega)]
  have e : min (slow - 1 + k + 1) n = slow - 1 + k + 1 := by omega
  rw [e, if_pos (by omega), if_pos (by omega), sub_self]

/-- On 50 closes all equal to 1 the scanner's `macdValues` start with 1/26 (the EMA-26 of
a 25-element prefix is 25/26) and continue with 25 zeros. -/
theorem macdValues_fifty_ones :
    MarketScanner.macdValues (List.replicate 50 1) 12 26 = (1 / 26) :: List.replicate 25 0 := by
  rw [macdValues_eq_map, List.length_replicate]
  have e : 50 - (50 - 26) = 25 + 1 := by decide
  rw [e, List.range_succ_eq_map, List.map_cons, List.map_map]
  congr 1
  · rw [List.take_replicate, specEMA_replicate 1 _ 12 (by decide),
      specEMA_replicate 1 _ 26 (by decide)]
    norm_num
  · rw [List.eq_replicate_iff]
    refine ⟨by simp, ?_⟩
    intro b hb
    rw [List.mem_map] at hb
    obtain ⟨k, hk, hb⟩ := hb
    rw [List.mem_range] at hk
    rw [← hb]
    simp only [Function.comp_apply, Nat.succ_eq_add_one]
    rw [List.take_replicate, specEMA_replicate 1 _ 12 (by decide),
      specEMA_replicate 1 _ 26 (by decide)]
    have e2 : min (50 - 26 + (k + 1) + 1) 50 = 26 + k := by omega
    rw [e2, if_pos (by omega), if_pos (by omega), sub_self]

/-! ## Theorems: the two MACD evaluations -/

/-- C11 (failing input): on 50 closes all equal to 1 (the scanner's lookback) the
full-series MACD of app.js is (0, 0, 0), while the last-point MACD of the scanner has a
non-zero signal and histogram, so the two evaluations disagree. -/
theorem calculateMACD_scanner_diverges :
    App.calculateMACD (List.replicate 50 1) 12 26 9 =
        some { macd := 0, signal := 0, histogram := 0 } ∧
      MarketScanner.calculateMACD (List.replicate 50 1) 12 26 9 =
        some { macd := 0
               signal := 8589934592 / 89263916015625
               histogram := -(8589934592 / 89263916015625) } := by
  have h12 : specEMA (List.replicate 50 1) 12 = 1 := by
    rw [specEMA_replicate 1 50 12 (by decide), if_pos (by decide)]
  have h26 : specEMA (List.replicate 50 1) 26 = 1 := by
    rw [specEMA_replicate 1 50 26 (by decide), if_pos (by decide)]
  constructor
  · rw [app_calculateMACD_eq_spec _ 12 26 9 (by decide) (by decide) (by decide) (by simp)]
    unfold specMACD
    rw [specMacdLine_replicate 1 50 12 26 (by decide) (by decide), h12, h26,
      specEMA_replicate 0 _ 9 (by decide)]
    simp
  · have hsig : specEMA ((1 / 26) :: List.replicate 25 0) 9 =
        8589934592 / 89263916015625 := by
      unfold specEMA
      rw [show (9 : ℕ) = 8 + 1 from rfl, List.take_succ_cons, List.drop_succ_cons,
        List.take_replicate, List.drop_replicate, List.sum_cons, List.sum_replicate,
        smul_zero, foldl_ema_zeros]
      norm_num
    unfold MarketScanner.calculateMACD
    simp only [scanner_calculateEMA_eq_specEMA, macdValues_fifty_ones, h12, h26, hsig,
      List.length_replicate]
    norm_num

/-! ## Lemmas: the analysis flows -/

theorem app_analysis_fields {ohlcv : List Candle} {sp lp : Nat} {price : ℚ} {a : Analysis}
    (h : App.calculateTechnicalAnalysis ohlcv sp lp price = some a) :
    a.shortSMA = App.calculateSMA (ohlcv.map (fun candle => candle.close)) sp ∧
      a.longSMA = App.calculateSMA (ohlcv.map (fun candle => candle.close)) lp ∧
      a.rsi = App.calculateRSI (ohlcv.map (fun candle => candle.close)) 14 ∧
      a.macd = App.calculateMACD (ohlcv.map (fun candle => candle.close)) 12 26 9 ∧
      (a.smaTrend, a.smaStrength) = App.smaTrendOf a.shortSMA a.longSMA ∧
      a.rsiTrend = App.rsiTrendOf a.rsi ∧
      a.macdTrend = (App.macdTrendOf a.macd).1 ∧
      ∃ rsiPart, App.rsiSignals a.rsi a.rsiTrend = some rsiPart ∧
        a.signals = App.smaSignals a.smaTrend a.smaStrength sp lp ++ rsiPart
          ++ App.macdSignals a.macd (App.macdTrendOf a.macd).2 := by
  unfold App.calculateTechnicalAnalysis at h
  simp only [] at h
  cases hr : App.rsiSignals (App.calculateRSI (ohlcv.map (fun candle => candle.close)) 14)
      (App.rsiTrendOf (App.calculateRSI (ohlcv.map (fun candle => candle.close)) 14)) with
  | none => rw [hr] at h; simp at h
  | some rsiPart =>
    rw [hr] at h
    simp only [Option.some.injEq] at h
    subst h
    exact ⟨rfl, rfl, rfl, rfl, rfl, rfl, rfl, rsiPart, hr, rfl⟩

theorem scanner_analysis_fields {settings : ScanSettings} {ohlcv : List Candle} {price : ℚ}
    {ind : Indicators}
    (h : (MarketScanner.analyzeMarket settings ohlcv price).indicators = some ind) :
    ind.shortSMA = MarketScanner.calculateSMA (ohlcv.map (fun candle => candle.close)) 5 ∧
      ind.longSMA = MarketScanner.calculateSMA (ohlcv.map (fun candle => candle.close)) 21 ∧
      ind.rsi = MarketScanner.calculateRSI (ohlcv.map (fun candle => candle.close)) 14 ∧
      ind.macd = MarketScanner.calculateMACD (ohlcv.map (fun candle => candle.close)) 12 26 9 ∧
      (ind.smaTrend, ind.smaStrength) = MarketScanner.smaTrendOf ind.shortSMA ind.longSMA ∧
      ind.rsiTrend = MarketScanner.rsiTrendOf ind.rsi ∧
      ind.macdTrend = (MarketScanner.macdTrendOf ind.macd).1 ∧
      ∃ rsiPart, MarketScanner.rsiSignals ind.rsi ind.rsiTrend = some rsiPart ∧
        (MarketScanner.analyzeMarket settings ohlcv price).signals =
          MarketScanner.smaSignals ind.smaTrend ind.smaStrength ++ rsiPart
            ++ MarketScanner.macdSignals ind.macd (MarketScanner.macdTrendOf ind.macd).2 := by
  generalize hA : MarketScanner.analyzeMarket settings ohlcv price = A at h ⊢
  unfold MarketScanner.analyzeMarket at hA
  by_cases hlen : ohlcv.length < 30
  · simp only [hlen, if_true] at hA
    subst hA
    simp [MarketScanner.emptyAnalysis] at h
  · simp only [hlen, if_false] at hA
    cases hr : MarketScanner.rsiSignals
        (MarketScanner.calculateRSI (ohlcv.map (fun candle => candle.close)) 14)
        (MarketScanner.rsiTrendOf
          (MarketScanner.calculateRSI (ohlcv.map (fun candle => candle.close)) 14)) with
    | none =>
      rw [hr] at hA
      subst hA
      simp [MarketScanner.emptyAnalysis] at h
    | some rsiPart =>
      rw [hr] at hA
      subst hA
      simp only [Option.some.injEq] at h
      subst h
      exact ⟨rfl, rfl, rfl, rfl, rfl, rfl, rfl, rsiPart, hr, rfl⟩

theorem signalsFrom_eq_self (o : String) (l : List Signal) (h : ∀ s ∈ l, s.origin = o) :
    signalsFrom o l = l := by
  unfold signalsFrom
  rw [List.filter_eq_self]
  intro s hs
  simpa using h s hs

theorem signalsFrom_eq_nil (o o' : String) (l : List Signal) (h : ∀ s ∈ l, s.origin = o')
    (hne : o' ≠ o) : signalsFrom o l = [] := by
  unfold signalsFrom
  rw [List.filter_eq_nil_iff]
  intro s hs
  rw [decide_eq_true_eq, h s hs]
  exact hne

theorem app_smaSignals_origin (t : String) (x : JsNumber) (sp lp : Nat) :
    ∀ s ∈ App.smaSignals t x sp lp, s.origin = "SMA" := by
  intro s hs
  unfold App.smaSignals at hs
  split_ifs at hs <;> simp at hs <;> subst hs <;> rfl

theorem scanner_smaSignals_origin (t : String) (x : JsNumber) :
    ∀ s ∈ MarketScanner.smaSignals t x, s.origin = "SMA" := by
  intro s hs
  unfold MarketScanner.smaSignals at hs
  split_ifs at hs <;> simp at hs <;> subst hs <;> rfl

theorem app_rsiSignals_origin (rsi : Option ℚ) (t : String) (l : List Signal)
    (h : App.rsiSignals rsi t = some l) : ∀ s ∈ l, s.origin = "RSI" := by
  intro s hs
  unfold App.rsiSignals at h
  cases rsi with
  | none =>
    have hl : l = [] := by
      split_ifs at h
      simp_all
    subst hl
    exact absurd hs (List.not_mem_nil s)
  | some r => split_ifs at h <;> simp at h <;> subst h <;> simp at hs <;> subst hs <;> rfl

theorem scanner_rsiSignals_origin (rsi : Option ℚ) (t : String) (l : List Signal)
    (h : MarketScanner.rsiSignals rsi t = some l) : ∀ s ∈ l, s.origin = "RSI" := by
  intro s hs
  unfold MarketScanner.rsiSignals at h
  cases rsi with
  | none =>
    have hl : l = [] := by
      split_ifs at h
      simp_all
    subst hl
    exact absurd hs (List.not_mem_nil s)
  | some r => split_ifs at h <;> simp at h <;> subst h <;> simp at hs <;> subst hs <;> rfl

theorem app_macdSignals_origin (macd : Option MacdData) (t : String) :
    ∀ s ∈ App.macdSignals macd t, s.origin = "MACD" := by
  intro s hs
  unfold App.macdSignals at hs
  cases macd with
  | none => simp at hs
  | some m => split_ifs at hs <;> simp at hs <;> subst hs <;> rfl

theorem scanner_macdSignals_origin (macd : Option MacdData) (t : String) :
    ∀ s ∈ MarketScanner.macdSignals macd t, s.origin = "MACD" := by
  intro s hs
  unfold MarketScanner.macdSignals at hs
  cases macd with
  | none => simp at hs
  | some m => split_ifs at hs <;> simp at hs <;> subst hs <;> rfl

/-- Splitting a signal list emitted in the order SMA, RSI, MACD by origin gives back the
three parts. -/
theorem signalsFrom_parts (A R M : List Signal) (hA : ∀ s ∈ A, s.origin = "SMA")
    (hR : ∀ s ∈ R, s.origin = "RSI") (hM : ∀ s ∈ M, s.origin = "MACD") :
    signalsFrom "SMA" (A ++ R ++ M) = A ∧ signalsFrom "RSI" (A ++ R ++ M) = R ∧
      signalsFrom "MACD" (A ++ R ++ M) = M := by
  have e : ∀ o, signalsFrom o (A ++ R ++ M) =
      signalsFrom o A ++ signalsFrom o R ++ signalsFrom o M := by
    intro o
    simp [signalsFrom, List.filter_append]
  refine ⟨?_, ?_, ?_⟩
  · rw [e, signalsFrom_eq_self _ _ hA, signalsFrom_eq_nil _ _ _ hR (by decide),
      signalsFrom_eq_nil _ _ _ hM (by decide)]
    simp
  · rw [e, signalsFrom_eq_nil _ _ _ hA (by decide), signalsFrom_eq_self _ _ hR,
      signalsFrom_eq_nil _ _ _ hM (by decide)]
    simp
  · rw [e, signalsFrom_eq_nil _ _ _ hA (by decide), signalsFrom_eq_nil _ _ _ hR (by decide),
      signalsFrom_eq_self _ _ hM]
    simp

/-- The signals of an `app.js` analysis, split by origin, are the outputs of the three
signal blocks. -/
theorem app_signals_by_origin {ohlcv : List Candle} {sp lp : Nat} {price : ℚ} {a : Analysis}
    (h : App.calculateTechnicalAnalysis ohlcv sp lp price = some a) :
    signalsFrom "SMA" a.signals = App.smaSignals a.smaTrend a.smaStrength sp lp ∧
      App.rsiSignals a.rsi (App.rsiTrendOf a.rsi) = some (signalsFrom "RSI" a.signals) ∧
      signalsFrom "MACD" a.signals = App.macdSignals a.macd (App.macdTrendOf a.macd).2 ∧
      a.signals = signalsFrom "SMA" a.signals ++ signalsFrom "RSI" a.signals
        ++ signalsFrom "MACD" a.signals := by
  obtain ⟨-, -, -, -, -, ht, -, rsiPart, hr, hs⟩ := app_analysis_fields h
  obtain ⟨h1, h2, h3⟩ := signalsFrom_parts _ _ _
    (app_smaSignals_origin a.smaTrend a.smaStrength sp lp)
    (app_rsiSignals_origin _ _ _ hr)
    (app_macdSignals_origin a.macd (App.macdTrendOf a.macd).2)
  rw [← hs] at h1 h2 h3
  rw [← ht, h1, h2, h3]
  exact ⟨rfl, hr, rfl, hs⟩

/-- The signals of a scanner analysis, split by origin, are the outputs of the three
signal blocks. -/
theorem scanner_signals_by_origin {settings : ScanSettings} {ohlcv : List Candle} {price : ℚ}
    {ind : Indicators}
    (h : (MarketScanner.analyzeMarket settings ohlcv price).indicators = some ind) :
    signalsFrom "SMA" (MarketScanner.analyzeMarket settings ohlcv price).signals =
        MarketScanner.smaSignals ind.smaTrend ind.smaStrength ∧
      MarketScanner.rsiSignals ind.rsi (MarketScanner.rsiTrendOf ind.rsi) =
        some (signalsFrom "RSI" (MarketScanner.analyzeMarket settings ohlcv price).signals) ∧
      signalsFrom "MACD" (MarketScanner.analyzeMarket settings ohlcv price).signals =
        MarketScanner.macdSignals ind.macd (MarketScanner.macdTrendOf ind.macd).2 ∧
      (MarketScanner.analyzeMarket settings ohlcv price).signals =
        signalsFrom "SMA" (MarketScanner.analyzeMarket settings ohlcv price).signals
          ++ signalsFrom "RSI" (MarketScanner.analyzeMarket settings ohlcv price).signals
          ++ signalsFrom "MACD" (MarketScanner.analyzeMarket settings ohlcv price).signals := by
  obtain ⟨-, -, -, -, -, ht, -, rsiPart, hr, hs⟩ := scanner_analysis_fields h
  obtain ⟨h1, h2, h3⟩ := signalsFrom_parts _ _ _
    (scanner_smaSignals_origin ind.smaTrend ind.smaStrength)
    (scanner_rsiSignals_origin _ _ _ hr)
    (scanner_macdSignals_origin ind.macd (MarketScanner.macdTrendOf ind.macd).2)
  rw [← hs] at h1 h2 h3
  rw [← ht, h1, h2, h3]
  exact ⟨rfl, hr, rfl, hs⟩

theorem scanner_calculateRSI_isSome (prices : List ℚ) (period : Nat) :
    ∃ r, MarketScanner.calculateRSI prices period = some r := by
  unfold MarketScanner.calculateRSI
  by_cases h : prices.length < period + 1
  · exact ⟨50, by simp [h]⟩
  · by_cases h0 : (MarketScanner.rsiAverages prices period).2 = 0
    · exact ⟨100, by simp [h, h0]⟩
    · exact ⟨100 - 100 / (1 + (MarketScanner.rsiAverages prices period).1 /
        (MarketScanner.rsiAverages prices period).2), by simp only [h, h0, if_false]⟩

theorem app_rsiSignals_of_number (r : ℚ) (t : String) :
    ∃ l, App.rsiSignals (some r) t = some l := by
  unfold App.rsiSignals
  split_ifs <;> exact ⟨_, rfl⟩

/-- An analysis of `app.js` exists (the function does not throw) when the RSI is a
number. -/
theorem app_analysis_of_rsi {ohlcv : List Candle} (sp lp : Nat) (price r : ℚ)
    (hr : App.calculateRSI (ohlcv.map (fun candle => candle.close)) 14 = some r) :
    ∃ a, App.calculateTechnicalAnalysis ohlcv sp lp price = some a := by
  obtain ⟨l, hl⟩ := app_rsiSignals_of_number r (App.rsiTrendOf (some r))
  unfold App.calculateTechnicalAnalysis
  simp only [hr, hl]
  exact ⟨_, rfl⟩

/-- The function `calculateTechnicalAnalysis` throws when the RSI is null: `null < 30`
holds, so the trend is "oversold" and the description reads `rsi.toFixed(2)`. -/
theorem app_analysis_throws_of_rsi_null {ohlcv : List Candle} (sp lp : Nat) (price : ℚ)
    (hr : App.calculateRSI (ohlcv.map (fun candle => candle.close)) 14 = none) :
    App.calculateTechnicalAnalysis ohlcv sp lp price = none := by
  have ht : App.rsiTrendOf none = "oversold" := by
    simp [App.rsiTrendOf, nullToZero]
  unfold App.calculateTechnicalAnalysis
  simp only [hr, ht]
  simp [App.rsiSignals]

theorem smaTrendOf_of_positive (s l : ℚ) (hs : 0 < s) (hl : 0 < l) :
    App.smaTrendOf (some s) (some l) =
      ((specSmaTrend s l).1, JsNumber.fin (specSmaTrend s l).2) := by
  unfold App.smaTrendOf specSmaTrend
  simp only [nullToZero, Option.getD_some, JsNumber.div, ne_of_gt hs, ne_of_gt hl, if_false,
    JsNumber.sub, JsNumber.mul]
  split_ifs <;> rfl

theorem specSmaTrend_nonneg (s l : ℚ) (hs : 0 < s) (hl : 0 < l) :
    0 ≤ (specSmaTrend s l).2 := by
  unfold specSmaTrend
  split_ifs with h1 h2
  · have : 1 < s / l := by rw [lt_div_iff₀ hl]; linarith
    simp only
    nlinarith
  · have : 1 < l / s := by rw [lt_div_iff₀ hs]; linarith
    simp only
    nlinarith
  · exact le_refl _

/-! ## Theorems: trend classification and signal emission -/

/-- C12: for computed positive SMA values both flows classify the SMA trend as bullish with
strength (short/long - 1)*100, bearish with strength (long/short - 1)*100, or neutral with
strength 0, so the strength is never negative; and for the example closes with periods 5
and 10, `calculateTechnicalAnalysis` yields shortSMA 13, longSMA 15.5, trend bearish and
strength (15.5/13 - 1)*100. -/
theorem smaTrend_spec (s l : ℚ) (hs : 0 < s) (hl : 0 < l) :
    App.smaTrendOf (some s) (some l) =
        ((specSmaTrend s l).1, JsNumber.fin (specSmaTrend s l).2) ∧
      MarketScanner.smaTrendOf (some s) (some l) =
        ((specSmaTrend s l).1, JsNumber.fin (specSmaTrend s l).2) ∧
      0 ≤ (specSmaTrend s l).2 ∧
      (∀ ohlcv sp lp price a, App.calculateTechnicalAnalysis ohlcv sp lp price = some a →
        (a.smaTrend, a.smaStrength) = App.smaTrendOf a.shortSMA a.longSMA) ∧
      (∀ settings ohlcv price ind,
        (MarketScanner.analyzeMarket settings ohlcv price).indicators = some ind →
        (ind.smaTrend, ind.smaStrength) = MarketScanner.smaTrendOf ind.shortSMA ind.longSMA) ∧
      (∀ ohlcv price, ohlcv.map (fun candle => candle.close) = exampleCloses →
        ∃ a, App.calculateTechnicalAnalysis ohlcv 5 10 price = some a ∧
          a.shortSMA = some 13 ∧ a.longSMA = some (31 / 2) ∧ a.smaTrend = "bearish" ∧
          a.smaStrength = JsNumber.fin ((31 / 2 / 13 - 1) * 100)) := by
  refine ⟨smaTrendOf_of_positive s l hs hl, smaTrendOf_of_positive s l hs hl,
    specSmaTrend_nonneg s l hs hl, ?_, ?_, ?_⟩
  · intro ohlcv sp lp price a h
    exact (app_analysis_fields h).2.2.2.2.1
  · intro settings ohlcv price ind h
    exact (scanner_analysis_fields h).2.2.2.2.1
  · intro ohlcv price hc
    obtain ⟨r, hr⟩ := scanner_calculateRSI_isSome exampleCloses 14
    rw [← calculateRSI_agree_of_long exampleCloses 14 (by decide), ← hc] at hr
    obtain ⟨a, ha⟩ := app_analysis_of_rsi 5 10 price r hr
    obtain ⟨h1, h2, -, -, h5, -⟩ := app_analysis_fields ha
    have e1 : a.shortSMA = some 13 := by
      rw [h1, hc]
      simp [App.calculateSMA, exampleCloses]
      norm_num
    have e2 : a.longSMA = some (31 / 2) := by
      rw [h2, hc]
      simp [App.calculateSMA, exampleCloses]
      norm_num
    rw [e1, e2, smaTrendOf_of_positive 13 (31 / 2) (by norm_num) (by norm_num)] at h5
    have e3 : specSmaTrend 13 (31 / 2) = ("bearish", (31 / 2 / 13 - 1) * 100) := by
      unfold specSmaTrend
      norm_num
    rw [e3] at h5
    simp only [Prod.mk.injEq] at h5
    exact ⟨a, ha, e1, e2, h5.1, h5.2⟩

/-- C12 witness: the two SMA values of the worked example. -/
theorem smaTrend_spec_witness :
    App.smaTrendOf (some 13) (some (31 / 2)) =
        ((specSmaTrend 13 (31 / 2)).1, JsNumber.fin (specSmaTrend 13 (31 / 2)).2) ∧
      (0 : ℚ) ≤ (specSmaTrend 13 (31 / 2)).2 :=
  ⟨(smaTrend_spec 13 (31 / 2) (by norm_num) (by norm_num)).1,
    (smaTrend_spec 13 (31 / 2) (by norm_num) (by norm_num)).2.2.1⟩

theorem gt_one_cases (x : JsNumber) (h : x.gt 1 = true) :
    x = JsNumber.posInf ∨ ∃ q, x = JsNumber.fin q ∧ 1 < q := by
  cases x with
  | fin q => exact Or.inr ⟨q, rfl, by simpa [JsNumber.gt] using h⟩
  | posInf => exact Or.inl rfl
  | negInf => simp [JsNumber.gt] at h
  | nan => simp [JsNumber.gt] at h

theorem app_smaSignalStrength_range (x : JsNumber) (h : x.gt 1 = true) :
    0 < App.smaSignalStrength x ∧ App.smaSignalStrength x ≤ 100 := by
  rcases gt_one_cases x h with hx | ⟨q, hx, hq⟩
  · subst hx
    simp [App.smaSignalStrength]
  · subst hx
    simp only [App.smaSignalStrength]
    exact ⟨lt_min (by linarith) (by norm_num), min_le_right _ _⟩

theorem scanner_smaSignalStrength_range (x : JsNumber) (h : x.gt 1 = true) :
    0 < MarketScanner.smaSignalStrength x ∧ MarketScanner.smaSignalStrength x ≤ 100 := by
  rcases gt_one_cases x h with hx | ⟨q, hx, hq⟩
  · subst hx
    simp [MarketScanner.smaSignalStrength]
  · subst hx
    simp only [MarketScanner.smaSignalStrength]
    exact ⟨lt_min (by linarith) (by norm_num), min_le_right _ _⟩

/-- C13: an SMA signal is emitted exactly when the trend is bullish or bearish and
smaStrength > 1; it is sma_golden_cross/buy for bullish and sma_death_cross/sell for
bearish, with strength min(smaStrength/5, 100) in `calculateTechnicalAnalysis` and
min(smaStrength*5, 100) in `analyzeMarket`; every emitted SMA signal strength lies in
(0,100]; and the SMA signals of an analysis are exactly those of this rule. -/
theorem smaSignal_spec (trend : String) (strength : JsNumber) (sp lp : Nat) :
    (App.smaSignals trend strength sp lp).map Signal.core =
        (if trend = "bullish" ∧ strength.gt 1 = true then
          [("sma_golden_cross", "buy", App.smaSignalStrength strength)]
        else if trend = "bearish" ∧ strength.gt 1 = true then
          [("sma_death_cross", "sell", App.smaSignalStrength strength)]
        else []) ∧
      (MarketScanner.smaSignals trend strength).map Signal.core =
        (if trend = "bullish" ∧ strength.gt 1 = true then
          [("sma_golden_cross", "buy", MarketScanner.smaSignalStrength strength)]
        else if trend = "bearish" ∧ strength.gt 1 = true then
          [("sma_death_cross", "sell", MarketScanner.smaSignalStrength strength)]
        else []) ∧
      (∀ q : ℚ, App.smaSignalStrength (JsNumber.fin q) = min (q / 5) 100 ∧
        MarketScanner.smaSignalStrength (JsNumber.fin q) = min (q * 5) 100) ∧
      (∀ s ∈ App.smaSignals trend strength sp lp, 0 < s.strength ∧ s.strength ≤ 100) ∧
      (∀ s ∈ MarketScanner.smaSignals trend strength, 0 < s.strength ∧ s.strength ≤ 100) ∧
      (∀ ohlcv price a, App.calculateTechnicalAnalysis ohlcv sp lp price = some a →
        signalsFrom "SMA" a.signals = App.smaSignals a.smaTrend a.smaStrength sp lp) ∧
      (∀ settings ohlcv price ind,
        (MarketScanner.analyzeMarket settings ohlcv price).indicators = some ind →
        signalsFrom "SMA" (MarketScanner.analyzeMarket settings ohlcv price).signals =
          MarketScanner.smaSignals ind.smaTrend ind.smaStrength) := by
  refine ⟨?_, ?_, fun q => ⟨rfl, rfl⟩, ?_, ?_, ?_, ?_⟩
  · unfold App.smaSignals
    split_ifs <;> rfl
  · unfold MarketScanner.smaSignals
    split_ifs <;> rfl
  · intro s hs
    unfold App.smaSignals at hs
    split_ifs at hs with h1 h2
    · rw [List.mem_singleton] at hs
      subst hs
      exact app_smaSignalStrength_range strength h1.2
    · rw [List.mem_singleton] at hs
      subst hs
      exact app_smaSignalStrength_range strength h2.2
    · exact absurd hs (List.not_mem_nil s)
  · intro s hs
    unfold MarketScanner.smaSignals at hs
    split_ifs at hs with h1 h2
    · rw [List.mem_singleton] at hs
      subst hs
      exact scanner_smaSignalStrength_range strength h1.2
    · rw [List.mem_singleton] at hs
      subst hs
      exact scanner_smaSignalStrength_range strength h2.2
    · exact absurd hs (List.not_mem_nil s)
  · intro ohlcv price a h
    exact (app_signals_by_origin h).1
  · intro settings ohlcv price ind h
    exact (scanner_signals_by_origin h).1

theorem app_rsiSignals_core (r : ℚ) :
    ∃ l, App.rsiSignals (some r) (App.rsiTrendOf (some r)) = some l ∧
      l.map Signal.core = specRsiSignalCore r := by
  unfold App.rsiSignals App.rsiTrendOf specRsiSignalCore
  simp only [nullToZero, Option.getD_some]
  by_cases h70 : r > 70
  · have h30 : ¬ r < 30 := by linarith
    exact ⟨_, by simp only [h70, if_true]; rfl, by simp [h30, h70, Signal.core]⟩
  · by_cases h30 : r < 30
    · exact ⟨_, by simp only [h70, h30, if_true, if_false]; rfl, by simp [h30, Signal.core]⟩
    · refine ⟨[], ?_, by simp [h30, h70]⟩
      simp only [h70, h30, if_false]
      split_ifs <;> simp_all

theorem scanner_rsiSignals_core (r : ℚ) :
    ∃ l, MarketScanner.rsiSignals (some r) (MarketScanner.rsiTrendOf (some r)) = some l ∧
      l.map Signal.core = specRsiSignalCore r := by
  unfold MarketScanner.rsiSignals MarketScanner.rsiTrendOf specRsiSignalCore
  simp only [nullToZero, Option.getD_some]
  by_cases h70 : r > 70
  · have h30 : ¬ r < 30 := by linarith
    exact ⟨_, by simp only [h70, if_true]; rfl, by simp [h30, h70, Signal.core]⟩
  · by_cases h30 : r < 30
    · exact ⟨_, by simp only [h70, h30, if_true, if_false]; rfl, by simp [h30, Signal.core]⟩
    · refine ⟨[], ?_, by simp [h30, h70]⟩
      simp only [h70, h30, if_false]
      split_ifs <;> simp_all

/-- C14: in both flows, for a numeric RSI, an RSI signal is emitted exactly when RSI < 30
(rsi_oversold, buy) or RSI > 70 (rsi_overbought, sell), always with strength 80, and none
for 30 <= RSI <= 70; an analysis with RSI 20 and no SMA or MACD signal has the single
signal (rsi_oversold, buy, 80). -/
theorem rsiSignal_spec (r : ℚ) :
    (∃ l, App.rsiSignals (some r) (App.rsiTrendOf (some r)) = some l ∧
        l.map Signal.core = specRsiSignalCore r) ∧
      (∃ l, MarketScanner.rsiSignals (some r) (MarketScanner.rsiTrendOf (some r)) = some l ∧
        l.map Signal.core = specRsiSignalCore r) ∧
      (∀ ohlcv sp lp price a, App.calculateTechnicalAnalysis ohlcv sp lp price = some a →
        a.rsi = some r → (signalsFrom "RSI" a.signals).map Signal.core = specRsiSignalCore r) ∧
      (∀ settings ohlcv price ind,
        (MarketScanner.analyzeMarket settings ohlcv price).indicators = some ind →
        ind.rsi = some r →
        (signalsFrom "RSI" (MarketScanner.analyzeMarket settings ohlcv price).signals).map
          Signal.core = specRsiSignalCore r) ∧
      (∀ ohlcv sp lp price a, App.calculateTechnicalAnalysis ohlcv sp lp price = some a →
        a.rsi = some 20 → signalsFrom "SMA" a.signals = [] →
        signalsFrom "MACD" a.signals = [] →
        a.signals.map Signal.core = [("rsi_oversold", "buy", 80)]) ∧
      (∀ settings ohlcv price ind,
        (MarketScanner.analyzeMarket settings ohlcv price).indicators = some ind →
        ind.rsi = some 20 →
        signalsFrom "SMA" (MarketScanner.analyzeMarket settings ohlcv price).signals = [] →
        signalsFrom "MACD" (MarketScanner.analyzeMarket settings ohlcv price).signals = [] →
        (MarketScanner.analyzeMarket settings ohlcv price).signals.map Signal.core =
          [("rsi_oversold", "buy", 80)]) := by
  have happ : ∀ (ohlcv : List Candle) (sp lp : Nat) (price : ℚ) (a : Analysis) (x : ℚ),
      App.calculateTechnicalAnalysis ohlcv sp lp price = some a → a.rsi = some x →
      (signalsFrom "RSI" a.signals).map Signal.core = specRsiSignalCore x := by
    intro ohlcv sp lp price a x h hr
    obtain ⟨l, hl, hc⟩ := app_rsiSignals_core x
    have h2 := (app_signals_by_origin h).2.1
    rw [hr, hl, Option.some.injEq] at h2
    rw [← h2, hc]
  have hscan : ∀ (settings : ScanSettings) (ohlcv : List Candle) (price : ℚ)
      (ind : Indicators) (x : ℚ),
      (MarketScanner.analyzeMarket settings ohlcv price).indicators = some ind →
      ind.rsi = some x →
      (signalsFrom "RSI" (MarketScanner.analyzeMarket settings ohlcv price).signals).map
        Signal.core = specRsiSignalCore x := by
    intro settings ohlcv price ind x h hr
    obtain ⟨l, hl, hc⟩ := scanner_rsiSignals_core x
    have h2 := (scanner_signals_by_origin h).2.1
    rw [hr, hl, Option.some.injEq] at h2
    rw [← h2, hc]
  have h20 : specRsiSignalCore 20 = [("rsi_oversold", "buy", 80)] := by
    unfold specRsiSignalCore
    norm_num
  refine ⟨app_rsiSignals_core r, scanner_rsiSignals_core r, ?_, ?_, ?_, ?_⟩
  · intro ohlcv sp lp price a h hr
    exact happ ohlcv sp lp price a r h hr
  · intro settings ohlcv price ind h hr
    exact hscan settings ohlcv price ind r h hr
  · intro ohlcv sp lp price a h hr hsma hmacd
    have hs := (app_signals_by_origin h).2.2.2
    rw [hsma, hmacd, List.nil_append, List.append_nil] at hs
    rw [hs, happ ohlcv sp lp price a 20 h hr, h20]
  · intro settings ohlcv price ind h hr hsma hmacd
    have hs := (scanner_signals_by_origin h).2.2.2
    rw [hsma, hmacd, List.nil_append, List.append_nil] at hs
    rw [hs, hscan settings ohlcv price ind 20 h hr, h20]

theorem app_macdSignals_core (m : MacdData) :
    (App.macdSignals (some m) (App.macdTrendOf (some m)).2).map Signal.core =
      specMacdSignalCore m := by
  unfold App.macdSignals App.macdTrendOf App.macdCross specMacdSignalCore
  simp only [and_self]
  by_cases hb : m.macd > 0 ∧ m.signal > 0 ∧ m.histogram > 0
  · simp [hb, Signal.core]
  · by_cases hs : m.macd < 0 ∧ m.signal < 0 ∧ m.histogram < 0
    · simp [hb, hs, Signal.core]
    · simp only [hb, hs, if_false]
      by_cases h1 : m.macd > m.signal
      · have h2 : ¬ m.macd < m.signal := not_lt.mpr (le_of_lt h1)
        by_cases h3 : m.histogram > 0
        · simp [h1, h3, Signal.core]
        · simp [h1, h2, h3]
      · by_cases h2 : m.macd < m.signal
        · by_cases h3 : m.histogram < 0
          · simp [h1, h2, h3, Signal.core]
          · simp [h1, h2, h3]
        · simp [h1, h2]

theorem scanner_macdSignals_core (m : MacdData) :
    (MarketScanner.macdSignals (some m) (MarketScanner.macdTrendOf (some m)).2).map
      Signal.core = specMacdSignalCore m := by
  unfold MarketScanner.macdSignals MarketScanner.macdTrendOf MarketScanner.macdCross
    specMacdSignalCore
  by_cases hb : m.macd > 0 ∧ m.signal > 0 ∧ m.histogram > 0
  · simp [hb, Signal.core]
  · by_cases hs : m.macd < 0 ∧ m.signal < 0 ∧ m.histogram < 0
    · simp [hb, hs, Signal.core]
    · simp only [hb, hs, if_false]
      by_cases h1 : m.macd > m.signal
      · have h2 : ¬ m.macd < m.signal := not_lt.mpr (le_of_lt h1)
        by_cases h3 : m.histogram > 0
        · simp [h1, h3, Signal.core]
        · simp [h1, h2, h3]
      · by_cases h2 : m.macd < m.signal
        · by_cases h3 : m.histogram < 0
          · simp [h1, h2, h3, Signal.core]
          · simp [h1, h2, h3]
        · simp [h1, h2]

/-- C15: in both flows, when MACD is available, a macd_crossover signal of strength 90 is
emitted exactly when macd, signal and histogram are all positive (buy) or all negative
(sell); otherwise one of strength 70 exactly when macd > signal with a positive histogram
(buy) or macd < signal with a negative histogram (sell); otherwise none; and none when
MACD is null. -/
theorem macdSignal_spec (m : MacdData) :
    (App.macdSignals (some m) (App.macdTrendOf (some m)).2).map Signal.core =
        specMacdSignalCore m ∧
      (MarketScanner.macdSignals (some m) (MarketScanner.macdTrendOf (some m)).2).map
        Signal.core = specMacdSignalCore m ∧
      (∀ macdSignal, App.macdSignals none macdSignal = [] ∧
        MarketScanner.macdSignals none macdSignal = []) ∧
      (∀ ohlcv sp lp price a, App.calculateTechnicalAnalysis ohlcv sp lp price = some a →
        (a.macd = some m →
          (signalsFrom "MACD" a.signals).map Signal.core = specMacdSignalCore m) ∧
        (a.macd = none → signalsFrom "MACD" a.signals = [])) ∧
      (∀ settings ohlcv price ind,
        (MarketScanner.analyzeMarket settings ohlcv price).indicators = some ind →
        (ind.macd = some m →
          (signalsFrom "MACD" (MarketScanner.analyzeMarket settings ohlcv price).signals).map
            Signal.core = specMacdSignalCore m) ∧
        (ind.macd = none →
          signalsFrom "MACD" (MarketScanner.analyzeMarket settings ohlcv price).signals = [])) := by
  refine ⟨app_macdSignals_core m, scanner_macdSignals_core m, fun _ => ⟨rfl, rfl⟩, ?_, ?_⟩
  · intro ohlcv sp lp price a h
    have h3 := (app_signals_by_origin h).2.2.1
    constructor
    · intro hm
      rw [h3, hm]
      exact app_macdSignals_core m
    · intro hm
      rw [h3, hm]
      rfl
  · intro settings ohlcv price ind h
    have h3 := (scanner_signals_by_origin h).2.2.1
    constructor
    · intro hm
      rw [h3, hm]
      exact scanner_macdSignals_core m
    · intro hm
      rw [h3, hm]
      rfl

/-! ## Theorems: indicators without enough history -/

/-- C16 (failing inputs): with the ten closes 1..10 the RSI is null and
`calculateTechnicalAnalysis` throws instead of returning an analysis; with sixteen closes
alternating 1, 2 and periods 5 and 20 the long SMA is null, yet the analysis carries an
SMA signal, a golden cross of strength 100. -/
theorem calculateTechnicalAnalysis_null_indicators :
    (App.calculateRSI [1, 2, 3, 4, 5, 6, 7, 8, 9, 10] 14 = none ∧
        App.calculateTechnicalAnalysis
          (candlesOfCloses [1, 2, 3, 4, 5, 6, 7, 8, 9, 10]) 5 10 10 = none) ∧
      (∃ a, App.calculateTechnicalAnalysis
          (candlesOfCloses [1, 2, 1, 2, 1, 2, 1, 2, 1, 2, 1, 2, 1, 2, 1, 2]) 5 20 2 = some a ∧
        a.longSMA = none ∧ a.smaStrength = JsNumber.posInf ∧
        (signalsFrom "SMA" a.signals).map Signal.core = [("sma_golden_cross", "buy", 100)]) := by
  have hmap : ∀ l : List ℚ, (candlesOfCloses l).map (fun candle => candle.close) = l := by
    intro l
    unfold candlesOfCloses
    rw [List.map_map]
    exact List.map_id l
  constructor
  · have hr : App.calculateRSI [1, 2, 3, 4, 5, 6, 7, 8, 9, 10] 14 = none := by
      simp [App.calculateRSI]
    refine ⟨hr, app_analysis_throws_of_rsi_null 5 10 10 ?_⟩
    rw [hmap]
    exact hr
  · obtain ⟨r, hr⟩ := scanner_calculateRSI_isSome
      [1, 2, 1, 2, 1, 2, 1, 2, 1, 2, 1, 2, 1, 2, 1, 2] 14
    rw [← calculateRSI_agree_of_long _ 14 (by decide), ← hmap [1, 2, 1, 2, 1, 2, 1, 2, 1, 2,
      1, 2, 1, 2, 1, 2]] at hr
    obtain ⟨a, ha⟩ := app_analysis_of_rsi 5 20 2 r hr
    obtain ⟨h1, h2, -, -, h5, -⟩ := app_analysis_fields ha
    have e1 : a.shortSMA = some (8 / 5) := by
      rw [h1, hmap]
      simp [App.calculateSMA]
      norm_num
    have e2 : a.longSMA = none := by
      rw [h2, hmap]
      simp [App.calculateSMA]
    have e3 : App.smaTrendOf (some (8 / 5)) none = ("bullish", JsNumber.posInf) := by
      simp [App.smaTrendOf, nullToZero, JsNumber.div, JsNumber.sub, JsNumber.mul]
    rw [e1, e2, e3, Prod.mk.injEq] at h5
    refine ⟨a, ha, e2, h5.2, ?_⟩
    rw [(app_signals_by_origin ha).1, h5.1, h5.2]
    simp [App.smaSignals, JsNumber.gt, App.smaSignalStrength, Signal.core]

/-! ## Lemmas: the scan pipeline -/

theorem foldl_push_option {α β : Type} (f : α → Option β) (step : List β → α → List β)
    (hstep : ∀ out x, step out x = out ++ (f x).toList) (l : List α) (init : List β) :
    l.foldl step init = init ++ l.filterMap f := by
  induction l generalizing init with
  | nil => simp
  | cons x l ih =>
    rw [List.foldl_cons, ih, hstep, List.filterMap_cons]
    cases f x <;> simp

theorem pairOfTicker_eq (settings : ScanSettings) (markets : String → Option MarketMeta)
    (entry : String × Ticker) :
    MarketScanner.pairOfTicker settings markets entry =
      if MarketScanner.qualifies settings markets entry = true then
        some (MarketScanner.specPair entry)
      else none := by
  unfold MarketScanner.pairOfTicker MarketScanner.qualifies MarketScanner.specQualifies
    MarketScanner.specPair
  cases hm : markets entry.1 with
  | none => simp
  | some market =>
    cases hv : entry.2.quoteVolume with
    | none => cases hd : market.darkpool <;> simp
    | some v =>
      cases hd : market.darkpool
      · by_cases h0 : v = 0
        · simp [h0]
        · by_cases h1 : v ≥ settings.minVolume
          · simp [hd, h0, h1]
          · simp [h0, h1]
      · simp [hd]

theorem filterMap_ite_eq {α β : Type} (p : α → Bool) (g : α → β) (l : List α) :
    l.filterMap (fun x => if p x = true then some (g x) else none) = (l.filter p).map g := by
  induction l with
  | nil => rfl
  | cons x l ih =>
    rw [List.filterMap_cons, List.filter_cons]
    cases hp : p x <;> simp [ih]

theorem sortDescendingBy_perm {α : Type} (key : α → ℚ) (xs : List α) :
    (sortDescendingBy key xs).Perm xs :=
  List.perm_insertionSort _ xs

theorem sortDescendingBy_sorted {α : Type} (key : α → ℚ) (xs : List α) :
    (sortDescendingBy key xs).Sorted (fun a b => key a ≥ key b) := by
  haveI : IsTotal α (fun a b => key a ≥ key b) := ⟨fun a b => le_total (key b) (key a)⟩
  haveI : IsTrans α (fun a b => key a ≥ key b) := ⟨fun a b c hab hbc => le_trans hbc hab⟩
  exact List.sorted_insertionSort _ xs

theorem filter_orderedInsert {α : Type} (key : α → ℚ) (v : ℚ) (a : α) (l : List α) :
    (l.orderedInsert (fun a b => key a ≥ key b) a).filter (fun x => decide (key x = v)) =
      (a :: l).filter (fun x => decide (key x = v)) := by
  induction l with
  | nil => rfl
  | cons b l ih =>
    rw [List.orderedInsert]
    by_cases hab : key a ≥ key b
    · rw [if_pos hab]
    · rw [if_neg hab, List.filter_cons, ih]
      have hlt : key a < key b := not_le.mp hab
      by_cases ha : key a = v
      · have hb : key b ≠ v := by
          intro hb
          rw [ha, hb] at hlt
          exact lt_irrefl _ hlt
        simp [List.filter_cons, ha, hb]
      · by_cases hb : key b = v
        · simp [List.filter_cons, ha, hb]
        · simp [List.filter_cons, ha, hb]

/-- The sort is stable: the elements of any one key keep their relative order. -/
theorem sortDescendingBy_stable {α : Type} (key : α → ℚ) (v : ℚ) (xs : List α) :
    (sortDescendingBy key xs).filter (fun x => decide (key x = v)) =
      xs.filter (fun x => decide (key x = v)) := by
  unfold sortDescendingBy
  induction xs with
  | nil => rfl
  | cons a l ih =>
    rw [List.insertionSort, filter_orderedInsert, List.filter_cons, List.filter_cons, ih]

theorem scanPairs_eq (settings : ScanSettings) (markets : String → Option MarketMeta)
    (tickers : List (String × Ticker)) :
    MarketScanner.scanPairs settings markets tickers =
      (sortDescendingBy (fun pair => pair.volume)
        ((tickers.filter (MarketScanner.qualifies settings markets)).map
          MarketScanner.specPair)).take settings.maxPairs := by
  unfold MarketScanner.scanPairs
  simp only []
  rw [foldl_push_option (MarketScanner.pairOfTicker settings markets) _
    (by intro out x; cases MarketScanner.pairOfTicker settings markets x <;> simp),
    List.nil_append]
  have hf : (MarketScanner.pairOfTicker settings markets) =
      (fun entry => if MarketScanner.qualifies settings markets entry = true then
        some (MarketScanner.specPair entry) else none) := by
    funext entry
    exact pairOfTicker_eq settings markets entry
  rw [hf, filterMap_ite_eq]

theorem recordedResults_eq (settings : ScanSettings) (now : String) (exchange : Exchange)
    (pairs : List Pair) :
    MarketScanner.recordedResults settings now exchange pairs =
      pairs.filterMap (fun pair =>
        MarketScanner.scanPair settings now pair
          (exchange.fetchOHLCV pair.symbol settings.timeframe)) := by
  unfold MarketScanner.recordedResults
  rw [foldl_push_option (fun pair =>
      MarketScanner.scanPair settings now pair
        (exchange.fetchOHLCV pair.symbol settings.timeframe)) _
    (by
      intro out x
      dsimp only
      cases MarketScanner.scanPair settings now x
        (exchange.fetchOHLCV x.symbol settings.timeframe) <;> simp),
    List.nil_append]

/-- The search loop returns the first signal of maximal strength: no earlier signal is as
strong and no later one is stronger. -/
theorem strongest_fold (l pre mid : List Signal) (b : Signal)
    (hpre : ∀ t ∈ pre, t.strength < b.strength) (hmid : ∀ t ∈ mid, t.strength ≤ b.strength) :
    ∃ pre' post,
      pre ++ b :: (mid ++ l) =
        pre' ++ (l.foldl (fun (strongest : Signal) signal =>
          if signal.strength > strongest.strength then signal else strongest) b) :: post ∧
      (∀ t ∈ pre', t.strength <
        (l.foldl (fun (strongest : Signal) signal =>
          if signal.strength > strongest.strength then signal else strongest) b).strength) ∧
      (∀ t ∈ post, t.strength ≤
        (l.foldl (fun (strongest : Signal) signal =>
          if signal.strength > strongest.strength then signal else strongest) b).strength) := by
  induction l generalizing pre mid b with
  | nil => exact ⟨pre, mid, by simp, hpre, hmid⟩
  | cons x l ih =>
    rw [List.foldl_cons]
    by_cases hx : x.strength > b.strength
    · rw [if_pos hx]
      obtain ⟨pre', post, he, h1, h2⟩ := ih (pre ++ b :: mid) [] x
        (by
          intro t ht
          rw [List.mem_append, List.mem_cons] at ht
          rcases ht with ht | ht | ht
          · exact lt_trans (hpre t ht) hx
          · rw [ht]; exact hx
          · exact lt_of_le_of_lt (hmid t ht) hx)
        (by simp)
      refine ⟨pre', post, ?_, h1, h2⟩
      rw [← he]
      simp
    · rw [if_neg hx]
      obtain ⟨pre', post, he, h1, h2⟩ := ih pre (mid ++ [x]) b hpre
        (by
          intro t ht
          rw [List.mem_append, List.mem_singleton] at ht
          rcases ht with ht | ht
          · exact hmid t ht
          · rw [ht]; exact not_lt.mp hx)
      refine ⟨pre', post, ?_, h1, h2⟩
      rw [← he]
      simp

theorem strongestSignal_first_max (signals : List Signal) (h : signals ≠ []) :
    ∃ s pre post, MarketScanner.strongestSignal signals = some s ∧
      signals = pre ++ s :: post ∧ (∀ t ∈ pre, t.strength < s.strength) ∧
      (∀ t ∈ post, t.strength ≤ s.strength) := by
  cases signals with
  | nil => exact absurd rfl h
  | cons first rest =>
    obtain ⟨pre', post, he, h1, h2⟩ := strongest_fold rest [] [] first (by simp) (by simp)
    refine ⟨_, pre', post, ?_, ?_, h1, h2⟩
    · unfold MarketScanner.strongestSignal
      simp only [List.foldl_cons, gt_iff_lt, lt_self_iff_false, if_false]
    · simpa using he

theorem strongestSignal_eq_none_iff (signals : List Signal) :
    MarketScanner.strongestSignal signals = none ↔ signals = [] := by
  cases signals with
  | nil => simp [MarketScanner.strongestSignal]
  | cons first rest => simp [MarketScanner.strongestSignal]

/-! ## Theorems: the scan pipeline -/

/-- C17 (as stated, refuted): with `minVolume` 0 a listed symbol whose quote volume is 0
meets `quoteVolume >= minVolume`, so the specified pair list contains it; `startScan`
leaves it out, because a zero quote volume is falsy. -/
theorem scanPairs_zero_volume_counterexample :
    MarketScanner.scanPairs
        ⟨50, 15, "15m", 0, 70, false, true, ⟨true, ⟨2 / 5, 3 / 10, 3 / 20, 3 / 20⟩⟩⟩
        (fun _ => some ⟨false⟩) [("A/USDT", ⟨some 0, 1, 0⟩)] = [] ∧
      MarketScanner.specScanPairs
        ⟨50, 15, "15m", 0, 70, false, true, ⟨true, ⟨2 / 5, 3 / 10, 3 / 20, 3 / 20⟩⟩⟩
        (fun _ => some ⟨false⟩) [("A/USDT", ⟨some 0, 1, 0⟩)] =
        [{ symbol := "A/USDT", volume := 0, price := 1, change := 0 }] := by
  constructor
  · rw [scanPairs_eq]
    simp [MarketScanner.qualifies, MarketScanner.specQualifies, sortDescendingBy]
  · simp [MarketScanner.specScanPairs, MarketScanner.specQualifies, MarketScanner.specPair,
      sortDescendingBy]

/-- C17 (amended): the list of pairs that `startScan` analyses is exactly the symbols
present in markets (and not darkpool) whose quoteVolume is non-zero and at least
`minVolume`, sorted by quoteVolume in descending order and truncated to the first
`maxPairs` entries; it has at most `maxPairs` elements, is sorted descending, and no
excluded qualifying symbol has a larger volume than an included one. -/
theorem scanPairs_spec (settings : ScanSettings) (markets : String → Option MarketMeta)
    (tickers : List (String × Ticker)) :
    MarketScanner.scanPairs settings markets tickers =
        (sortDescendingBy (fun pair => pair.volume)
          ((tickers.filter (MarketScanner.qualifies settings markets)).map
            MarketScanner.specPair)).take settings.maxPairs ∧
      (∀ entry, MarketScanner.qualifies settings markets entry = true ↔
        ∃ market v, markets entry.1 = some market ∧ market.darkpool = false ∧
          entry.2.quoteVolume = some v ∧ v ≠ 0 ∧ v ≥ settings.minVolume) ∧
      (MarketScanner.scanPairs settings markets tickers).length ≤ settings.maxPairs ∧
      (MarketScanner.scanPairs settings markets tickers).Sorted
        (fun a b => a.volume ≥ b.volume) ∧
      (∀ q ∈ (tickers.filter (MarketScanner.qualifies settings markets)).map
          MarketScanner.specPair,
        q ∉ MarketScanner.scanPairs settings markets tickers →
        ∀ p ∈ MarketScanner.scanPairs settings markets tickers, q.volume ≤ p.volume) := by
  refine ⟨scanPairs_eq settings markets tickers, ?_, ?_, ?_, ?_⟩
  · intro entry
    unfold MarketScanner.qualifies MarketScanner.specQualifies
    cases hm : markets entry.1 with
    | none => simp
    | some market =>
      cases hv : entry.2.quoteVolume with
      | none => simp
      | some v =>
        simp only [Bool.and_eq_true, Bool.not_eq_true', decide_eq_true_eq, ne_eq,
          Option.some.injEq]
        constructor
        · rintro ⟨⟨hd, hmin⟩, h0⟩
          exact ⟨market, v, rfl, hd, rfl, h0, hmin⟩
        · rintro ⟨market', v', hm', hd, hv', h0, hmin⟩
          subst hm' hv'
          exact ⟨⟨hd, hmin⟩, h0⟩
  · rw [scanPairs_eq]
    exact List.length_take_le _ _
  · rw [scanPairs_eq]
    exact List.Pairwise.sublist (List.take_sublist _ _) (sortDescendingBy_sorted _ _)
  · rw [scanPairs_eq]
    intro q hq hnot p hp
    have hmem : q ∈ sortDescendingBy (fun pair => pair.volume)
        ((tickers.filter (MarketScanner.qualifies settings markets)).map
          MarketScanner.specPair) :=
      (sortDescendingBy_perm _ _).mem_iff.mpr hq
    rw [← List.take_append_drop settings.maxPairs (sortDescendingBy _ _), List.mem_append]
      at hmem
    rcases hmem with hmem | hmem
    · exact absurd hmem hnot
    · exact (sortDescendingBy_sorted _ _).rel_of_mem_take_of_mem_drop hp hmem

/-- C18: for every non-empty signal list, the strongest signal chosen by `startScan` is a
signal of the list of maximal strength and, among those of maximal strength, the earliest:
every signal before it is strictly weaker. -/
theorem strongestSignal_spec (signals : List Signal) (h : signals ≠ []) :
    ∃ s, MarketScanner.strongestSignal signals = some s ∧ s ∈ signals ∧
      (∀ t ∈ signals, t.strength ≤ s.strength) ∧
      ∃ pre post, signals = pre ++ s :: post ∧ ∀ t ∈ pre, t.strength < s.strength := by
  obtain ⟨s, pre, post, hs, he, h1, h2⟩ := strongestSignal_first_max signals h
  refine ⟨s, hs, ?_, ?_, pre, post, he, h1⟩
  · rw [he]
    simp
  · intro t ht
    rw [he, List.mem_append, List.mem_cons] at ht
    rcases ht with ht | ht | ht
    · exact le_of_lt (h1 t ht)
    · rw [ht]
    · exact h2 t ht

/-- C18 witness: an SMA signal of strength 60 followed by an RSI signal and a second
signal of the same strength 80. -/
theorem strongestSignal_spec_witness :
    ∃ s, MarketScanner.strongestSignal
        [⟨"sma_golden_cross", "buy", 60, "", some "SMA"⟩,
          ⟨"rsi_overbought", "sell", 80, "", some "RSI"⟩,
          ⟨"macd_crossover", "sell", 80, "", some "MACD"⟩] = some s ∧
      s ∈ [(⟨"sma_golden_cross", "buy", 60, "", some "SMA"⟩ : Signal),
          ⟨"rsi_overbought", "sell", 80, "", some "RSI"⟩,
          ⟨"macd_crossover", "sell", 80, "", some "MACD"⟩] ∧
      (∀ t ∈ [(⟨"sma_golden_cross", "buy", 60, "", some "SMA"⟩ : Signal),
          ⟨"rsi_overbought", "sell", 80, "", some "RSI"⟩,
          ⟨"macd_crossover", "sell", 80, "", some "MACD"⟩], t.strength ≤ s.strength) ∧
      ∃ pre post, [(⟨"sma_golden_cross", "buy", 60, "", some "SMA"⟩ : Signal),
          ⟨"rsi_overbought", "sell", 80, "", some "RSI"⟩,
          ⟨"macd_crossover", "sell", 80, "", some "MACD"⟩] = pre ++ s :: post ∧
        ∀ t ∈ pre, t.strength < s.strength :=
  strongestSignal_spec _ (by simp)

/-- C19: for a symbol whose candles were fetched, `startScan` records a result if and only
if the analysis has at least one signal and the strongest signal's strength is at least
`signalThreshold`, equivalently some signal has such a strength; the recorded result
carries that analysis and strongest signal, and the results are the recorded ones of the
pairs, in scan order, nothing else. -/
theorem scanPair_records_iff (settings : ScanSettings) (now : String) (pair : Pair)
    (candles : List Candle) :
    ((MarketScanner.scanPair settings now pair (some candles)).isSome = true ↔
        (MarketScanner.analyzeMarket settings candles pair.price).signals ≠ [] ∧
          ∃ s, MarketScanner.strongestSignal
              (MarketScanner.analyzeMarket settings candles pair.price).signals = some s ∧
            s.strength ≥ settings.signalThreshold) ∧
      ((MarketScanner.scanPair settings now pair (some candles)).isSome = true ↔
        ∃ s ∈ (MarketScanner.analyzeMarket settings candles pair.price).signals,
          s.strength ≥ settings.signalThreshold) ∧
      (∀ r, MarketScanner.scanPair settings now pair (some candles) = some r →
        r.symbol = pair.symbol ∧
          r.analysis = MarketScanner.analyzeMarket settings candles pair.price ∧
          MarketScanner.strongestSignal r.analysis.signals = some r.strongestSignal) ∧
      (∀ exchange pairs, MarketScanner.recordedResults settings now exchange pairs =
        pairs.filterMap (fun pair =>
          MarketScanner.scanPair settings now pair
            (exchange.fetchOHLCV pair.symbol settings.timeframe))) := by
  have hempty : candles.length = 0 →
      (MarketScanner.analyzeMarket settings candles pair.price).signals = [] := by
    intro h0
    unfold MarketScanner.analyzeMarket
    rw [if_pos (by omega)]
    rfl
  have hA : (MarketScanner.scanPair settings now pair (some candles)).isSome = true ↔
      ∃ s, MarketScanner.strongestSignal
          (MarketScanner.analyzeMarket settings candles pair.price).signals = some s ∧
        s.strength ≥ settings.signalThreshold := by
    unfold MarketScanner.scanPair
    by_cases hlen : candles.length > 0
    · simp only [hlen, if_true]
      cases hs : MarketScanner.strongestSignal
          (MarketScanner.analyzeMarket settings candles pair.price).signals with
      | none => simp
      | some s =>
        by_cases ht : s.strength ≥ settings.signalThreshold
        · simp [ht]
        · simp [ht]
    · have h0 : candles.length = 0 := by omega
      simp only [hlen, if_false, Option.isSome_none, Bool.false_eq_true, false_iff]
      rintro ⟨s, hs, -⟩
      rw [hempty h0] at hs
      simp [MarketScanner.strongestSignal] at hs
  refine ⟨?_, ?_, ?_, fun exchange pairs => recordedResults_eq settings now exchange pairs⟩
  · rw [hA]
    constructor
    · rintro ⟨s, hs, ht⟩
      refine ⟨?_, s, hs, ht⟩
      intro hnil
      rw [hnil] at hs
      simp [MarketScanner.strongestSignal] at hs
    · rintro ⟨-, h⟩
      exact h
  · rw [hA]
    constructor
    · rintro ⟨s, hs, ht⟩
      have hne : (MarketScanner.analyzeMarket settings candles pair.price).signals ≠ [] := by
        intro hnil
        rw [hnil] at hs
        simp [MarketScanner.strongestSignal] at hs
      obtain ⟨s', pre, post, hs', he, -, -⟩ := strongestSignal_first_max _ hne
      rw [hs, Option.some.injEq] at hs'
      subst hs'
      exact ⟨s, by rw [he]; simp, ht⟩
    · rintro ⟨t, ht, hthr⟩
      have hne : (MarketScanner.analyzeMarket settings candles pair.price).signals ≠ [] :=
        List.ne_nil_of_mem ht
      obtain ⟨s, pre, post, hs, he, h1, h2⟩ := strongestSignal_first_max _ hne
      refine ⟨s, hs, ?_⟩
      rw [he, List.mem_append, List.mem_cons] at ht
      rcases ht with ht | ht | ht
      · exact le_trans hthr (le_of_lt (h1 t ht))
      · rw [← ht]; exact hthr
      · exact le_trans hthr (h2 t ht)
  · intro r hr
    unfold MarketScanner.scanPair at hr
    by_cases hlen : candles.length > 0
    · simp only [hlen, if_true] at hr
      cases hs : MarketScanner.strongestSignal
          (MarketScanner.analyzeMarket settings candles pair.price).signals with
      | none => rw [hs] at hr; simp at hr
      | some s =>
        rw [hs] at hr
        by_cases ht : s.strength ≥ settings.signalThreshold
        · simp only [ht, if_true, Option.some.injEq] at hr
          subst hr
          exact ⟨rfl, rfl, hs⟩
        · simp [ht] at hr
    · simp [hlen] at hr

/-- C20: when a scan runs to its end, the list returned by `startScan` is the one stored
in `scanResults`; it is a permutation of the recorded results (those of the scanned pairs,
in scan order), sorted by strongestSignal.strength in non-increasing order, and results of
equal strength keep their scan order. -/
theorem startScan_results_sorted (st : ScannerState) (ex : Exchange)
    (tickers : List (String × Ticker)) (now : String) (hidle : st.isScanning = false)
    (ht : ex.tickers = some tickers) :
    ∃ results,
      MarketScanner.startScan st (some ex) now =
        (some results,
          { st with isScanning := false, scanResults := results, lastScanTime := some now }) ∧
      results.Perm (MarketScanner.recordedResults st.settings now ex
        (MarketScanner.scanPairs st.settings ex.markets tickers)) ∧
      results.Sorted (fun a b => a.strongestSignal.strength ≥ b.strongestSignal.strength) ∧
      (∀ v : ℚ, results.filter (fun r => decide (r.strongestSignal.strength = v)) =
        (MarketScanner.recordedResults st.settings now ex
          (MarketScanner.scanPairs st.settings ex.markets tickers)).filter
          (fun r => decide (r.strongestSignal.strength = v))) ∧
      MarketScanner.recordedResults st.settings now ex
          (MarketScanner.scanPairs st.settings ex.markets tickers) =
        (MarketScanner.scanPairs st.settings ex.markets tickers).filterMap (fun pair =>
          MarketScanner.scanPair st.settings now pair
            (ex.fetchOHLCV pair.symbol st.settings.timeframe)) := by
  refine ⟨sortDescendingBy (fun result => result.strongestSignal.strength)
    (MarketScanner.recordedResults st.settings now ex
      (MarketScanner.scanPairs st.settings ex.markets tickers)), ?_,
    sortDescendingBy_perm _ _, sortDescendingBy_sorted _ _,
    fun v => sortDescendingBy_stable _ v _, recordedResults_eq _ _ _ _⟩
  unfold MarketScanner.startScan
  simp only [hidle, ht, Bool.false_eq_true, if_false]

/-- C20 witness: a scan of three symbols from the initial state.  In scan (volume) order
the recorded results are BTC/USDT (strength 80), ETH/USDT (100) and SOL/USDT (80); the list
returned is ETH/USDT, BTC/USDT, SOL/USDT: sorted by strength, a permutation of the recorded
results, the two results of strength 80 in their scan order. -/
theorem startScan_results_sorted_witness :
    ∃ results,
      MarketScanner.startScan MarketScanner.initialState
          (some MarketScanner.threeSymbolExchange) "t" =
        (some results,
          { MarketScanner.initialState with
            isScanning := false, scanResults := results, lastScanTime := some "t" }) ∧
      results.Perm (MarketScanner.recordedResults MarketScanner.initialState.settings "t"
        MarketScanner.threeSymbolExchange
        (MarketScanner.scanPairs MarketScanner.initialState.settings
          MarketScanner.threeSymbolExchange.markets MarketScanner.threeTickers)) ∧
      results.Sorted (fun a b => a.strongestSignal.strength ≥ b.strongestSignal.strength) ∧
      results.filter (fun r => decide (r.strongestSignal.strength = 80)) =
        (MarketScanner.recordedResults MarketScanner.initialState.settings "t"
          MarketScanner.threeSymbolExchange
          (MarketScanner.scanPairs MarketScanner.initialState.settings
            MarketScanner.threeSymbolExchange.markets MarketScanner.threeTickers)).filter
          (fun r => decide (r.strongestSignal.strength = 80)) ∧
      (MarketScanner.recordedResults MarketScanner.initialState.settings "t"
          MarketScanner.threeSymbolExchange
          (MarketScanner.scanPairs MarketScanner.initialState.settings
            MarketScanner.threeSymbolExchange.markets MarketScanner.threeTickers)).map
          (fun r => (r.symbol, r.strongestSignal.strength)) =
        [("BTC/USDT", 80), ("ETH/USDT", 100), ("SOL/USDT", 80)] ∧
      results.map (fun r => (r.symbol, r.strongestSignal.strength)) =
        [("ETH/USDT", 100), ("BTC/USDT", 80), ("SOL/USDT", 80)] := by
  obtain ⟨results, hscan, hperm, hsorted, hstable, -⟩ :=
    startScan_results_sorted MarketScanner.initialState MarketScanner.threeSymbolExchange
      MarketScanner.threeTickers "t" rfl rfl
  have hrecorded :
      (MarketScanner.recordedResults MarketScanner.initialState.settings "t"
          MarketScanner.threeSymbolExchange
          (MarketScanner.scanPairs MarketScanner.initialState.settings
            MarketScanner.threeSymbolExchange.markets MarketScanner.threeTickers)).map
          (fun r => (r.symbol, r.strongestSignal.strength)) =
        [("BTC/USDT", 80), ("ETH/USDT", 100), ("SOL/USDT", 80)] := by
    decide!
  have hreturned :
      (MarketScanner.startScan MarketScanner.initialState
          (some MarketScanner.threeSymbolExchange) "t").1.map
          (fun rs => rs.map (fun r => (r.symbol, r.strongestSignal.strength))) =
        some [("ETH/USDT", 100), ("BTC/USDT", 80), ("SOL/USDT", 80)] := by
    decide!
  rw [hscan] at hreturned
  exact ⟨results, hscan, hperm, hsorted, hstable 80, hrecorded, Option.some.inj hreturned⟩

/-! ## Lemmas: scans that are refused or meet failing requests -/

theorem filterMap_eq_filterMap_filter {α β : Type} (f g : α → Option β) (keep : α → Bool)
    (l : List α) (hdrop : ∀ x ∈ l, keep x = false → f x = none)
    (hkeep : ∀ x ∈ l, keep x = true → g x = f x) :
    l.filterMap f = (l.filter keep).filterMap g := by
  induction l with
  | nil => rfl
  | cons x l ih =>
    have ih' := ih (fun y hy => hdrop y (List.mem_cons_of_mem x hy))
      (fun y hy => hkeep y (List.mem_cons_of_mem x hy))
    cases hk : keep x with
    | false =>
      rw [List.filter_cons_of_neg (by simp [hk]), List.filterMap_cons,
        hdrop x (List.mem_cons_self x l) hk]
      exact ih'
    | true =>
      rw [List.filter_cons_of_pos (by simp [hk]), List.filterMap_cons, List.filterMap_cons,
        hkeep x (List.mem_cons_self x l) hk, ih']

theorem scanPair_none (settings : ScanSettings) (now : String) (pair : Pair) :
    MarketScanner.scanPair settings now pair none = none := rfl

/-! ## Theorems: scans that are refused or meet failing requests -/

/-- C21: when `startScan` is invoked while `isScanning` is true it returns no result and
the scanner state it was given, whatever the provider would answer (so nothing read from
the provider enters the outcome); and a scan that did begin ends with `isScanning` false,
whether it succeeds or fails, with the settings as they were. -/
theorem startScan_guard (st : ScannerState) (now : String) :
    (st.isScanning = true →
      ∀ exchange : Option Exchange, MarketScanner.startScan st exchange now = (none, st)) ∧
    (st.isScanning = false →
      ∀ exchange : Option Exchange,
        (MarketScanner.startScan st exchange now).2.isScanning = false ∧
        (MarketScanner.startScan st exchange now).2.settings = st.settings) := by
  constructor
  · intro h exchange
    unfold MarketScanner.startScan
    rw [if_pos h]
  · intro h exchange
    unfold MarketScanner.startScan
    rw [if_neg (by simp [h])]
    cases exchange with
    | none => exact ⟨rfl, rfl⟩
    | some ex =>
      dsimp only
      cases ex.tickers with
      | none => exact ⟨rfl, rfl⟩
      | some tickers => exact ⟨rfl, rfl⟩

/-- C21 witness: a scanner whose scan is in flight refuses a second scan of the example
exchange and keeps its state. -/
theorem startScan_guard_witness :
    MarketScanner.startScan { MarketScanner.initialState with isScanning := true }
        (some MarketScanner.exampleExchange) "t" =
      (none, { MarketScanner.initialState with isScanning := true }) :=
  (startScan_guard { MarketScanner.initialState with isScanning := true } "t").1 rfl
    (some MarketScanner.exampleExchange)

/-- C22: let the candle request fail for every scanned symbol of a set F, and let a second
provider answer the requests for the other scanned symbols as the first one does.  Then the
results recorded by the scan of the pair list on the first provider are those recorded by a
scan of the pair list without the symbols of F on the second provider, and `startScan`
returns them sorted: the scan does not abort. -/
theorem scan_skips_failed_requests (settings : ScanSettings) (now : String)
    (ex ex' : Exchange) (pairs : List Pair) (F : String → Bool)
    (hfail : ∀ pair ∈ pairs, F pair.symbol = true →
      ex.fetchOHLCV pair.symbol settings.timeframe = none)
    (hsame : ∀ pair ∈ pairs, F pair.symbol = false →
      ex'.fetchOHLCV pair.symbol settings.timeframe =
        ex.fetchOHLCV pair.symbol settings.timeframe) :
    MarketScanner.recordedResults settings now ex pairs =
        MarketScanner.recordedResults settings now ex'
          (pairs.filter (fun pair => !F pair.symbol)) ∧
      ∀ (st : ScannerState) (tickers : List (String × Ticker)),
        st.isScanning = false → st.settings = settings → ex.tickers = some tickers →
        MarketScanner.scanPairs settings ex.markets tickers = pairs →
        (MarketScanner.startScan st (some ex) now).1 =
          some (sortDescendingBy (fun result => result.strongestSignal.strength)
            (MarketScanner.recordedResults settings now ex'
              (pairs.filter (fun pair => !F pair.symbol)))) := by
  have key : MarketScanner.recordedResults settings now ex pairs =
      MarketScanner.recordedResults settings now ex'
        (pairs.filter (fun pair => !F pair.symbol)) := by
    rw [recordedResults_eq, recordedResults_eq]
    apply filterMap_eq_filterMap_filter
    · intro pair hp hk
      rw [hfail pair hp (by simpa using hk)]
      rfl
    · intro pair hp hk
      rw [hsame pair hp (by simpa using hk)]
  refine ⟨key, ?_⟩
  intro st tickers hidle hset ht hpairs
  unfold MarketScanner.startScan
  simp only [hidle, ht, Bool.false_eq_true, if_false]
  rw [hset, hpairs, key]

/-- C22 witness: the two pairs of the partly failing exchange, with F holding "ETH/USDT",
whose candle request fails. -/
theorem scan_skips_failed_requests_witness :
    MarketScanner.recordedResults MarketScanner.defaultSettings "t"
        MarketScanner.partlyFailingExchange
        [⟨"BTC/USDT", 2000000, 1, 0⟩, ⟨"ETH/USDT", 1500000, 1, 0⟩] =
      MarketScanner.recordedResults MarketScanner.defaultSettings "t"
        MarketScanner.partlyFailingExchange
        (([⟨"BTC/USDT", 2000000, 1, 0⟩, ⟨"ETH/USDT", 1500000, 1, 0⟩] : List Pair).filter
          (fun pair => !(fun symbol => decide (symbol = "ETH/USDT")) pair.symbol)) :=
  (scan_skips_failed_requests MarketScanner.defaultSettings "t"
    MarketScanner.partlyFailingExchange MarketScanner.partlyFailingExchange
    [⟨"BTC/USDT", 2000000, 1, 0⟩, ⟨"ETH/USDT", 1500000, 1, 0⟩]
    (fun symbol => decide (symbol = "ETH/USDT"))
    (by
      intro pair _ h
      have hs : pair.symbol = "ETH/USDT" := by simpa using h
      simp [MarketScanner.partlyFailingExchange, hs])
    (fun _ _ _ => rfl)).1

section AgentPaths

open TradingAIAgent

/-! ## Lemmas: the recommendation history -/

/-- Every production that returns stores its recommendation with `record`. -/
theorem local_records (config : AgentConfig) (now : String) (st : AgentState)
    (options : AgentOptions) (result : Recommendation × AgentState)
    (h : getLocalAIRecommendations config now st options = some result) :
    result.2 = record now st result.1 := by
  unfold getLocalAIRecommendations at h
  cases ha : options.analysis with
  | none => simp [ha] at h
  | some analysis =>
    cases ht : config.trendThresholds with
    | none => simp [ha, ht] at h
    | some thresholds =>
      simp only [ha, ht, Option.some.injEq] at h
      rw [← h]

theorem parseTry_records (toUpperCase : String → String)
    (now : String) (st : AgentState) (response : ExternalResponse)
    (options : AgentOptions) (result : Recommendation × AgentState)
    (h : parseExternalAIResponseTry toUpperCase now st response options = some result) :
    result.2 = record now st result.1 := by
  unfold parseExternalAIResponseTry at h
  cases response with
  | malformed => simp at h
  | parsed responseText ai =>
    cases hact : ai.action with
    | none => simp [hact] at h
    | some action =>
      cases hre : ai.reasoning with
      | none => simp [hact, hre] at h
      | some reasoning =>
        cases han : options.analysis with
        | none => simp [hact, hre, han] at h
        | some analysis =>
          simp only [hact, hre, han] at h
          by_cases hempty : action = "" ∨ reasoning = ""
          · rw [if_pos hempty] at h
            simp at h
          · rw [if_neg hempty] at h
            by_cases hvalid : toUpperCase action ∈ validActions
            · simp only [hvalid, if_true, Option.some.injEq] at h
              rw [← h]
            · simp only [hvalid, if_false] at h
              simp at h

theorem parse_records (toUpperCase : String → String)
    (config : AgentConfig) (now : String) (st : AgentState)
    (response : ExternalResponse) (options : AgentOptions)
    (result : Recommendation × AgentState)
    (h : parseExternalAIResponse toUpperCase config now st response options = some result) :
    result.2 = record now st result.1 := by
  unfold parseExternalAIResponse at h
  cases ht : parseExternalAIResponseTry toUpperCase now st response options with
  | some r =>
    rw [ht] at h
    simp only [Option.some.injEq] at h
    rw [← h]
    exact parseTry_records toUpperCase now st response options r ht
  | none =>
    rw [ht] at h
    exact local_records config now st options result h

theorem external_records (toUpperCase : String → String)
    (config : AgentConfig) (now : String) (st : AgentState)
    (fetchResult : FetchResult) (options : AgentOptions)
    (result : Recommendation × AgentState)
    (h : getExternalAIRecommendations toUpperCase config now st fetchResult options = some result) :
    result.2 = record now st result.1 := by
  unfold getExternalAIRecommendations at h
  cases hk : config.apiKey with
  | none => simp [hk] at h
  | some key =>
    simp only [hk] at h
    by_cases hempty : key = ""
    · simp [hempty] at h
    · rw [if_neg hempty] at h
      cases fetchResult with
      | requestFailed => exact local_records config now st options result h
      | notOk => exact local_records config now st options result h
      | ok response =>
        dsimp only at h
        cases hp : parseExternalAIResponse toUpperCase config now st response options with
        | some r =>
          rw [hp] at h
          simp only [Option.some.injEq] at h
          rw [← h]
          exact parse_records toUpperCase config now st response options r hp
        | none =>
          rw [hp] at h
          exact local_records config now st options result h

theorem produce_records (toUpperCase : String → String) (config : AgentConfig) (st : AgentState)
    (call : AgentCall)
    (result : Recommendation × AgentState)
    (h : produce toUpperCase config st call = some result) :
    ∃ now, result.2 = record now st result.1 := by
  cases call with
  | localCall now options => exact ⟨now, local_records config now st options result h⟩
  | parseCall now response options =>
    exact ⟨now, parse_records toUpperCase config now st response options result h⟩

/-- After `record`, the recommendation is the last entry of the history and the value of
`lastRecommendation`. -/
theorem record_last (now : String) (st : AgentState) (r : Recommendation) :
    (record now st r).recommendationHistory.getLast? = some r ∧
      getLastRecommendation (record now st r) = some r := by
  refine ⟨?_, rfl⟩
  unfold record
  dsimp only
  split_ifs with h
  · rw [List.length_append, List.length_singleton] at h
    cases hh : st.recommendationHistory with
    | nil => rw [hh] at h; simp at h
    | cons x l => simp
  · simp

/-- The history update of `record` on a history that holds the last (at most 100) entries
of a production list. -/
theorem record_history_suffix (now : String) (st : AgentState) (r : Recommendation)
    (produced : List Recommendation)
    (h : st.recommendationHistory = produced.drop (produced.length - 100)) :
    (record now st r).recommendationHistory =
      (produced ++ [r]).drop ((produced ++ [r]).length - 100) := by
  unfold record
  dsimp only
  rw [h, List.length_append, List.length_drop, List.length_append, List.length_singleton]
  by_cases hlen : produced.length < 100
  · have e1 : produced.length - 100 = 0 := by omega
    have e2 : produced.length + 1 - 100 = 0 := by omega
    rw [e1, e2, if_neg (by omega)]
    simp
  · have e2 : produced.length + 1 - 100 = produced.length - 100 + 1 := by omega
    have hk : produced.length - 100 ≤ produced.length := by omega
    rw [e2, if_pos (by omega), ← List.drop_drop, List.drop_append_of_le_length hk]

theorem runCalls_invariant (toUpperCase : String → String) (config : AgentConfig)
    (calls : List AgentCall)
    (acc : AgentState × List Recommendation)
    (h : acc.1.recommendationHistory = acc.2.drop (acc.2.length - 100)) :
    (calls.foldl (produceStep toUpperCase config) acc).1.recommendationHistory =
      (calls.foldl (produceStep toUpperCase config) acc).2.drop
        ((calls.foldl (produceStep toUpperCase config) acc).2.length - 100) := by
  induction calls generalizing acc with
  | nil => exact h
  | cons call calls ih =>
    rw [List.foldl_cons]
    apply ih
    unfold produceStep
    cases hp : produce toUpperCase config acc.1 call with
    | none => exact h
    | some result =>
      dsimp only
      obtain ⟨now, hrec⟩ := produce_records toUpperCase config acc.1 call result hp
      rw [hrec]
      exact record_history_suffix now acc.1 result.1 acc.2 h

/-! ## Theorems: the recommendation history -/

/-- C23: after any sequence of productions (calls of getLocalAIRecommendations or of
parseExternalAIResponse) started on the empty history, recommendationHistory holds the
last 100 recommendations produced (all of them when there are fewer), in production order,
so it has at most 100 entries; and a production that returns r on a history of 100 entries
h1..h100 leaves the history h2..h100, r. -/
theorem history_bounded_in_order (toUpperCase : String → String)
    (config : AgentConfig) (calls : List AgentCall) :
    (runCalls toUpperCase config initialState calls).1.recommendationHistory =
        (runCalls toUpperCase config initialState calls).2.drop
          ((runCalls toUpperCase config initialState calls).2.length - 100) ∧
      (runCalls toUpperCase config initialState calls).1.recommendationHistory.length ≤ 100 ∧
      ∀ (st : AgentState) (call : AgentCall) (r : Recommendation) (st' : AgentState),
        st.recommendationHistory.length = 100 →
        produce toUpperCase config st call = some (r, st') →
        st'.recommendationHistory = st.recommendationHistory.drop 1 ++ [r] := by
  have hinv := runCalls_invariant toUpperCase config calls (initialState, []) rfl
  refine ⟨hinv, ?_, ?_⟩
  · unfold runCalls
    rw [hinv, List.length_drop]
    omega
  · intro st call r st' hlen hp
    obtain ⟨now, hrec⟩ := produce_records toUpperCase config st call (r, st') hp
    dsimp only at hrec
    rw [hrec]
    unfold record
    dsimp only
    rw [if_pos (by rw [List.length_append, hlen]; simp),
      List.drop_append_of_le_length (by omega)]

/-- C23 witness: a local production for score 85 under thresholds 80/60/40/20 on a history
that holds 100 entries. -/
theorem history_bounded_in_order_witness :
    ∃ r st',
      produce String.toUpper ⟨false, none, some ⟨80, 60, 40, 20⟩⟩
          ⟨none, none, List.replicate 100 (errorRecommendation "s")⟩
          (AgentCall.localCall "t" ⟨"BTC/USDT", some ⟨ScoreValue.num 85, none⟩, 1, "15m"⟩) =
        some (r, st') ∧
      st'.recommendationHistory =
        (List.replicate 100 (errorRecommendation "s")).drop 1 ++ [r] :=
  ⟨_, _, rfl,
    (history_bounded_in_order String.toUpper ⟨false, none, some ⟨80, 60, 40, 20⟩⟩ []).2.2
      ⟨none, none, List.replicate 100 (errorRecommendation "s")⟩
      (AgentCall.localCall "t" ⟨"BTC/USDT", some ⟨ScoreValue.num 85, none⟩, 1, "15m"⟩)
      _ _ (List.length_replicate 100 _) rfl⟩

/-! ## Lemmas: the paths of `getRecommendations` -/

theorem mathRound_intCast (z : ℤ) : mathRound (z : ℚ) = z := by
  unfold mathRound
  rw [Int.floor_eq_iff]
  constructor <;> norm_num

/-- A recommendation returned through the local or the external path is stored: it is the
last entry of the history and the value of `getLastRecommendation`. -/
theorem getRecommendations_stored (toUpperCase : String → String)
    (config : AgentConfig) (now : String) (st : AgentState)
    (fetchResult : FetchResult) (options : AgentOptions)
    (result : Recommendation × AgentState)
    (h : (if config.externalAPIEnabled then
            getExternalAIRecommendations toUpperCase config now st fetchResult options
          else getLocalAIRecommendations config now st options) = some result) :
    getRecommendations toUpperCase config now st fetchResult options = result ∧
      result.2.recommendationHistory.getLast? = some result.1 ∧
      getLastRecommendation result.2 = some result.1 := by
  have hr : result.2 = record now st result.1 := by
    by_cases he : config.externalAPIEnabled = true
    · rw [if_pos he] at h
      exact external_records toUpperCase config now st fetchResult options result h
    · rw [if_neg he] at h
      exact local_records config now st options result h
  refine ⟨?_, ?_⟩
  · unfold getRecommendations
    simp only [h]
  · rw [hr]
    exact record_last now st result.1

theorem parseTry_none_of_failure (toUpperCase : String → String)
    (now : String) (st : AgentState) (responseText : String)
    (ai : AiRecommendation) (options : AgentOptions)
    (hfail : externalFailure toUpperCase
      (FetchResult.ok (ExternalResponse.parsed responseText ai)) = true) :
    parseExternalAIResponseTry toUpperCase now st (ExternalResponse.parsed responseText ai)
      options = none := by
  unfold parseExternalAIResponseTry
  unfold externalFailure at hfail
  dsimp only at hfail ⊢
  cases hact : ai.action with
  | none => rfl
  | some action =>
    cases hre : ai.reasoning with
    | none => rfl
    | some reasoning =>
      cases han : options.analysis with
      | none => rfl
      | some analysis =>
        simp only [hact, hre, decide_eq_true_eq] at hfail
        dsimp only
        by_cases hempty : action = "" ∨ reasoning = ""
        · rw [if_pos hempty]
        · rw [if_neg hempty]
          have hv : toUpperCase action ∉ validActions := by
            rcases hfail with h | h | h
            · exact absurd (Or.inl h) hempty
            · exact absurd (Or.inr h) hempty
            · exact h
          simp only [hv, if_false]

/-- With an API key configured, every failure inside the `try` blocks of the external path
ends in the local computation. -/
theorem externalFailure_fallback (toUpperCase : String → String)
    (config : AgentConfig) (now : String) (st : AgentState)
    (fetchResult : FetchResult) (options : AgentOptions) (key : String)
    (hkey : config.apiKey = some key) (hne : key ≠ "")
    (hfail : externalFailure toUpperCase fetchResult = true) :
    getExternalAIRecommendations toUpperCase config now st fetchResult options =
      getLocalAIRecommendations config now st options := by
  unfold getExternalAIRecommendations
  simp only [hkey, if_neg hne]
  cases fetchResult with
  | requestFailed => rfl
  | notOk => rfl
  | ok response =>
    dsimp only
    have hparse : parseExternalAIResponse toUpperCase config now st response options =
        getLocalAIRecommendations config now st options := by
      unfold parseExternalAIResponse
      have htry : parseExternalAIResponseTry toUpperCase now st response options = none := by
        cases response with
        | malformed => rfl
        | parsed responseText ai =>
          exact parseTry_none_of_failure toUpperCase now st responseText ai options hfail
      rw [htry]
    rw [hparse]
    cases getLocalAIRecommendations config now st options <;> rfl

/-- Without an API key the external path throws before its `try` block. -/
theorem external_throws_without_key (toUpperCase : String → String)
    (config : AgentConfig) (now : String) (st : AgentState)
    (fetchResult : FetchResult) (options : AgentOptions)
    (hkey : config.apiKey = none ∨ config.apiKey = some "") :
    getExternalAIRecommendations toUpperCase config now st fetchResult options = none := by
  unfold getExternalAIRecommendations
  rcases hkey with h | h
  · simp only [h]
  · simp only [h, if_true]

/-- The confidence of a recommendation built from a parsed response. -/
theorem parseTry_confidence (toUpperCase : String → String)
    (now : String) (st : AgentState) (responseText : String)
    (ai : AiRecommendation) (options : AgentOptions) (result : Recommendation × AgentState)
    (h : parseExternalAIResponseTry toUpperCase now st
      (ExternalResponse.parsed responseText ai) options = some result) :
    result.1.confidence = externalConfidence ai.confidence := by
  unfold parseExternalAIResponseTry at h
  dsimp only at h
  cases hact : ai.action with
  | none => simp [hact] at h
  | some action =>
    cases hre : ai.reasoning with
    | none => simp [hact, hre] at h
    | some reasoning =>
      cases han : options.analysis with
      | none => simp [hact, hre, han] at h
      | some analysis =>
        simp only [hact, hre, han] at h
        by_cases hempty : action = "" ∨ reasoning = ""
        · rw [if_pos hempty] at h
          simp at h
        · rw [if_neg hempty] at h
          by_cases hvalid : toUpperCase action ∈ validActions
          · simp only [hvalid, if_true, Option.some.injEq] at h
            rw [← h]
          · simp only [hvalid, if_false] at h
            simp at h

/-! ## Theorems: the paths of `getRecommendations` -/

/-- C24 (failing input): on a fresh agent whose configuration has no `localAI` section (the
shape of config.example.js), `getRecommendations` on well-formed options returns the error
recommendation and leaves the state as it was: the history stays empty and
`getLastRecommendation` returns null, not the recommendation returned. -/
theorem getRecommendations_error_not_stored :
    getRecommendations String.toUpper ⟨false, none, none⟩ "t" initialState FetchResult.requestFailed
        ⟨"BTC/USDT", some ⟨ScoreValue.num 85, some []⟩, 1, "15m"⟩ =
      (errorRecommendation "t", initialState) ∧
    initialState.recommendationHistory.getLast? = none ∧
    getLastRecommendation initialState = none := ⟨rfl, rfl, rfl⟩

/-- C25 (counterexample): with external integration enabled and no API key configured,
`getRecommendations` returns the error recommendation (HOLD), although
`getLocalAIRecommendations` computes STRONG_BUY with confidence 85 for the same options. -/
theorem getRecommendations_missing_key_counterexample :
    getRecommendations String.toUpper ⟨true, none, some ⟨80, 60, 40, 20⟩⟩ "t" initialState
        FetchResult.requestFailed ⟨"BTC/USDT", some ⟨ScoreValue.num 85, some []⟩, 1, "15m"⟩ =
      (errorRecommendation "t", initialState) ∧
    (errorRecommendation "t").action = "HOLD" ∧
    ∃ r st', getLocalAIRecommendations ⟨true, none, some ⟨80, 60, 40, 20⟩⟩ "t" initialState
        ⟨"BTC/USDT", some ⟨ScoreValue.num 85, some []⟩, 1, "15m"⟩ = some (r, st') ∧
      r.action = "STRONG_BUY" ∧ r.confidence = 85 := by
  have h85 : mathRound 85 = 85 := by
    have h := mathRound_intCast 85
    norm_num at h ⊢
    exact h
  refine ⟨rfl, rfl, _, _, rfl, ?_, ?_⟩
  · simp [localDecision, ScoreValue.ge, ScoreValue.toNumber]
    norm_num
  · simp [localDecision, ScoreValue.ge, ScoreValue.toNumber]
    norm_num [h85]

/-- C25 (amended): with external integration enabled and an API key configured, whenever the
external path fails inside its `try` blocks (request failure, non-OK response, no JSON
object, missing action or reasoning, action outside the five enum values after
upper-casing), `getRecommendations` returns exactly what `getLocalAIRecommendations`
computes for the same options, and the error recommendation only when that computation
itself throws; when no API key is configured it returns the error recommendation and
leaves the state as it was. -/
theorem getRecommendations_fallback (toUpperCase : String → String)
    (config : AgentConfig) (now : String) (st : AgentState)
    (fetchResult : FetchResult) (options : AgentOptions)
    (hext : config.externalAPIEnabled = true) :
    (∀ key, config.apiKey = some key → key ≠ "" → externalFailure toUpperCase fetchResult = true →
      (∀ r st', getLocalAIRecommendations config now st options = some (r, st') →
        getRecommendations toUpperCase config now st fetchResult options = (r, st')) ∧
      (getLocalAIRecommendations config now st options = none →
        getRecommendations toUpperCase config now st fetchResult options =
          (errorRecommendation now, st))) ∧
    (config.apiKey = none ∨ config.apiKey = some "" →
      getRecommendations toUpperCase config now st fetchResult options =
        (errorRecommendation now, st)) := by
  constructor
  · intro key hkey hne hfail
    have h := externalFailure_fallback toUpperCase config now st fetchResult options key hkey
      hne hfail
    unfold getRecommendations
    simp only [hext, if_true, h]
    constructor
    · intro r st' hl
      rw [hl]
    · intro hl
      rw [hl]
  · intro hkey
    have h := external_throws_without_key toUpperCase config now st fetchResult options hkey
    unfold getRecommendations
    simp only [hext, if_true, h]

/-- C25 witness: with the key "k" configured, thresholds 80/60/40/20 and score 85, a
failed request and a response whose action "wait" is no enum value after upper-casing both
end in the local recommendation. -/
theorem getRecommendations_fallback_witness :
    ∃ r st',
      getLocalAIRecommendations ⟨true, some "k", some ⟨80, 60, 40, 20⟩⟩ "t" initialState
          ⟨"BTC/USDT", some ⟨ScoreValue.num 85, some []⟩, 1, "15m"⟩ = some (r, st') ∧
      getRecommendations String.toUpper ⟨true, some "k", some ⟨80, 60, 40, 20⟩⟩ "t"
          initialState FetchResult.requestFailed
          ⟨"BTC/USDT", some ⟨ScoreValue.num 85, some []⟩, 1, "15m"⟩ = (r, st') ∧
      getRecommendations String.toUpper ⟨true, some "k", some ⟨80, 60, 40, 20⟩⟩ "t"
          initialState
          (FetchResult.ok (ExternalResponse.parsed "text"
            ⟨some "wait", some "because", ParsedInt.int 90⟩))
          ⟨"BTC/USDT", some ⟨ScoreValue.num 85, some []⟩, 1, "15m"⟩ = (r, st') :=
  ⟨_, _, rfl,
    ((getRecommendations_fallback String.toUpper ⟨true, some "k", some ⟨80, 60, 40, 20⟩⟩ "t"
      initialState FetchResult.requestFailed
      ⟨"BTC/USDT", some ⟨ScoreValue.num 85, some []⟩, 1, "15m"⟩
      rfl).1 "k" rfl (by decide) rfl).1 _ _ rfl,
    ((getRecommendations_fallback String.toUpper ⟨true, some "k", some ⟨80, 60, 40, 20⟩⟩ "t"
      initialState
      (FetchResult.ok (ExternalResponse.parsed "text"
        ⟨some "wait", some "because", ParsedInt.int 90⟩))
      ⟨"BTC/USDT", some ⟨ScoreValue.num 85, some []⟩, 1, "15m"⟩
      rfl).1 "k" rfl (by decide) (by decide!)).1 _ _ rfl⟩

/-- C26 (failing input): under the thresholds 80/60/40/20 a null score is compared as the
number 0, so `getLocalAIRecommendations` returns STRONG_SELL with confidence 100, not HOLD
with confidence 50; an absent (undefined) score does give HOLD with confidence 50. -/
theorem getLocalAIRecommendations_null_score :
    (∃ r st', getLocalAIRecommendations ⟨false, none, some ⟨80, 60, 40, 20⟩⟩ "t" initialState
          ⟨"BTC/USDT", some ⟨ScoreValue.null, some []⟩, 1, "15m"⟩ = some (r, st') ∧
        r.action = "STRONG_SELL" ∧ r.confidence = 100) ∧
      (∃ r st', getLocalAIRecommendations ⟨false, none, some ⟨80, 60, 40, 20⟩⟩ "t" initialState
          ⟨"BTC/USDT", some ⟨ScoreValue.undefined, some []⟩, 1, "15m"⟩ = some (r, st') ∧
        r.action = "HOLD" ∧ r.confidence = 50) := by
  have h100 : mathRound 100 = 100 := by
    have h := mathRound_intCast 100
    norm_num at h ⊢
    exact h
  have h50 : mathRound 50 = 50 := by
    have h := mathRound_intCast 50
    norm_num at h ⊢
    exact h
  constructor
  · refine ⟨_, _, rfl, ?_, ?_⟩
    · simp [localDecision, ScoreValue.ge, ScoreValue.le, ScoreValue.toNumber]
      norm_num
    · simp [localDecision, ScoreValue.ge, ScoreValue.le, ScoreValue.toNumber]
      norm_num [h100]
  · refine ⟨_, _, rfl, ?_, ?_⟩
    · simp [localDecision, ScoreValue.ge, ScoreValue.le, ScoreValue.toNumber]
    · simp [localDecision, ScoreValue.ge, ScoreValue.le, ScoreValue.toNumber, h50]

/-! ## Theorems: the confidence of an external recommendation -/

theorem parseIntOfInteger_small (c : ℤ) (h : c.natAbs < 10 ^ 21) :
    parseIntOfInteger c = ParsedInt.int c := by
  unfold parseIntOfInteger
  rw [if_pos h]

/-- A response with the action "BUY", the reasoning "because" and any confidence is valid:
the `try` block of `parseExternalAIResponse` builds and stores a recommendation (upper-casing
leaves the ASCII string "BUY" as it is). -/
theorem parseTry_buy (now : String) (st : AgentState) (confidence : ParsedInt) :
    parseExternalAIResponseTry String.toUpper now st
        (ExternalResponse.parsed "text" ⟨some "BUY", some "because", confidence⟩)
        ⟨"BTC/USDT", some ⟨ScoreValue.num 85, some []⟩, 1, "15m"⟩ =
      some (⟨"BUY", externalConfidence confidence, "because", now,
          some ⟨"BTC/USDT", "15m", 1, ScoreValue.num 85, some [], some "text", none⟩⟩,
        record now st
          ⟨"BUY", externalConfidence confidence, "because", now,
            some ⟨"BTC/USDT", "15m", 1, ScoreValue.num 85, some [], some "text", none⟩⟩) := by
  have hup : "BUY".toUpper = "BUY" := by with_unfolding_all rfl
  unfold parseExternalAIResponseTry
  simp only [hup, validActions]
  simp

theorem leadingDigit_pow (k : Nat) : leadingDigit (10 ^ k) = 1 := by
  unfold leadingDigit
  rw [Nat.log_pow (by decide), Nat.div_self (by positivity)]

/-- The numeral of 10^21 is "1e+21", of which `parseInt` reads 1. -/
theorem parseIntOfInteger_pow : parseIntOfInteger (10 ^ 21) = ParsedInt.int 1 := by
  have e : ((10 : ℤ) ^ 21).natAbs = 10 ^ 21 := by
    rw [Int.natAbs_pow]
    rfl
  have hs : ((10 : ℤ) ^ 21).sign = 1 := Int.sign_eq_one_of_pos (by positivity)
  unfold parseIntOfInteger
  rw [e, if_neg (lt_irrefl _), leadingDigit_pow, hs]
  rfl

/-- C30 (counterexample): a valid response whose confidence is the integer 10^21 gets the
confidence 1, not min(100, max(0, 10^21)) = 100: `parseInt` reads the numeral "1e+21". -/
theorem parseExternalAIResponse_huge_confidence_counterexample :
    (∃ r st', parseExternalAIResponse String.toUpper ⟨true, some "k", some ⟨80, 60, 40, 20⟩⟩
        "t" initialState
        (ExternalResponse.parsed "text"
          ⟨some "BUY", some "because", parseIntOfInteger (10 ^ 21)⟩)
        ⟨"BTC/USDT", some ⟨ScoreValue.num 85, some []⟩, 1, "15m"⟩ = some (r, st') ∧
      r.confidence = 1) ∧
    min (100 : ℚ) (max 0 ((10 ^ 21 : ℤ) : ℚ)) = 100 := by
  have h := parseTry_buy "t" initialState (parseIntOfInteger (10 ^ 21))
  constructor
  · refine ⟨_, _, by unfold parseExternalAIResponse; rw [h], ?_⟩
    rw [parseIntOfInteger_pow]
    simp [externalConfidence]
  · norm_num

/-- C30 (amended): for every valid parsed external response with an integer confidence c of
absolute value below 10^21, `parseExternalAIResponse` returns confidence 50 when c = 0 and
min(100, max(0, c)) otherwise; a missing or non-numeric confidence (`parseInt` gives NaN)
also yields 50. -/
theorem parseExternalAIResponse_confidence (toUpperCase : String → String)
    (config : AgentConfig) (now : String)
    (st : AgentState) (responseText : String) (ai : AiRecommendation) (options : AgentOptions)
    (r : Recommendation) (st' : AgentState)
    (hvalid : parseExternalAIResponseTry toUpperCase now st
      (ExternalResponse.parsed responseText ai) options = some (r, st')) :
    parseExternalAIResponse toUpperCase config now st
        (ExternalResponse.parsed responseText ai) options = some (r, st') ∧
      (∀ c : ℤ, c.natAbs < 10 ^ 21 → ai.confidence = parseIntOfInteger c →
        r.confidence = if c = 0 then 50 else min 100 (max 0 (c : ℚ))) ∧
      (ai.confidence = ParsedInt.nan → r.confidence = 50) := by
  have hc := parseTry_confidence toUpperCase now st responseText ai options (r, st') hvalid
  dsimp only at hc
  refine ⟨?_, ?_, ?_⟩
  · unfold parseExternalAIResponse
    rw [hvalid]
  · intro c hsmall hai
    rw [hc, hai, parseIntOfInteger_small c hsmall]
    rfl
  · intro hai
    rw [hc, hai]
    rfl

/-- C30 witness: the response with action "BUY" and the integer confidence 85. -/
theorem parseExternalAIResponse_confidence_witness :
    ∃ r st', parseExternalAIResponse String.toUpper ⟨true, some "k", some ⟨80, 60, 40, 20⟩⟩
        "t" initialState
        (ExternalResponse.parsed "text" ⟨some "BUY", some "because", parseIntOfInteger 85⟩)
        ⟨"BTC/USDT", some ⟨ScoreValue.num 85, some []⟩, 1, "15m"⟩ = some (r, st') ∧
      r.confidence = if (85 : ℤ) = 0 then 50 else min 100 (max 0 ((85 : ℤ) : ℚ)) :=
  ⟨_, _,
    (parseExternalAIResponse_confidence String.toUpper ⟨true, some "k", some ⟨80, 60, 40, 20⟩⟩ "t"
      initialState "text" ⟨some "BUY", some "because", parseIntOfInteger 85⟩
      ⟨"BTC/USDT", some ⟨ScoreValue.num 85, some []⟩, 1, "15m"⟩ _ _
      (parseTry_buy "t" initialState (parseIntOfInteger 85))).1,
    (parseExternalAIResponse_confidence String.toUpper ⟨true, some "k", some ⟨80, 60, 40, 20⟩⟩ "t"
      initialState "text" ⟨some "BUY", some "because", parseIntOfInteger 85⟩
      ⟨"BTC/USDT", some ⟨ScoreValue.num 85, some []⟩, 1, "15m"⟩ _ _
      (parseTry_buy "t" initialState (parseIntOfInteger 85))).2.1 85 (by decide) rfl⟩

end AgentPaths

/-! ## Lemmas: MACD trend, sub-signal and the score -/

theorem closes_candlesOfCloses (l : List ℚ) :
    (candlesOfCloses l).map (fun candle => candle.close) = l := by
  unfold candlesOfCloses
  rw [List.map_map]
  exact List.map_id l

theorem length_candlesOfCloses (l : List ℚ) : (candlesOfCloses l).length = l.length := by
  unfold candlesOfCloses
  rw [List.length_map]

/-- The scanner's analysis of at least 30 candles has the long form. -/
theorem scanner_analysis_indicators (settings : ScanSettings) (ohlcv : List Candle)
    (price : ℚ) (h : 30 ≤ ohlcv.length) :
    ∃ ind, (MarketScanner.analyzeMarket settings ohlcv price).indicators = some ind := by
  obtain ⟨r, hr⟩ := scanner_calculateRSI_isSome (ohlcv.map (fun candle => candle.close)) 14
  obtain ⟨l, hl, -⟩ := scanner_rsiSignals_core r
  unfold MarketScanner.analyzeMarket
  rw [if_neg (by omega)]
  simp only [hr, hl]
  exact ⟨_, rfl⟩

/-- The score of the scanner's analysis is the composite score of `scoreMetrics`. -/
theorem scanner_analysis_score (settings : ScanSettings) (ohlcv : List Candle)
    (price : ℚ) (h : 30 ≤ ohlcv.length) (hen : settings.scoringSystem.enabled = true) :
    (MarketScanner.analyzeMarket settings ohlcv price).score =
      some (MarketScanner.calculateCompositeScore settings.scoringSystem.weights
        (MarketScanner.scoreMetrics ohlcv)) := by
  obtain ⟨r, hr⟩ := scanner_calculateRSI_isSome (ohlcv.map (fun candle => candle.close)) 14
  obtain ⟨l, hl, -⟩ := scanner_rsiSignals_core r
  unfold MarketScanner.analyzeMarket MarketScanner.scoreMetrics
  rw [if_neg (by omega)]
  simp only [hr, hl, hen, if_true]

theorem scanner_calculateMACD_histogram (prices : List ℚ) (fast slow sig : Nat) (m : MacdData)
    (h : MarketScanner.calculateMACD prices fast slow sig = some m) :
    m.histogram = m.macd - m.signal := by
  unfold MarketScanner.calculateMACD at h
  split_ifs at h
  simp only [Option.some.injEq] at h
  rw [← h]

theorem app_calculateMACD_histogram (prices : List ℚ) (m : MacdData)
    (h : App.calculateMACD prices 12 26 9 = some m) :
    m.histogram = m.macd - m.signal := by
  by_cases hlen : prices.length < 26 + 9
  · unfold App.calculateMACD at h
    rw [if_pos hlen] at h
    simp at h
  · rw [app_calculateMACD_eq_spec prices 12 26 9 (by decide) (by decide) (by decide)
      (by omega)] at h
    simp only [Option.some.injEq] at h
    rw [← h]
    rfl

theorem app_macdTrend_iff (m : MacdData) (h : m.histogram = m.macd - m.signal) :
    ((App.macdTrendOf (some m)).1 = "bullish" ↔
        (App.macdTrendOf (some m)).2 = "buy" ∨ (App.macdTrendOf (some m)).2 = "strong_buy") ∧
      ((App.macdTrendOf (some m)).1 = "bearish" ↔
        (App.macdTrendOf (some m)).2 = "sell" ∨
          (App.macdTrendOf (some m)).2 = "strong_sell") := by
  unfold App.macdTrendOf App.macdCross
  rcases lt_trichotomy m.macd m.signal with hlt | heq | hgt
  · have hh : m.histogram < 0 := by rw [h]; linarith
    have h1 : ¬ m.macd > m.signal := not_lt.mpr (le_of_lt hlt)
    have h2 : ¬ m.histogram > 0 := not_lt.mpr (le_of_lt hh)
    by_cases hs : m.macd < 0 ∧ m.signal < 0
    · simp [h1, h2, hlt, hh, hs]
    · simp [h1, h2, hlt, hh, hs]
  · have hh : m.histogram = 0 := by rw [h, heq]; ring
    simp [heq, hh]
  · have hh : m.histogram > 0 := by rw [h]; linarith
    have h1 : ¬ m.macd < m.signal := not_lt.mpr (le_of_lt hgt)
    have h2 : ¬ m.histogram < 0 := not_lt.mpr (le_of_lt hh)
    by_cases hs : m.macd > 0 ∧ m.signal > 0
    · simp [h1, h2, hgt, hh, hs]
    · simp [h1, h2, hgt, hh, hs]

theorem scanner_macdTrend_iff (m : MacdData) (h : m.histogram = m.macd - m.signal) :
    ((MarketScanner.macdTrendOf (some m)).1 = "bullish" ↔
        (MarketScanner.macdTrendOf (some m)).2 = "buy" ∨
          (MarketScanner.macdTrendOf (some m)).2 = "strong_buy") ∧
      ((MarketScanner.macdTrendOf (some m)).1 = "bearish" ↔
        (MarketScanner.macdTrendOf (some m)).2 = "sell" ∨
          (MarketScanner.macdTrendOf (some m)).2 = "strong_sell") := by
  unfold MarketScanner.macdTrendOf MarketScanner.macdCross
  rcases lt_trichotomy m.macd m.signal with hlt | heq | hgt
  · have hh : m.histogram < 0 := by rw [h]; linarith
    have h1 : ¬ m.macd > m.signal := not_lt.mpr (le_of_lt hlt)
    have h2 : ¬ m.histogram > 0 := not_lt.mpr (le_of_lt hh)
    by_cases hs : m.macd < 0 ∧ m.signal < 0
    · simp [h1, h2, hlt, hh, hs]
    · simp [h1, h2, hlt, hh, hs]
  · have hh : m.histogram = 0 := by rw [h, heq]; ring
    simp [heq, hh]
  · have hh : m.histogram > 0 := by rw [h]; linarith
    have h1 : ¬ m.macd < m.signal := not_lt.mpr (le_of_lt hgt)
    have h2 : ¬ m.histogram < 0 := not_lt.mpr (le_of_lt hh)
    by_cases hs : m.macd > 0 ∧ m.signal > 0
    · simp [h1, h2, hgt, hh, hs]
    · simp [h1, h2, hgt, hh, hs]

theorem app_macdSignals_action (m : MacdData) (sub : String) :
    ((∃ s ∈ App.macdSignals (some m) sub, s.action = "buy") ↔
        sub = "buy" ∨ sub = "strong_buy") ∧
      ((∃ s ∈ App.macdSignals (some m) sub, s.action = "sell") ↔
        sub = "sell" ∨ sub = "strong_sell") := by
  unfold App.macdSignals
  by_cases hb : sub = "buy" ∨ sub = "strong_buy"
  · have hns : ¬ (sub = "sell" ∨ sub = "strong_sell") := by
      rcases hb with h | h <;> simp [h]
    simp [hb, hns]
  · by_cases hs : sub = "sell" ∨ sub = "strong_sell"
    · simp [hb, hs]
    · simp [hb, hs]

theorem scanner_macdSignals_action (m : MacdData) (sub : String) :
    ((∃ s ∈ MarketScanner.macdSignals (some m) sub, s.action = "buy") ↔
        sub = "buy" ∨ sub = "strong_buy") ∧
      ((∃ s ∈ MarketScanner.macdSignals (some m) sub, s.action = "sell") ↔
        sub = "sell" ∨ sub = "strong_sell") := by
  unfold MarketScanner.macdSignals
  by_cases hb : sub = "buy" ∨ sub = "strong_buy"
  · have hns : ¬ (sub = "sell" ∨ sub = "strong_sell") := by
      rcases hb with h | h <;> simp [h]
    simp [hb, hns]
  · by_cases hs : sub = "sell" ∨ sub = "strong_sell"
    · simp [hb, hs]
    · simp [hb, hs]

/-- The guard `macdTrendOnlyBranch` is the guard of the two `weights.momentum * 30`
branches: when it is false the MACD block adds one of the four sub-signal terms or
nothing. -/
theorem applyMacd_of_not_trendOnly (weights : Weights) (metrics : Metrics) (score : ℚ)
    (h : MarketScanner.macdTrendOnlyBranch metrics = false) :
    MarketScanner.applyMacd weights metrics score =
      if metrics.macd.data.isSome then
        if metrics.macd.signal = "strong_buy" then score + weights.momentum * 100
        else if metrics.macd.signal = "buy" then score + weights.momentum * 70
        else if metrics.macd.signal = "strong_sell" then score - weights.momentum * 100
        else if metrics.macd.signal = "sell" then score - weights.momentum * 70
        else score
      else score := by
  unfold MarketScanner.macdTrendOnlyBranch at h
  unfold MarketScanner.applyMacd
  by_cases hd : metrics.macd.data.isSome = true
  · simp only [hd, if_true]
    by_cases h1 : metrics.macd.signal = "strong_buy"
    · simp [h1]
    · by_cases h2 : metrics.macd.signal = "buy"
      · simp [h2]
      · by_cases h3 : metrics.macd.signal = "strong_sell"
        · simp [h3]
        · by_cases h4 : metrics.macd.signal = "sell"
          · simp [h4]
          · simp only [h1, h2, h3, h4, if_false]
            simp [hd, h1, h2, h3, h4] at h
            simp [h.1, h.2]
  · simp [hd]

theorem scoreMetrics_not_trendOnly (ohlcv : List Candle) :
    MarketScanner.macdTrendOnlyBranch (MarketScanner.scoreMetrics ohlcv) = false := by
  unfold MarketScanner.macdTrendOnlyBranch MarketScanner.scoreMetrics
  dsimp only
  cases hm : MarketScanner.calculateMACD (ohlcv.map (fun candle => candle.close)) 12 26 9 with
  | none => simp
  | some m =>
    have hh := scanner_calculateMACD_histogram _ 12 26 9 m hm
    obtain ⟨hb, hs⟩ := scanner_macdTrend_iff m hh
    by_cases h1 : (MarketScanner.macdTrendOf (some m)).1 = "bullish"
    · rcases hb.mp h1 with h | h <;> simp [h]
    · by_cases h2 : (MarketScanner.macdTrendOf (some m)).1 = "bearish"
      · rcases hs.mp h2 with h | h <;> simp [h]
      · simp [h1, h2]

/-! ## Theorems: MACD trend, sub-signal and the score -/

/-- C28: in both analysis flows, whenever MACD is available, macdTrend is bullish exactly
when the MACD sub-signal is buy or strong_buy, which is exactly when a MACD buy signal is
emitted, and bearish exactly when the sub-signal is sell or strong_sell, which is exactly
when a MACD sell signal is emitted; consequently the metrics bundle that analyzeMarket
passes to calculateCompositeScore never meets the guard of the two branches that add or
subtract weights.momentum * 30: on it the MACD block adds a sub-signal term or nothing. -/
theorem macdTrend_iff_subsignal :
    (∀ (ohlcv : List Candle) (sp lp : Nat) (price : ℚ) (a : Analysis) (m : MacdData),
      App.calculateTechnicalAnalysis ohlcv sp lp price = some a → a.macd = some m →
      (a.macdTrend = "bullish" ↔
        (App.macdTrendOf a.macd).2 = "buy" ∨ (App.macdTrendOf a.macd).2 = "strong_buy") ∧
      (a.macdTrend = "bearish" ↔
        (App.macdTrendOf a.macd).2 = "sell" ∨ (App.macdTrendOf a.macd).2 = "strong_sell") ∧
      (a.macdTrend = "bullish" ↔ ∃ s ∈ signalsFrom "MACD" a.signals, s.action = "buy") ∧
      (a.macdTrend = "bearish" ↔ ∃ s ∈ signalsFrom "MACD" a.signals, s.action = "sell")) ∧
    (∀ (settings : ScanSettings) (ohlcv : List Candle) (price : ℚ) (ind : Indicators)
        (m : MacdData),
      (MarketScanner.analyzeMarket settings ohlcv price).indicators = some ind →
      ind.macd = some m →
      (ind.macdTrend = "bullish" ↔
        (MarketScanner.macdTrendOf ind.macd).2 = "buy" ∨
          (MarketScanner.macdTrendOf ind.macd).2 = "strong_buy") ∧
      (ind.macdTrend = "bearish" ↔
        (MarketScanner.macdTrendOf ind.macd).2 = "sell" ∨
          (MarketScanner.macdTrendOf ind.macd).2 = "strong_sell") ∧
      (ind.macdTrend = "bullish" ↔
        ∃ s ∈ signalsFrom "MACD" (MarketScanner.analyzeMarket settings ohlcv price).signals,
          s.action = "buy") ∧
      (ind.macdTrend = "bearish" ↔
        ∃ s ∈ signalsFrom "MACD" (MarketScanner.analyzeMarket settings ohlcv price).signals,
          s.action = "sell")) ∧
    (∀ (settings : ScanSettings) (ohlcv : List Candle) (price : ℚ),
      30 ≤ ohlcv.length → settings.scoringSystem.enabled = true →
      (MarketScanner.analyzeMarket settings ohlcv price).score =
        some (MarketScanner.calculateCompositeScore settings.scoringSystem.weights
          (MarketScanner.scoreMetrics ohlcv))) ∧
    (∀ ohlcv : List Candle,
      MarketScanner.macdTrendOnlyBranch (MarketScanner.scoreMetrics ohlcv) = false) ∧
    (∀ (weights : Weights) (ohlcv : List Candle) (score : ℚ),
      MarketScanner.applyMacd weights (MarketScanner.scoreMetrics ohlcv) score =
        if (MarketScanner.scoreMetrics ohlcv).macd.data.isSome then
          if (MarketScanner.scoreMetrics ohlcv).macd.signal = "strong_buy" then
            score + weights.momentum * 100
          else if (MarketScanner.scoreMetrics ohlcv).macd.signal = "buy" then
            score + weights.momentum * 70
          else if (MarketScanner.scoreMetrics ohlcv).macd.signal = "strong_sell" then
            score - weights.momentum * 100
          else if (MarketScanner.scoreMetrics ohlcv).macd.signal = "sell" then
            score - weights.momentum * 70
          else score
        else score) := by
  refine ⟨?_, ?_, ?_, scoreMetrics_not_trendOnly, fun weights ohlcv score =>
    applyMacd_of_not_trendOnly weights _ score (scoreMetrics_not_trendOnly ohlcv)⟩
  · intro ohlcv sp lp price a m ha hm
    obtain ⟨-, -, -, hmacd, -, -, htrend, -⟩ := app_analysis_fields ha
    obtain ⟨-, -, hsig, -⟩ := app_signals_by_origin ha
    have hh : m.histogram = m.macd - m.signal := by
      rw [hm] at hmacd
      exact app_calculateMACD_histogram _ m hmacd.symm
    rw [htrend, hsig, hm]
    obtain ⟨hb, hs⟩ := app_macdTrend_iff m hh
    obtain ⟨hab, has⟩ := app_macdSignals_action m (App.macdTrendOf (some m)).2
    exact ⟨hb, hs, hb.trans hab.symm, hs.trans has.symm⟩
  · intro settings ohlcv price ind m ha hm
    obtain ⟨-, -, -, hmacd, -, -, htrend, -⟩ := scanner_analysis_fields ha
    obtain ⟨-, -, hsig, -⟩ := scanner_signals_by_origin ha
    have hh : m.histogram = m.macd - m.signal := by
      rw [hm] at hmacd
      exact scanner_calculateMACD_histogram _ 12 26 9 m hmacd.symm
    rw [htrend, hsig, hm]
    obtain ⟨hb, hs⟩ := scanner_macdTrend_iff m hh
    obtain ⟨hab, has⟩ := scanner_macdSignals_action m (MarketScanner.macdTrendOf (some m)).2
    exact ⟨hb, hs, hb.trans hab.symm, hs.trans has.symm⟩
  · intro settings ohlcv price hlen hen
    exact scanner_analysis_score settings ohlcv price hlen hen

/-- C28 witness: the metrics bundle of 50 candles closing at 1 does not meet the guard,
and it is the bundle that the analysis under the default settings scores. -/
theorem macdTrend_iff_subsignal_witness :
    (MarketScanner.analyzeMarket MarketScanner.defaultSettings
        (candlesOfCloses (List.replicate 50 1)) 1).score =
      some (MarketScanner.calculateCompositeScore
        MarketScanner.defaultSettings.scoringSystem.weights
        (MarketScanner.scoreMetrics (candlesOfCloses (List.replicate 50 1)))) ∧
    MarketScanner.macdTrendOnlyBranch
      (MarketScanner.scoreMetrics (candlesOfCloses (List.replicate 50 1))) = false :=
  ⟨macdTrend_iff_subsignal.2.2.1 MarketScanner.defaultSettings
      (candlesOfCloses (List.replicate 50 1)) 1
      (by rw [length_candlesOfCloses, List.length_replicate]; decide) rfl,
    macdTrend_iff_subsignal.2.2.2.1 (candlesOfCloses (List.replicate 50 1))⟩


/-! ## Lemmas: MACD of a constant series in the scanner -/

/-- On 50 closes all equal to 1 the scanner's MACD has a positive signal line. -/
theorem scanner_calculateMACD_fifty_ones :
    MarketScanner.calculateMACD (List.replicate 50 1) 12 26 9 =
      some { macd := 0
             signal := 8589934592 / 89263916015625
             histogram := -(8589934592 / 89263916015625) } := by
  have h12 : specEMA (List.replicate 50 1) 12 = 1 := by
    rw [specEMA_replicate 1 50 12 (by decide), if_pos (by decide)]
  have h26 : specEMA (List.replicate 50 1) 26 = 1 := by
    rw [specEMA_replicate 1 50 26 (by decide), if_pos (by decide)]
  have hsig : specEMA ((1 / 26) :: List.replicate 25 0) 9 =
      8589934592 / 89263916015625 := by
    unfold specEMA
    rw [show (9 : ℕ) = 8 + 1 from rfl, List.take_succ_cons, List.drop_succ_cons,
      List.take_replicate, List.drop_replicate, List.sum_cons, List.sum_replicate,
      smul_zero, foldl_ema_zeros]
    norm_num
  unfold MarketScanner.calculateMACD
  simp only [scanner_calculateEMA_eq_specEMA, macdValues_fifty_ones, h12, h26, hsig,
    List.length_replicate]
  norm_num

/-- On a constant series the full-series MACD of app.js is (0, 0, 0). -/
theorem app_calculateMACD_constant (c : ℚ) (n : Nat) (h : 35 ≤ n) :
    App.calculateMACD (List.replicate n c) 12 26 9 =
      some { macd := 0, signal := 0, histogram := 0 } := by
  rw [app_calculateMACD_eq_spec _ 12 26 9 (by decide) (by decide) (by decide)
    (by rw [List.length_replicate]; omega)]
  unfold specMACD
  rw [specMacdLine_replicate c n 12 26 (by decide) (by decide),
    specEMA_replicate c n 12 (by decide), specEMA_replicate c n 26 (by decide),
    specEMA_replicate 0 _ 9 (by decide), if_pos (by omega), if_pos (by omega)]
  simp

/-- From 51 equal closes on, the scanner's MACD is (0, 0, 0) as well. -/
theorem scanner_calculateMACD_constant (c : ℚ) (n : Nat) (h : 51 ≤ n) :
    MarketScanner.calculateMACD (List.replicate n c) 12 26 9 =
      some { macd := 0, signal := 0, histogram := 0 } := by
  have hv : MarketScanner.macdValues (List.replicate n c) 12 26 = List.replicate 26 0 := by
    rw [macdValues_eq_map, List.length_replicate, List.eq_replicate_iff]
    refine ⟨by simp; omega, ?_⟩
    intro b hb
    rw [List.mem_map] at hb
    obtain ⟨k, hk, hb⟩ := hb
    rw [List.mem_range] at hk
    rw [← hb, List.take_replicate, specEMA_replicate c _ 12 (by decide),
      specEMA_replicate c _ 26 (by decide)]
    have e2 : min (n - 26 + k + 1) n = n - 26 + k + 1 := by omega
    rw [e2, if_pos (by omega), if_pos (by omega), sub_self]
  unfold MarketScanner.calculateMACD
  rw [if_neg (by rw [List.length_replicate]; omega)]
  simp only [scanner_calculateEMA_eq_specEMA, hv]
  rw [specEMA_replicate c n 12 (by decide), specEMA_replicate c n 26 (by decide),
    specEMA_replicate 0 26 9 (by decide), if_pos (by omega), if_pos (by omega),
    if_pos (by decide)]
  simp

/-! ## Theorems: MACD of a constant series in the scanner -/

/-- C27 (failing input): on 50 candles that all close at 1 (the scanner's lookback),
`MarketScanner.calculateMACD` returns macd 0 with the signal 8589934592/89263916015625 and
the opposite histogram, so `analyzeMarket` reports macdTrend bearish and emits one
macd_crossover sell signal of strength 70. -/
theorem analyzeMarket_constant_closes_macd :
    ∃ ind,
      (MarketScanner.analyzeMarket MarketScanner.defaultSettings
        (candlesOfCloses (List.replicate 50 1)) 1).indicators = some ind ∧
      ind.macd = some { macd := 0
                        signal := 8589934592 / 89263916015625
                        histogram := -(8589934592 / 89263916015625) } ∧
      ind.macdTrend = "bearish" ∧
      (signalsFrom "MACD" (MarketScanner.analyzeMarket MarketScanner.defaultSettings
        (candlesOfCloses (List.replicate 50 1)) 1).signals).map Signal.core =
        [("macd_crossover", "sell", 70)] := by
  obtain ⟨ind, hind⟩ := scanner_analysis_indicators MarketScanner.defaultSettings
    (candlesOfCloses (List.replicate 50 1)) 1
    (by rw [length_candlesOfCloses, List.length_replicate]; decide)
  obtain ⟨-, -, -, hmacd, -, -, htrend, -⟩ := scanner_analysis_fields hind
  obtain ⟨-, -, hsig, -⟩ := scanner_signals_by_origin hind
  rw [closes_candlesOfCloses, scanner_calculateMACD_fifty_ones] at hmacd
  refine ⟨ind, hind, hmacd, ?_, ?_⟩
  · rw [htrend, hmacd]
    unfold MarketScanner.macdTrendOf MarketScanner.macdCross
    norm_num
  · rw [hsig, hmacd, scanner_macdSignals_core]
    unfold specMacdSignalCore
    norm_num

/-! ## Theorems: the score under a neutral SMA trend -/

/-- C29 (counterexample): for a neutral trend, RSI 50, no MACD data, current volume equal
to the average and a percent range of 10, the volatility weight 7/10 gives the score 0,
which is none of 50 minus the weight times 20, 60 or 100 (36, 8 and -20). -/
theorem neutral_score_clamped_counterexample :
    MarketScanner.calculateCompositeScore ⟨1 / 10, 1 / 10, 1 / 10, 7 / 10⟩
        ⟨⟨"neutral", 0⟩, ⟨50, "neutral"⟩, ⟨"neutral", "none", none⟩, ⟨10, 10⟩,
          ⟨11, 10, 10⟩⟩ = 0 ∧
      (0 : ℚ) ≠ 50 - 7 / 10 * 20 ∧ (0 : ℚ) ≠ 50 - 7 / 10 * 60 ∧
      (0 : ℚ) ≠ 50 - 7 / 10 * 100 := by
  refine ⟨?_, by norm_num, by norm_num, by norm_num⟩
  simp [MarketScanner.calculateCompositeScore, MarketScanner.rawCompositeScore,
    MarketScanner.applyTrend, MarketScanner.applyRsi, MarketScanner.applyMacd,
    MarketScanner.applyVolume, MarketScanner.applyVolatility, MarketScanner.trendSign,
    MarketScanner.percentRange, JsNumber.div, JsNumber.mul, JsNumber.gt]
  norm_num

/-- C29 (amended): when the SMA trend is neutral, the sign applied to the volume and
volatility terms is -1, the sign of a bearish trend, so both blocks act as on the same
metrics with a bearish trend; in particular, for neutral trend, RSI = 50, no MACD data and
current volume between 0.8x and 1.2x of the average, the score is the clamp to [0, 100] of
50 minus weights.volatility times 100, 60 or 20 (percent range above 5, above 2, or
neither), hence strictly below 50 for every positive volatility weight. -/
theorem neutral_trend_score (weights : Weights) (metrics : Metrics)
    (hneutral : metrics.sma.trend = "neutral") :
    MarketScanner.trendSign metrics = -1 ∧
      MarketScanner.trendSign { metrics with sma := { metrics.sma with trend := "bearish" } }
        = -1 ∧
      (∀ score, MarketScanner.applyVolume weights metrics score =
        MarketScanner.applyVolume weights
          { metrics with sma := { metrics.sma with trend := "bearish" } } score) ∧
      (∀ score, MarketScanner.applyVolatility weights metrics score =
        MarketScanner.applyVolatility weights
          { metrics with sma := { metrics.sma with trend := "bearish" } } score) ∧
      (metrics.rsi.value = 50 → metrics.macd.data = none →
        metrics.volume.average * (4 / 5) ≤ metrics.volume.current →
        metrics.volume.current ≤ metrics.volume.average * (6 / 5) →
        MarketScanner.calculateCompositeScore weights metrics =
            MarketScanner.clamp0to100 (50 - weights.volatility *
              (if (MarketScanner.percentRange metrics).gt 5 then 100
                else if (MarketScanner.percentRange metrics).gt 2 then 60 else 20)) ∧
          (0 < weights.volatility →
            MarketScanner.calculateCompositeScore weights metrics < 50)) := by
  have hnb : ("neutral" : String) ≠ "bullish" := by decide
  have hbb : ("bearish" : String) ≠ "bullish" := by decide
  have hnr : ("neutral" : String) ≠ "bearish" := by decide
  have hsign : MarketScanner.trendSign metrics = -1 := by
    unfold MarketScanner.trendSign
    rw [hneutral, if_neg hnb]
  have hsign' : MarketScanner.trendSign
      { metrics with sma := { metrics.sma with trend := "bearish" } } = -1 := by
    unfold MarketScanner.trendSign
    rw [if_neg hbb]
  refine ⟨hsign, hsign', ?_, ?_, ?_⟩
  · intro score
    unfold MarketScanner.applyVolume
    rw [hsign, hsign']
  · intro score
    unfold MarketScanner.applyVolatility
    rw [hsign, hsign']
    rfl
  · intro hrsi hmacd hlow hhigh
    have hraw : MarketScanner.rawCompositeScore weights metrics =
        50 - weights.volatility *
          (if (MarketScanner.percentRange metrics).gt 5 then 100
            else if (MarketScanner.percentRange metrics).gt 2 then 60 else 20) := by
      have hT : MarketScanner.applyTrend weights metrics 50 = 50 := by
        unfold MarketScanner.applyTrend
        rw [hneutral, if_neg hnb, if_neg hnr]
      have hR : MarketScanner.applyRsi weights metrics 50 = 50 := by
        unfold MarketScanner.applyRsi
        rw [hrsi]
        norm_num
      have hM : MarketScanner.applyMacd weights metrics 50 = 50 := by
        unfold MarketScanner.applyMacd
        rw [hmacd]
        rfl
      have havg : 0 ≤ metrics.volume.average := by linarith
      have hV : MarketScanner.applyVolume weights metrics 50 = 50 := by
        unfold MarketScanner.applyVolume
        rw [if_neg (by linarith), if_neg (by linarith), if_neg (by linarith)]
      unfold MarketScanner.rawCompositeScore
      rw [hT, hR, hM, hV]
      unfold MarketScanner.applyVolatility
      rw [hsign]
      split_ifs <;> ring
    constructor
    · unfold MarketScanner.calculateCompositeScore MarketScanner.clamp0to100
      rw [hraw]
    · intro hw
      unfold MarketScanner.calculateCompositeScore
      rw [hraw]
      have hpos : 0 < weights.volatility *
          (if (MarketScanner.percentRange metrics).gt 5 then 100
            else if (MarketScanner.percentRange metrics).gt 2 then 60 else 20) := by
        apply mul_pos hw
        split_ifs <;> norm_num
      rw [max_lt_iff]
      refine ⟨by norm_num, lt_of_le_of_lt (min_le_right _ _) (by linarith)⟩

/-- C29 witness: the default weights on a neutral bundle with RSI 50, no MACD data, volume
at its average and a flat last candle. -/
theorem neutral_trend_score_witness :
    MarketScanner.calculateCompositeScore MarketScanner.defaultSettings.scoringSystem.weights
        ⟨⟨"neutral", 0⟩, ⟨50, "neutral"⟩, ⟨"neutral", "none", none⟩, ⟨10, 10⟩,
          ⟨10, 10, 10⟩⟩ < 50 :=
  ((neutral_trend_score MarketScanner.defaultSettings.scoringSystem.weights
    ⟨⟨"neutral", 0⟩, ⟨50, "neutral"⟩, ⟨"neutral", "none", none⟩, ⟨10, 10⟩, ⟨10, 10, 10⟩⟩
    rfl).2.2.2.2 rfl rfl (by norm_num) (by norm_num)).2
    (by norm_num [MarketScanner.defaultSettings])

end Trade
